import Mathlib

/-!
# Passenger spawn supervisor and worker sessions

A shallow embedding of `ext/common/SpawnManager.h` (passenger 2.2.1),
`ext/common/Application.h` (passenger 2.2.15) and
`ext/common/CachedFileStat.hpp` (passenger 2.2.5).

The code talks to the operating system and to the spawn server.  Both are
modelled by a `World`: a log of the calls the code makes (`trace`), a clock,
and, for every kind of call, a queue of the answers the environment will give
(`...Q` fields, consumed front first).  Every function of the source becomes a
function that takes the object state and the world and returns the result (or
the exception thrown) together with the new object state and world.

Thread interruption (`boost::thread_interrupted`) is outside the model: the
environment never cancels a blocking call.
-/

namespace Passenger

/-! ## Errors -/

/-- An error number reported by a failing system call, together with the text
`strerror` renders for it. -/
structure Errno where
  code : Int
  text : String
deriving DecidableEq, Repr

def EINTR : Int := 4
def EIO : Int := 5
def SIGTERM : Nat := 15

/-- The fields of `SystemException` that the code reads (`Exceptions.h` is not
among the sources): the brief message and the error number it was built from. -/
structure SystemException where
  briefMessage : String
  errno : Errno
deriving DecidableEq, Repr

def SystemException.code (e : SystemException) : Int := e.errno.code

def SystemException.brief (e : SystemException) : String := e.briefMessage

/-- System part of the message of a `SystemException` built from this error
number: `strerror(code) (code)`. -/
def Errno.sys (e : Errno) : String :=
  e.text ++ " (" ++ toString e.code ++ ")"

def SystemException.sys (e : SystemException) : String := e.errno.sys

def SystemException.what (e : SystemException) : String :=
  e.briefMessage ++ ": " ++ e.sys

def SystemException.setBriefMessage (e : SystemException) (message : String) :
    SystemException :=
  { e with briefMessage := message }

/-- A `SpawnException` carries a message and, when built with the two-argument
constructor, an error page. -/
structure SpawnException where
  msg : String
  errorPage : Option String
deriving DecidableEq, Repr

def SpawnException.hasErrorPage (e : SpawnException) : Bool := e.errorPage.isSome

/-- The exceptions thrown by the modelled code. -/
inductive Exc where
  | system (e : SystemException)
  | ioException (what : String)
  | spawn (e : SpawnException)
deriving DecidableEq, Repr

/-- Result of a function of the source: a value or the exception thrown. -/
inductive Res (α : Type) where
  | ok (a : α)
  | error (e : Exc)
deriving DecidableEq, Repr

/-- Answer of the environment to a system call: a value, or failure with
`errno`.  For an operation of the message channel, failure with `errno = e`
stands for the `SystemException` the channel builds from `e`. -/
inductive SysResult (α : Type) where
  | ok (a : α)
  | fail (e : Errno)
deriving DecidableEq, Repr

/-- Answer to `MessageChannel::readFileDescriptor`, which throws either a
`SystemException` or an `IOException`. -/
inductive FdResult where
  | ok (fd : Int)
  | systemError (e : Errno)
  | ioError (what : String)
deriving DecidableEq, Repr

/-! ## The environment -/

abbrev Bytes := List UInt8

inductive ShutHow where
  | SHUT_RD
  | SHUT_WR
deriving DecidableEq, Repr

/-- Which socket timeout `MessageChannel::setReadTimeout` / `setWriteTimeout` sets. -/
inductive TimeoutKind where
  | reader
  | writer
deriving DecidableEq, Repr

/-- The fields of `struct stat` the model keeps. -/
structure Stat where
  st_mode : Nat
  st_size : Nat
  st_mtime : Nat
deriving DecidableEq, Repr

/-- Calls made by the code that are visible outside the process. -/
inductive Event where
  | mutexLock
  | mutexUnlock
  | time
  | waitpid (pid : Int)
  | usleep (usec : Nat)
  | kill (pid : Int) (sig : Nat)
  | socketpair
  | fopen (path : String)
  | fclose (handle : Nat)
  | fork
  | close (fd : Int)
  | shutdown (fd : Int) (how : ShutHow)
  | chmod (path : String) (mode : Nat)
  | chown (path : String) (uid gid : Nat)
  | channelClose (fd : Int)
  | channelWrite (fd : Int) (args : List String)
  | channelRead (fd : Int)
  | channelReadScalar (fd : Int)
  | channelReadFileDescriptor (fd : Int)
  | write (fd : Int) (data : Bytes)
  | writeFailed (fd : Int) (data : Bytes)
  | setTimeout (fd : Int) (kind : TimeoutKind) (msec : Nat)
  | closeCallback (id : Nat)
  | unlink (path : String)
  | getaddrinfo (host port : String)
  | socket
  | connect (fd : Int)
  | connectUnix (path : String)
  | stat (path : String)
deriving DecidableEq, Repr

/-- Answer of the resolver: success, or failure together with the text
`gai_strerror` renders for the error value the code passes to it. -/
inductive ResolveResult where
  | resolved
  | failed (gaiText : String)
deriving DecidableEq, Repr

/-- The pid `fork` returns to the parent process: always positive. -/
abbrev ChildPid := { p : Int // 0 < p }

/-- The environment.  `clock` is the wall clock in microseconds; `uid`/`gid` are
what `getuid()`/`getgid()` return (the real ids of the process) and
`euid`/`egid` what `geteuid()`/`getegid()` return (its effective ids).  Each
queue holds the answers to the successive calls of one kind; an exhausted queue
answers with the default given at the call.  `errno` is the variable of that
name as the stat cache sees it: set by a failing `stat` and by the cache. -/
structure World where
  clock : Nat
  uid : Nat
  gid : Nat
  euid : Nat
  egid : Nat
  trace : List Event
  waitpidQ : List Int
  socketpairQ : List (SysResult (Int × Int))
  fopenQ : List (Option Nat)
  forkQ : List (SysResult ChildPid)
  closeQ : List (SysResult Unit)
  shutdownQ : List (SysResult Unit)
  chmodQ : List (SysResult Unit)
  chownQ : List (SysResult Unit)
  chanWriteQ : List (SysResult Unit)
  chanReadQ : List (SysResult (Option (List String)))
  chanReadScalarQ : List (SysResult (Option String))
  chanReadFdQ : List FdResult
  writeQ : List (SysResult Unit)
  timeoutQ : List (SysResult Unit)
  unlinkQ : List (SysResult Unit)
  getaddrinfoQ : List ResolveResult
  socketQ : List (SysResult Nat)
  connectQ : List (SysResult Unit)
  connectUnixQ : List (SysResult Nat)
  errno : Int
  statQ : List (SysResult Stat)
deriving DecidableEq, Repr

/-- A world with the given clock in which nothing has happened yet and every
queue is empty. -/
def World.init (clock : Nat) : World :=
  { clock := clock, uid := 0, gid := 0, euid := 0, egid := 0, trace := [], waitpidQ := [],
    socketpairQ := [], fopenQ := [], forkQ := [], closeQ := [], shutdownQ := [], chmodQ := [],
    chownQ := [], chanWriteQ := [], chanReadQ := [], chanReadScalarQ := [], chanReadFdQ := [],
    writeQ := [], timeoutQ := [], unlinkQ := [], getaddrinfoQ := [], socketQ := [],
    connectQ := [], connectUnixQ := [], errno := 0, statQ := [] }

def World.log (w : World) (e : Event) : World :=
  { w with trace := w.trace ++ [e] }

def EMFILE : Errno := ⟨24, "Too many open files"⟩
def EAGAIN : Errno := ⟨11, "Resource temporarily unavailable"⟩
def EPIPE : Errno := ⟨32, "Broken pipe"⟩
def ECONNREFUSED : Errno := ⟨111, "Connection refused"⟩

/-! ### System calls (`oxt::syscalls` and libc) -/

namespace syscalls

/-- Wall-clock time in whole seconds. -/
def time (w : World) : Int × World :=
  (((w.clock / 1000000 : Nat) : Int), w.log .time)

/-- Calling `waitpid(pid, NULL, WNOHANG)`; default answer `-1` (no such child). -/
def waitpid (pid : Int) (w : World) : Int × World :=
  (w.waitpidQ.headD (-1), { w.log (.waitpid pid) with waitpidQ := w.waitpidQ.tail })

/-- Sleeping advances the clock by the requested time. -/
def usleep (usec : Nat) (w : World) : World :=
  { w.log (.usleep usec) with clock := w.clock + usec }

def kill (pid : Int) (sig : Nat) (w : World) : World :=
  w.log (.kill pid sig)

/-- Calling `socketpair(AF_UNIX, SOCK_STREAM, 0, fds)`; default answer: failure. -/
def socketpair (w : World) : SysResult (Int × Int) × World :=
  (w.socketpairQ.headD (.fail EMFILE),
    { w.log .socketpair with socketpairQ := w.socketpairQ.tail })

/-- Calling `fopen(path, "a")`; `none` is `NULL`, the default answer. -/
def fopen (path : String) (w : World) : Option Nat × World :=
  (w.fopenQ.headD none, { w.log (.fopen path) with fopenQ := w.fopenQ.tail })

def fclose (handle : Nat) (w : World) : World :=
  w.log (.fclose handle)

/-- Seen from the parent, `fork` yields the child's pid or fails; default: failure.
The child branch of the source runs in another process, which ends in `execlp`
or `_exit` and never returns into this object. -/
def fork (w : World) : SysResult ChildPid × World :=
  (w.forkQ.headD (.fail EAGAIN), { w.log .fork with forkQ := w.forkQ.tail })

/-- Calling `close(fd)`; default answer: success. -/
def close (fd : Int) (w : World) : SysResult Unit × World :=
  (w.closeQ.headD (.ok ()), { w.log (.close fd) with closeQ := w.closeQ.tail })

/-- Calling `shutdown(fd, how)`; default answer: success. -/
def shutdown (fd : Int) (how : ShutHow) (w : World) : SysResult Unit × World :=
  (w.shutdownQ.headD (.ok ()), { w.log (.shutdown fd how) with shutdownQ := w.shutdownQ.tail })

end syscalls

/-- The loop `do { ret = call(); } while (ret == -1 && errno == EINTR);` run
against a queue of answers: the number of calls made, the answer that ended the
loop and the answers left.  An exhausted queue answers with success. -/
def eintrLoop : List (SysResult Unit) → Nat × SysResult Unit × List (SysResult Unit)
  | [] => (1, .ok (), [])
  | .ok u :: q => (1, .ok u, q)
  | .fail e :: q =>
    if e.code = EINTR then
      let r := eintrLoop q
      (r.1 + 1, r.2.1, r.2.2)
    else (1, .fail e, q)

/-- The same loop for a call that returns a value, with `d` the answer of an
exhausted queue. -/
def eintrLoopD {α : Type} (d : SysResult α) :
    List (SysResult α) → Nat × SysResult α × List (SysResult α)
  | [] => (1, d, [])
  | .ok a :: q => (1, .ok a, q)
  | .fail e :: q =>
    if e.code = EINTR then
      let r := eintrLoopD d q
      (r.1 + 1, r.2.1, r.2.2)
    else (1, .fail e, q)

def S_IRUSR : Nat := 256
def S_IWUSR : Nat := 128

/-- The loop `do { ret = chmod(path, mode); } while (ret == -1 && errno == EINTR);`. -/
def chmodRetry (path : String) (mode : Nat) (w : World) : SysResult Unit × World :=
  let r := eintrLoop w.chmodQ
  (r.2.1, { w with trace := w.trace ++ List.replicate r.1 (.chmod path mode), chmodQ := r.2.2 })

/-- The loop `do { ret = chown(path, getuid(), getgid()); } while (ret == -1 && errno == EINTR);`. -/
def chownRetry (path : String) (w : World) : SysResult Unit × World :=
  let r := eintrLoop w.chownQ
  (r.2.1, { w with trace := w.trace ++ List.replicate r.1 (.chown path w.uid w.gid),
                   chownQ := r.2.2 })

/-! ### The message channel -/

/-- Modelled from the spec: `MessageChannel.h` is not among the sources.  A
channel is a connected descriptor (`-1` when closed) carrying array frames,
scalar frames and file descriptors; it is reliable, ordered and detects peer
closure. -/
structure MessageChannel where
  fd : Int
deriving DecidableEq, Repr

namespace MessageChannel

/-- Modelled from the spec: closing the channel releases the descriptor and
leaves the channel without one. -/
def close (c : MessageChannel) (w : World) : MessageChannel × World :=
  if c.fd ≠ -1 then (⟨-1⟩, w.log (.channelClose c.fd)) else (c, w)

/-- Modelled from the spec: writes one array frame; fails with a
`SystemException` when the write fails (default answer: broken pipe). -/
def write (c : MessageChannel) (args : List String) (w : World) : SysResult Unit × World :=
  (w.chanWriteQ.headD (.fail EPIPE),
    { w.log (.channelWrite c.fd args) with chanWriteQ := w.chanWriteQ.tail })

/-- Modelled from the spec: reads one array frame; `none` when the peer has
closed the channel (the default answer). -/
def read (c : MessageChannel) (w : World) : SysResult (Option (List String)) × World :=
  (w.chanReadQ.headD (.ok none),
    { w.log (.channelRead c.fd) with chanReadQ := w.chanReadQ.tail })

/-- Modelled from the spec: reads one scalar frame; `none` when the peer has
closed the channel (the default answer). -/
def readScalar (c : MessageChannel) (w : World) : SysResult (Option String) × World :=
  (w.chanReadScalarQ.headD (.ok none),
    { w.log (.channelReadScalar c.fd) with chanReadScalarQ := w.chanReadScalarQ.tail })

/-- Modelled from the spec: receives one transferred file descriptor (default
answer: an `IOException`). -/
def readFileDescriptor (c : MessageChannel) (w : World) : FdResult × World :=
  (w.chanReadFdQ.headD (.ioError "No valid file descriptor received."),
    { w.log (.channelReadFileDescriptor c.fd) with chanReadFdQ := w.chanReadFdQ.tail })

/-- Size header of a scalar frame: the payload size as a 32-bit big-endian integer. -/
def lengthHeader (n : Nat) : Bytes :=
  [UInt8.ofNat (n / 16777216 % 256), UInt8.ofNat (n / 65536 % 256),
   UInt8.ofNat (n / 256 % 256), UInt8.ofNat (n % 256)]

/-- Modelled from the spec: a scalar frame is a single length-prefixed frame
whose payload is the given byte sequence. -/
def scalarFrame (data : Bytes) : Bytes :=
  lengthHeader data.length ++ data

/-- Modelled from the spec: writes a raw (unframed) chunk to the stream; the
default answer is success. -/
def writeRaw (c : MessageChannel) (data : Bytes) (w : World) : SysResult Unit × World :=
  let r := w.writeQ.headD (.ok ())
  (r, { w.log (match r with
          | .ok _ => .write c.fd data
          | .fail _ => .writeFailed c.fd data) with writeQ := w.writeQ.tail })

/-- Modelled from the spec: writes a single length-prefixed scalar frame whose
payload is `data`. -/
def writeScalar (c : MessageChannel) (data : Bytes) (w : World) : SysResult Unit × World :=
  writeRaw c (scalarFrame data) w

/-- Modelled from the spec: sets the read or write timeout of the descriptor;
the default answer is success. -/
def setTimeout (c : MessageChannel) (kind : TimeoutKind) (msec : Nat) (w : World) :
    SysResult Unit × World :=
  (w.timeoutQ.headD (.ok ()),
    { w.log (.setTimeout c.fd kind msec) with timeoutQ := w.timeoutQ.tail })

end MessageChannel

/-! ## Spawned worker handles (`Application.h`) -/

/-- Modelled from the spec: `PoolOptions.h` is not among the sources.  The
options are the application root plus engine and environment parameters. -/
structure PoolOptions where
  appRoot : String
  params : List String
deriving DecidableEq, Repr

/-- Modelled from the spec: the options serialize to an ordered sequence of
strings, the application root first. -/
def PoolOptions.toVector (o : PoolOptions) : List String :=
  o.appRoot :: o.params

/-- State of an `Application` object; the constructor stores its five arguments. -/
structure Application where
  appRoot : String
  pid : Int
  listenSocketName : String
  listenSocketType : String
  ownerPipe : Int
deriving DecidableEq, Repr

def Application.getAppRoot (a : Application) : String := a.appRoot

def Application.getPid (a : Application) : Int := a.pid

/-- White space in the sense of C `isspace`. -/
def isspace (c : Char) : Bool :=
  c.toNat = 32 || (9 ≤ c.toNat && c.toNat ≤ 13)

/-- Value of the longest run of decimal digits at the front of `cs`,
accumulated onto `acc`. -/
def atoiDigits : List Char → Nat → Nat
  | [], acc => acc
  | c :: cs, acc =>
    if 48 ≤ c.toNat ∧ c.toNat ≤ 57 then atoiDigits cs (acc * 10 + (c.toNat - 48)) else acc

/-- The number that `strtol` reads in base 10: leading white space is skipped,
an optional sign is taken, and the digits that follow are converted, up to the
first other character (0 when there is no digit). -/
def leadingNumber (s : String) : Int :=
  match s.toList.dropWhile isspace with
  | [] => 0
  | c :: cs =>
    if c.toNat = 45 then -((atoiDigits cs 0 : Nat) : Int)
    else if c.toNat = 43 then ((atoiDigits cs 0 : Nat) : Int)
    else ((atoiDigits (c :: cs) 0 : Nat) : Int)

def LONG_MAX : Int := 9223372036854775807

def LONG_MIN : Int := -9223372036854775808

/-- C `strtol(s, NULL, 10)` with a `long` of 64 bits: the leading number, or
`LONG_MAX` / `LONG_MIN` when it is out of the range of `long`. -/
def strtol (s : String) : Int :=
  if LONG_MAX < leadingNumber s then LONG_MAX
  else if leadingNumber s < LONG_MIN then LONG_MIN
  else leadingNumber s

/-- Conversion to `int` of a wider integer value (a `long`, or a `size_t`
taken modulo a power of two that is a multiple of `2^32`): the low 32 bits,
read as two's complement. -/
def toInt (x : Int) : Int :=
  (x + 2147483648) % 4294967296 - 2147483648

/-- C `atoi`.  The C standard leaves the result open when the number does not
fit `int`; the model follows the C library the code is built with, where
`atoi(s)` is `(int) strtol(s, NULL, 10)`: for `2147483648` the result is
`-2147483648` and for `4294967296` it is 0. -/
def atoi (s : String) : Int :=
  toInt (strtol s)

/-! ## The spawn supervisor (`SpawnManager.h`) -/

/-- State of a `SpawnManager` object. -/
structure SpawnManager where
  spawnServerCommand : String
  logFile : String
  rubyCommand : String
  user : String
  channel : MessageChannel
  pid : Int
  serverNeedsRestart : Bool
deriving DecidableEq, Repr

namespace SpawnManager

/-- Number of loop iterations that fit in a 5 second window when each one that
does not reap the server sleeps 100 ms, plus the final test of the clock. -/
def pollFuel : Nat := 51

/-- The polling loop of `restartServer`:
`while (!done && time(NULL) - begin < 5) { if (waitpid(pid, NULL, WNOHANG) > 0) done = true; else usleep(100000); }`
(the second loop of the source is the same loop with `break` for `done = true`).
Returns whether the server was reaped.  The first argument bounds the number
of iterations; `pollExit_fuel` shows the bound `pollFuel` is never reached. -/
def pollExit (pid : Int) (begin : Int) : Nat → World → Bool × World
  | 0, w => (false, w)
  | n + 1, w =>
    let t := syscalls.time w
    if t.1 - begin < 5 then
      let r := syscalls.waitpid pid t.2
      if r.1 > 0 then (true, r.2)
      else pollExit pid begin n (syscalls.usleep 100000 r.2)
    else (false, t.2)

/-- First half of `restartServer` (`if (pid != 0) { ... pid = 0; }`): close the
channel, wait at most 5 seconds for the server to exit, otherwise send
`SIGTERM` and wait at most 5 more seconds. -/
def stopServer (s : SpawnManager) (w : World) : SpawnManager × World :=
  if s.pid ≠ 0 then
    let c := s.channel.close w
    let b := syscalls.time c.2
    let d := pollExit s.pid b.1 pollFuel b.2
    let w2 :=
      if d.1 = false then
        let k := syscalls.kill s.pid SIGTERM d.2
        let b2 := syscalls.time k
        (pollExit s.pid b2.1 pollFuel b2.2).2
      else d.2
    ({ s with channel := c.1, pid := 0 }, w2)
  else (s, w)

/-- The end of `restartServer`: `pid = syscalls::fork()` and the parent's two
branches (`pid == -1` and `pid > 0`).  `fds` is the socket pair and
`logFileHandle` the `FILE *` (`none` for `NULL`). -/
def forkServer (s : SpawnManager) (fds : Int × Int) (logFileHandle : Option Nat)
    (w : World) : Res Unit × SpawnManager × World :=
  let f := syscalls.fork w
  match f.1 with
  | .fail e =>
    let w2 := (syscalls.close fds.1 f.2).2
    let w3 := (syscalls.close fds.2 w2).2
    let w4 := match logFileHandle with
      | some h => syscalls.fclose h w3
      | none => w3
    (.error (.system ⟨"Unable to fork a process", e⟩), { s with pid := 0 }, w4)
  | .ok child =>
    let w2 := (syscalls.close fds.2 f.2).2
    let w3 :=
      if s.logFile ≠ "" then
        match logFileHandle with
        | some h => syscalls.fclose h w2
        | none => w2
      else w2
    (.ok (), { s with pid := child.val, channel := ⟨fds.1⟩, serverNeedsRestart := false }, w3)

/-- Second half of `restartServer`, from `serverNeedsRestart = true` on: create
the socket pair, open the log file, fork. -/
def startServer (s : SpawnManager) (w : World) : Res Unit × SpawnManager × World :=
  let s1 := { s with serverNeedsRestart := true }
  let p := syscalls.socketpair w
  match p.1 with
  | .fail e => (.error (.system ⟨"Cannot create a Unix socket", e⟩), s1, p.2)
  | .ok fds =>
    if s1.logFile ≠ "" then
      let o := syscalls.fopen s1.logFile p.2
      match o.1 with
      | none =>
        (.error (.ioException ("Cannot open log file '" ++ s1.logFile ++ "' for writing.")),
          s1, o.2)
      | some h => forkServer s1 fds (some h) o.2
    else forkServer s1 fds none p.2

/-- Restarts the spawn server. -/
def restartServer (s : SpawnManager) (w : World) : Res Unit × SpawnManager × World :=
  let r := stopServer s w
  startServer r.1 r.2

/-- Text of the exception thrown for a reply that breaks the protocol. -/
def invalidMessage : SpawnException :=
  ⟨"The spawn server sent an invalid message.", none⟩

/-- Text of the exception thrown when the spawn server closed the channel. -/
def exitedUnexpectedly : SpawnException :=
  ⟨"The spawn server has exited unexpectedly.", none⟩

/-- Translation of a `SystemException` (built from error number `e`) caught while
reading the reply: the text is followed by `e.sys()`. -/
def couldNotRead (e : Errno) : SpawnException :=
  ⟨"Could not read from the spawn server: " ++ e.sys, none⟩

def ownerPipeMessage : String :=
  "Could not receive the spawned application's owner pipe from the spawn server: "

/-- The end of `sendSpawnCommand`, from `if (args.size() != 3)` on: `args` is
the application info and `ownerPipe` the descriptor received. -/
def finishSpawn (opts : PoolOptions) (args : List String) (ownerPipe : Int) (w : World) :
    Res Application × World :=
  match args with
  | [a0, a1, a2] =>
    let pid := atoi a0
    let w1 :=
      if a2 = "unix" then
        let c := chmodRetry a1 (S_IRUSR ||| S_IWUSR) w
        (chownRetry a1 c.2).2
      else w
    (.ok (Application.mk opts.appRoot pid a1 a2 ownerPipe), w1)
  | _ =>
    (.error (.spawn invalidMessage), (syscalls.close ownerPipe w).2)

/-- The part of `sendSpawnCommand` after the status `ok` was read: read the
application info, then the owner pipe. -/
def readApplication (opts : PoolOptions) (s : SpawnManager) (w : World) :
    Res Application × World :=
  let r := s.channel.read w
  match r.1 with
  | .fail e => (.error (.spawn (couldNotRead e)), r.2)
  | .ok none => (.error (.spawn exitedUnexpectedly), r.2)
  | .ok (some args) =>
    let d := s.channel.readFileDescriptor r.2
    match d.1 with
    | .systemError e =>
      (.error (.spawn ⟨ownerPipeMessage ++ e.sys, none⟩), d.2)
    | .ioError what => (.error (.spawn ⟨ownerPipeMessage ++ what, none⟩), d.2)
    | .ok ownerPipe => finishSpawn opts args ownerPipe d.2

/-- The part of `sendSpawnCommand` after the request was written: read the
status and act on it. -/
def readReply (opts : PoolOptions) (s : SpawnManager) (w : World) :
    Res Application × World :=
  let r := s.channel.read w
  match r.1 with
  | .fail e => (.error (.spawn (couldNotRead e)), r.2)
  | .ok none => (.error (.spawn exitedUnexpectedly), r.2)
  | .ok (some args) =>
    match args with
    | [status] =>
      if status = "error_page" then
        let p := s.channel.readScalar r.2
        match p.1 with
        | .fail e => (.error (.spawn (couldNotRead e)), p.2)
        | .ok none => (.error (.spawn exitedUnexpectedly), p.2)
        | .ok (some errorPage) =>
          (.error (.spawn ⟨"An error occured while spawning the application.",
            some errorPage⟩), p.2)
      else if status ≠ "ok" then (.error (.spawn invalidMessage), r.2)
      else readApplication opts s r.2
    | _ => (.error (.spawn invalidMessage), r.2)

/-- Send the spawn command to the spawn server and read its reply. -/
def sendSpawnCommand (opts : PoolOptions) (s : SpawnManager) (w : World) :
    Res Application × World :=
  let c := s.channel.write ("spawn_application" :: opts.toVector) w
  match c.1 with
  | .fail e =>
    (.error (.spawn ⟨"Could not write 'spawn_application' command to the spawn server: "
        ++ e.sys, none⟩), c.2)
  | .ok _ => readReply opts s c.2

def restartFailed : SpawnException :=
  ⟨"The spawn server died unexpectedly, and restarting it failed.", none⟩

/-- Restart the server after a failed spawn attempt and, when the restart
succeeded, send the spawn command again.  Both kinds of exception that
`restartServer` throws (`IOException`, `SystemException`) are caught; the last
case of the match, any other exception passing through, never arises
(`restartServer_result`). -/
def handleSpawnException (_e : SpawnException) (opts : PoolOptions) (s : SpawnManager)
    (w : World) : Res Application × SpawnManager × World :=
  let r := restartServer s w
  match r.1 with
  | .ok _ =>
    let c := sendSpawnCommand opts r.2.1 r.2.2
    (c.1, r.2.1, c.2)
  | .error (.ioException _) => (.error (.spawn restartFailed), r.2.1, r.2.2)
  | .error (.system _) => (.error (.spawn restartFailed), r.2.1, r.2.2)
  | .error (.spawn e1) => (.error (.spawn e1), r.2.1, r.2.2)

/-- Spawn a new instance of an application.  The scoped lock is taken on entry
and released on every way out. -/
def spawn (opts : PoolOptions) (s : SpawnManager) (w : World) :
    Res Application × SpawnManager × World :=
  let c := sendSpawnCommand opts s (w.log .mutexLock)
  match c.1 with
  | .ok app => (.ok app, s, c.2.log .mutexUnlock)
  | .error (.spawn e) =>
    if e.hasErrorPage then (.error (.spawn e), s, c.2.log .mutexUnlock)
    else
      let r := handleSpawnException e opts s c.2
      (r.1, r.2.1, r.2.2.log .mutexUnlock)
  | .error x => (.error x, s, c.2.log .mutexUnlock)

/-- Send the reload command to the spawn server: the array `reload`, `appRoot`. -/
def sendReloadCommand (appRoot : String) (s : SpawnManager) (w : World) : Res Unit × World :=
  let c := s.channel.write ["reload", appRoot] w
  match c.1 with
  | .fail e =>
    (.error (.system ⟨"Could not write 'reload' command to the spawn server", e⟩), c.2)
  | .ok _ => (.ok (), c.2)

def handleReloadException (_e : SystemException) (appRoot : String) (s : SpawnManager)
    (w : World) : Res Unit × SpawnManager × World :=
  let r := restartServer s w
  match r.1 with
  | .ok _ =>
    let c := sendReloadCommand appRoot r.2.1 r.2.2
    (c.1, r.2.1, c.2)
  | .error (.ioException _) => (.error (.spawn restartFailed), r.2.1, r.2.2)
  | .error (.system _) => (.error (.spawn restartFailed), r.2.1, r.2.2)
  | .error (.spawn e1) => (.error (.spawn e1), r.2.1, r.2.2)

/-- Remove the cached application instances at the given application root. -/
def reload (appRoot : String) (s : SpawnManager) (w : World) :
    Res Unit × SpawnManager × World :=
  let c := sendReloadCommand appRoot s w
  match c.1 with
  | .error (.system e) => handleReloadException e appRoot s c.2
  | r => (r, s, c.2)

def prependMessageToException (e : Exc) (message : String) : Exc :=
  match e with
  | .ioException what => .ioException (message ++ ": " ++ what)
  | .system se => .system ⟨message ++ ": " ++ se.brief, se.errno⟩
  | .spawn x => .spawn x

/-- The constructor: store the configuration, set `pid = 0` and start the server. -/
def new (spawnServerCommand logFile rubyCommand user : String) (w : World) :
    Res Unit × SpawnManager × World :=
  let s : SpawnManager :=
    { spawnServerCommand := spawnServerCommand, logFile := logFile,
      rubyCommand := rubyCommand, user := user, channel := ⟨-1⟩, pid := 0,
      serverNeedsRestart := false }
  let r := restartServer s w
  match r.1 with
  | .ok u => (.ok u, r.2.1, r.2.2)
  | .error e =>
    (.error (prependMessageToException e "Could not start the spawn server"), r.2.1, r.2.2)

def getServerPid (s : SpawnManager) : Int := s.pid

end SpawnManager

/-! ## Worker sessions (`Application.h`) -/

/-- State of a `StandardSession`: the close callback (named by a number; calling
it is logged as `Event.closeCallback`), the stream descriptor and the pid. -/
structure StandardSession where
  closeCallback : Nat
  fd : Int
  pid : Int
deriving DecidableEq, Repr

namespace StandardSession

def getStream (s : StandardSession) : Int := s.fd

def getPid (s : StandardSession) : Int := s.pid

/-- Send HTTP request headers to the application (`Session::sendHeaders`). -/
def sendHeaders (headers : Bytes) (s : StandardSession) (w : World) : Res Unit × World :=
  let stream := s.getStream
  if stream = -1 then
    (.error (.ioException ("Cannot write headers to the request handler "
      ++ "because the writer stream has already been closed.")), w)
  else
    let r := (MessageChannel.mk stream).writeScalar headers w
    match r.1 with
    | .fail e =>
      (.error (.system ⟨"An error occured while writing headers to the request handler", e⟩),
        r.2)
    | .ok _ => (.ok (), r.2)

/-- Send a chunk of HTTP request body data (`Session::sendBodyBlock`). -/
def sendBodyBlock (block : Bytes) (s : StandardSession) (w : World) : Res Unit × World :=
  let stream := s.getStream
  if stream = -1 then
    (.error (.ioException ("Cannot write request body block to the "
      ++ "request handler because the writer stream has already been closed.")), w)
  else
    let r := (MessageChannel.mk stream).writeRaw block w
    match r.1 with
    | .fail e =>
      (.error (.system ⟨"An error occured while sending the request body to the request handler",
        e⟩), r.2)
    | .ok _ => (.ok (), r.2)

def setReaderTimeout (msec : Nat) (s : StandardSession) (w : World) : Res Unit × World :=
  let r := (MessageChannel.mk s.fd).setTimeout .reader msec w
  match r.1 with
  | .fail e => (.error (.system ⟨"Cannot set read timeout for socket", e⟩), r.2)
  | .ok _ => (.ok (), r.2)

def setWriterTimeout (msec : Nat) (s : StandardSession) (w : World) : Res Unit × World :=
  let r := (MessageChannel.mk s.fd).setTimeout .writer msec w
  match r.1 with
  | .fail e => (.error (.system ⟨"Cannot set write timeout for socket", e⟩), r.2)
  | .ok _ => (.ok (), r.2)

def shutdownReader (s : StandardSession) (w : World) : Res Unit × World :=
  if s.fd ≠ -1 then
    let r := syscalls.shutdown s.fd .SHUT_RD w
    match r.1 with
    | .fail e => (.error (.system ⟨"Cannot shutdown the reader stream", e⟩), r.2)
    | .ok _ => (.ok (), r.2)
  else (.ok (), w)

def shutdownWriter (s : StandardSession) (w : World) : Res Unit × World :=
  if s.fd ≠ -1 then
    let r := syscalls.shutdown s.fd .SHUT_WR w
    match r.1 with
    | .fail e => (.error (.system ⟨"Cannot shutdown the writer stream", e⟩), r.2)
    | .ok _ => (.ok (), r.2)
  else (.ok (), w)

/-- Close the I/O stream: the descriptor slot is set to `-1` before the result
of `close` is looked at. -/
def closeStream (s : StandardSession) (w : World) : Res Unit × StandardSession × World :=
  if s.fd ≠ -1 then
    let r := syscalls.close s.fd w
    let s1 := { s with fd := -1 }
    match r.1 with
    | .fail e =>
      if e.code = EIO then
        (.error (.system ⟨"A write operation on the session stream failed", e⟩), s1, r.2)
      else (.error (.system ⟨"Cannot close the session stream", e⟩), s1, r.2)
    | .ok _ => (.ok (), s1, r.2)
  else (.ok (), s, w)

def discardStream (s : StandardSession) : StandardSession :=
  { s with fd := -1 }

/-- The destructor: `closeStream(); closeCallback();`.  An exception thrown by
`closeStream` leaves the destructor before the callback is called. -/
def destroy (s : StandardSession) (w : World) : Res Unit × StandardSession × World :=
  let r := closeStream s w
  match r.1 with
  | .error e => (.error e, r.2.1, r.2.2)
  | .ok _ => (.ok (), r.2.1, r.2.2.log (.closeCallback r.2.1.closeCallback))

end StandardSession

/-- The operations a caller can perform on a session. -/
inductive SessionOp where
  | sendHeaders (headers : Bytes)
  | sendBodyBlock (block : Bytes)
  | getStream
  | setReaderTimeout (msec : Nat)
  | setWriterTimeout (msec : Nat)
  | shutdownReader
  | shutdownWriter
  | closeStream
  | discardStream
  | getPid
deriving DecidableEq, Repr

/-- One call on a session, with the result or the exception it raised. -/
def SessionOp.run (op : SessionOp) (s : StandardSession) (w : World) :
    Res Unit × StandardSession × World :=
  match op with
  | .sendHeaders h => let r := s.sendHeaders h w; (r.1, s, r.2)
  | .sendBodyBlock b => let r := s.sendBodyBlock b w; (r.1, s, r.2)
  | .getStream => (.ok (), s, w)
  | .setReaderTimeout m => let r := s.setReaderTimeout m w; (r.1, s, r.2)
  | .setWriterTimeout m => let r := s.setWriterTimeout m w; (r.1, s, r.2)
  | .shutdownReader => let r := s.shutdownReader w; (r.1, s, r.2)
  | .shutdownWriter => let r := s.shutdownWriter w; (r.1, s, r.2)
  | .closeStream => s.closeStream w
  | .discardStream => (.ok (), s.discardStream, w)
  | .getPid => (.ok (), s, w)

/-- A caller performing the operations one after the other; an exception raised
by one of them is caught by the caller, who goes on with the next. -/
def runOps : List SessionOp → StandardSession → World → StandardSession × World
  | [], s, w => (s, w)
  | op :: ops, s, w =>
    let r := op.run s w
    runOps ops r.2.1 r.2.2

/-- A whole session life: the operations, then the destructor. -/
def sessionLifetime (ops : List SessionOp) (s : StandardSession) (w : World) :
    Res Unit × StandardSession × World :=
  let r := runOps ops s w
  r.1.destroy r.2

/-- Number of `close` calls on descriptor `fd` in a trace. -/
def closeCount (fd : Int) (t : List Event) : Nat :=
  t.count (.close fd)

/-- Whether an event is a `close` or a `shutdown` of descriptor `fd`. -/
def releases (fd : Int) : Event → Bool
  | .close d => d = fd
  | .shutdown d _ => d = fd
  | .channelClose d => d = fd
  | _ => false

/-- The bytes delivered to the stream of descriptor `fd`, in order. -/
def streamOutput (fd : Int) : List Event → Bytes
  | [] => []
  | .write d data :: t => if d = fd then data ++ streamOutput fd t else streamOutput fd t
  | _ :: t => streamOutput fd t

/-- Number of restart attempts in a trace: every call of `restartServer`
reaches its `socketpair` call, and nothing else calls `socketpair`. -/
def restartAttempts (t : List Event) : Nat :=
  t.count .socketpair

/-- Whether an event is a spawn request written to the control channel. -/
def isSpawnRequest : Event → Bool
  | .channelWrite _ ("spawn_application" :: _) => true
  | _ => false

/-- Number of spawn requests sent in a trace. -/
def spawnRequests (t : List Event) : Nat :=
  t.countP isSpawnRequest

/-- Whether an event is a write of a message to the control channel. -/
def isChannelWrite : Event → Bool
  | .channelWrite _ _ => true
  | _ => false

/-- The separator of host and port. -/
def colon : Char := Char.ofNat 58

/-- Cutting a list of characters at every `sep`; `cur` holds, in reverse, the
characters of the piece being read. -/
def splitAux (sep : Char) : List Char → List Char → List String
  | [], cur => [String.mk cur.reverse]
  | c :: cs, cur =>
    if c = sep then String.mk cur.reverse :: splitAux sep cs []
    else splitAux sep cs (c :: cur)

/-- Modelled from the spec: `Utils.h` is not among the sources.  The address is
parsed as `host:port`: `split(str, sep, output)` cuts `str` at every occurrence
of `sep` and outputs the pieces in order, one more than there are separators. -/
def split (str : String) (sep : Char) : List String :=
  splitAux sep str.toList []

/-- The loop `do { ret = close(fd); } while (ret == -1 && errno == EINTR);`. -/
def closeRetry (fd : Int) (w : World) : SysResult Unit × World :=
  let r := eintrLoop w.closeQ
  (r.2.1, { w with trace := w.trace ++ List.replicate r.1 (.close fd), closeQ := r.2.2 })

/-- The loop `do { ret = unlink(path); } while (ret == -1 && errno == EINTR);`. -/
def unlinkRetry (path : String) (w : World) : SysResult Unit × World :=
  let r := eintrLoop w.unlinkQ
  (r.2.1, { w with trace := w.trace ++ List.replicate r.1 (.unlink path), unlinkQ := r.2.2 })

/-- Calling `getaddrinfo(host, port, &hints, &res)`; default answer: failure. -/
def getaddrinfo (host port : String) (w : World) : ResolveResult × World :=
  (w.getaddrinfoQ.headD (.failed "Name or service not known"),
    { w.log (.getaddrinfo host port) with getaddrinfoQ := w.getaddrinfoQ.tail })

/-- The loop `do { fd = socket(PF_INET, SOCK_STREAM, 0); } while (fd == -1 && errno == EINTR);`.
A successful call yields a descriptor, which is not negative; the default
answer is failure. -/
def socketRetry (w : World) : SysResult Nat × World :=
  let r := eintrLoopD (.fail EMFILE) w.socketQ
  (r.2.1, { w with trace := w.trace ++ List.replicate r.1 .socket, socketQ := r.2.2 })

/-- The loop `do { ret = connect(fd, ...); } while (ret == -1 && errno == EINTR);`;
the default answer is failure. -/
def connectRetry (fd : Int) (w : World) : SysResult Unit × World :=
  let r := eintrLoopD (.fail ECONNREFUSED) w.connectQ
  (r.2.1, { w with trace := w.trace ++ List.replicate r.1 (.connect fd), connectQ := r.2.2 })

/-- Modelled from the spec: `Utils.h` is not among the sources.
`connectToUnixServer(path)` connects to the Unix-domain stream socket at `path`
and yields the connected descriptor; a connection failure propagates as a
transport error (default answer: connection refused). -/
def connectToUnixServer (path : String) (w : World) : Res Int × World :=
  let r := w.connectUnixQ.headD (.fail ECONNREFUSED)
  (match r with
    | .ok fd => .ok (fd : Int)
    | .fail e => .error (.system ⟨"Cannot connect to Unix socket '" ++ path ++ "'", e⟩),
   { w.log (.connectUnix path) with connectUnixQ := w.connectUnixQ.tail })

namespace Application

def connectToUnixServer (a : Application) (closeCallback : Nat) (w : World) :
    Res StandardSession × World :=
  let r := Passenger.connectToUnixServer a.listenSocketName w
  match r.1 with
  | .error e => (.error e, r.2)
  | .ok fd => (.ok ⟨closeCallback, fd, a.pid⟩, r.2)

def invalidAddress (a : Application) : Exc :=
  .ioException ("Invalid TCP/IP address '" ++ a.listenSocketName ++ "'")

/-- The part of `connectToTcpServer` after the address was resolved: create
the socket, connect it, wrap it in a session.  `freeaddrinfo` is taken not to
change `errno`. -/
def connectSocket (a : Application) (closeCallback : Nat) (w : World) :
    Res StandardSession × World :=
  let sk := socketRetry w
  match sk.1 with
  | .fail e => (.error (.system ⟨"Cannot create a new unconnected TCP socket", e⟩), sk.2)
  | .ok fd =>
    let c := connectRetry fd sk.2
    match c.1 with
    | .fail e =>
      (.error (.system ⟨"Cannot connect to TCP server '" ++ a.listenSocketName ++ "'", e⟩),
        (closeRetry fd c.2).2)
    | .ok _ => (.ok ⟨closeCallback, fd, a.pid⟩, c.2)

def connectToTcpServer (a : Application) (closeCallback : Nat) (w : World) :
    Res StandardSession × World :=
  match split a.listenSocketName colon with
  | [host, port] =>
    if atoi port = 0 then (.error a.invalidAddress, w)
    else
      let g := getaddrinfo host port w
      match g.1 with
      | .failed gaiText =>
        (.error (.ioException ("Cannot resolve address '" ++ a.listenSocketName ++ "': "
          ++ gaiText)), g.2)
      | .resolved => connectSocket a closeCallback g.2
  | _ => (.error a.invalidAddress, w)

/-- Connect to this application instance; a new session is opened. -/
def connect (a : Application) (closeCallback : Nat) (w : World) :
    Res StandardSession × World :=
  if a.listenSocketType = "unix" then a.connectToUnixServer closeCallback w
  else if a.listenSocketType = "tcp" then a.connectToTcpServer closeCallback w
  else (.error (.ioException ("Unsupported socket type '" ++ a.listenSocketType ++ "'")), w)

/-- The destructor: close the owner pipe unless it is `-1`, remove the socket
node when the kind is `unix`. -/
def destroy (a : Application) (w : World) : World :=
  let w1 := if a.ownerPipe ≠ -1 then (closeRetry a.ownerPipe w).2 else w
  if a.listenSocketType = "unix" then (unlinkRetry a.listenSocketName w1).2 else w1

end Application

/-! ## The stat cache (`CachedFileStat.hpp`)

The mutex of the class is outside this part of the model: each operation runs
from beginning to end on its own. -/

def ENOENT : Errno := ⟨2, "No such file or directory"⟩

/-- Calling `stat(path, buf)`: on success the answer is stored in the buffer
and `0` is returned; on failure the buffer is left as it was, `errno` is set
and `-1` is returned.  Default answer: no such file. -/
def syscalls.stat (path : String) (buf : Stat) (w : World) : Int × Stat × World :=
  let w1 := { w.log (.stat path) with statQ := w.statQ.tail }
  match w.statQ.headD (.fail ENOENT) with
  | .ok info => (0, info, w1)
  | .fail e => (-1, buf, { w1 with errno := e.code })

/-- Modelled from the spec: `SystemTime::get()` is the current time in whole
seconds, the `time(NULL)` that the precondition of `expired` speaks of. -/
def SystemTime.get (w : World) : Int × World :=
  syscalls.time w

/-- Conversion `(unsigned int) x` of a `time_t`. -/
def toUnsignedInt (x : Int) : Nat :=
  (x % 4294967296).toNat

namespace CachedFileStat

/-- A cached file stat entry. -/
structure Entry where
  last_result : Int
  last_errno : Int
  last_time : Int
  info : Stat
  filename : String
deriving DecidableEq, Repr

/-- The constructor `Entry(filename)`: the file is not statted yet. -/
def Entry.new (filename : String) : Entry :=
  { last_result := -1, last_errno := 0, last_time := 0, info := ⟨0, 0, 0⟩,
    filename := filename }

/-- Whether `interval` seconds have elapsed since `begin`; the current time is
returned as well. -/
def Entry.expired (begin : Int) (interval : Nat) (w : World) : Bool × Int × World :=
  let t := SystemTime.get w
  (decide (interval ≤ toUnsignedInt (t.1 - begin)), t.1, t.2)

/-- Re-stat the file, if necessary. -/
def Entry.refresh (throttleRate : Nat) (e : Entry) (w : World) : Int × Entry × World :=
  let x := Entry.expired e.last_time throttleRate w
  if x.1 = true then
    let r := syscalls.stat e.filename e.info x.2.2
    (r.1, { e with last_result := r.1, last_errno := r.2.2.errno, last_time := x.2.1,
                   info := r.2.1 }, r.2.2)
  else
    (e.last_result, e, { x.2.2 with errno := e.last_errno })

/-- A node of `EntryList` (`std::list<EntryPtr>`).  The number `id` names the
node; it is what an `EntryList::iterator` holds. -/
structure Node where
  id : Nat
  entry : Entry
deriving DecidableEq, Repr

/-- The name given to the node that `push_front` allocates: one not in use in
the list. -/
def EntryList.newNode (l : List Node) : Nat :=
  (l.map Node.id).foldr max 0 + 1

/-- Dereferencing an iterator: `none` when it does not point into the list. -/
def EntryList.deref (it : Nat) (l : List Node) : Option Entry :=
  (l.find? (fun n => n.id = it)).map Node.entry

/-- Operation `erase(iterator)` of the list. -/
def EntryList.erase (it : Nat) (l : List Node) : List Node :=
  l.filter (fun n => n.id ≠ it)

/-- The map `EntryMap` (`std::map<string, EntryList::iterator>`) as a list of
pairs. -/
structure EntryMap where
  pairs : List (String × Nat)
deriving DecidableEq, Repr

/-- Operation `find` of the map; `none` is `end()`. -/
def EntryMap.find (filename : String) (m : EntryMap) : Option Nat :=
  (m.pairs.find? (fun p => p.1 = filename)).map Prod.snd

/-- Operation `erase(key)` of the map. -/
def EntryMap.erase (filename : String) (m : EntryMap) : EntryMap :=
  ⟨m.pairs.filter (fun p => p.1 ≠ filename)⟩

/-- The assignment `m[filename] = it`. -/
def EntryMap.set (filename : String) (it : Nat) (m : EntryMap) : EntryMap :=
  ⟨(filename, it) :: (m.erase filename).pairs⟩

def EntryMap.size (m : EntryMap) : Nat :=
  m.pairs.length

end CachedFileStat

/-- State of a `CachedFileStat` object; the front of `entries` is its head. -/
structure CachedFileStat where
  maxSize : Nat
  entries : List CachedFileStat.Node
  cache : CachedFileStat.EntryMap
deriving DecidableEq, Repr

namespace CachedFileStat

/-- The constructor: an empty cache. -/
def new (maxSize : Nat) : CachedFileStat :=
  { maxSize := maxSize, entries := [], cache := ⟨[]⟩ }

/-- The statements that remove the last node of the list,
`string filename(entries.back()->filename); entries.pop_back(); cache.erase(filename);`
which are undefined on an empty list (`none`). -/
def popBack (c : CachedFileStat) : Option CachedFileStat :=
  match c.entries.getLast? with
  | none => none
  | some last =>
    some { c with entries := c.entries.dropLast, cache := c.cache.erase last.entry.filename }

/-- The end of `stat`:
`entries.push_front(entry); cache[filename] = entries.begin(); ret = entry->refresh(throttleRate); *buf = entry->info; return ret;`
The list holds a pointer to the entry, so that its front node shows the entry
as refreshed.  Returns `ret`, `*buf`, the cache and the world. -/
def pushFront (filename : String) (throttleRate : Nat) (entry : Entry) (c : CachedFileStat)
    (w : World) : Int × Stat × CachedFileStat × World :=
  let it := EntryList.newNode c.entries
  let r := entry.refresh throttleRate w
  (r.1, r.2.1.info,
    { c with entries := ⟨it, r.2.1⟩ :: c.entries, cache := c.cache.set filename it }, r.2.2)

/-- Stats the given file.  `none` stands for undefined behaviour: stepping back
from the end of an empty list, or dereferencing an iterator that does not point
into the list. -/
def stat (filename : String) (throttleRate : Nat) (c : CachedFileStat) (w : World) :
    Option (Int × Stat × CachedFileStat × World) :=
  match c.cache.find filename with
  | none =>
    if c.maxSize ≠ 0 ∧ c.cache.size = c.maxSize then
      match popBack c with
      | none => none
      | some c1 => some (pushFront filename throttleRate (Entry.new filename) c1 w)
    else some (pushFront filename throttleRate (Entry.new filename) c w)
  | some it =>
    match EntryList.deref it c.entries with
    | none => none
    | some entry =>
      some (pushFront filename throttleRate entry
        { c with entries := EntryList.erase it c.entries } w)

/-- The loop `for (int i = 0; i < toRemove; i++) { ... }` of `setMaxSize`. -/
def removeOldest : Nat → CachedFileStat → Option CachedFileStat
  | 0, c => some c
  | k + 1, c =>
    match popBack c with
    | none => none
    | some c1 => removeOldest k c1

/-- Change the maximum size of the cache.  `none` stands for undefined
behaviour (`entries.back()` on an empty list). -/
def setMaxSize (maxSize : Nat) (c : CachedFileStat) : Option CachedFileStat :=
  if maxSize ≠ 0 then
    let toRemove := toInt ((c.cache.size : Int) - (maxSize : Int))
    match removeOldest toRemove.toNat c with
    | none => none
    | some c1 => some { c1 with maxSize := maxSize }
  else some { c with maxSize := maxSize }

/-- Whether the given file is in the cache. -/
def knows (filename : String) (c : CachedFileStat) : Bool :=
  (c.cache.find filename).isSome

end CachedFileStat

open SpawnManager CachedFileStat

/-! ## Observations on traces and example inputs -/

/-- Calls made while stopping the old server. -/
def isStopEvent : Event → Bool
  | .channelClose _ => true
  | .time => true
  | .waitpid _ => true
  | .usleep _ => true
  | .kill _ _ => true
  | _ => false

/-- Calls made after `socketpair` while starting the new server. -/
def isForkEvent : Event → Bool
  | .fopen _ => true
  | .fork => true
  | .close _ => true
  | .fclose _ => true
  | _ => false

/-- Calls made by `sendSpawnCommand` after the request was written. -/
def isReplyEvent : Event → Bool
  | .channelRead _ => true
  | .channelReadScalar _ => true
  | .channelReadFileDescriptor _ => true
  | .close _ => true
  | .chmod _ _ => true
  | .chown _ _ _ => true
  | _ => false

/-- The trace of `w2` is the trace of `w1` followed by calls that all satisfy `p`. -/
def Emits (p : Event → Bool) (w1 w2 : World) : Prop :=
  ∃ evs, w2.trace = w1.trace ++ evs ∧ ∀ e ∈ evs, p e = true

def isDecimalDigit (c : Char) : Bool := 48 ≤ c.toNat && c.toNat ≤ 57

/-- The decimal value of a non-empty string of decimal digits, `none` for any
other string. -/
def decimalValue (p : String) : Option Nat :=
  if p.toList ≠ [] ∧ p.toList.all isDecimalDigit then
    some (p.toList.foldl (fun n c => n * 10 + (c.toNat - 48)) 0)
  else none

/-- A supervisor with a running helper (pid 100) behind control channel 7, no log file. -/
def exampleManager : SpawnManager :=
  ⟨"spawn-server", "", "ruby", "", ⟨7⟩, 100, false⟩

def exampleOptions : PoolOptions := ⟨"/app", []⟩

/-- The helper is dead (the write fails); it is reaped at once, the restart
succeeds (socket pair 3/4, new helper pid 55) and the new helper answers the
retried request with a worker. -/
def deadThenHealthy : World :=
  { World.init 5000000 with
    chanWriteQ := [.fail EPIPE, .ok ()],
    waitpidQ := [100],
    socketpairQ := [.ok (3, 4)],
    forkQ := [.ok ⟨55, by decide⟩],
    chanReadQ := [.ok (some ["ok"]), .ok (some ["4321", "/tmp/s.sock", "unix"])],
    chanReadFdQ := [.ok 9] }

/-- The helper answers the request with an error page. -/
def errorPageReply : World :=
  { World.init 5000000 with
    chanWriteQ := [.ok ()],
    chanReadQ := [.ok (some ["error_page"])],
    chanReadScalarQ := [.ok (some "Gemfile not found")] }

/-- The replies to a spawn request that break the protocol, read off the
answers the world holds for the channel reads that follow the request. -/
inductive ProtocolViolation (w : World) : Prop where
  /-- The status array does not have exactly one element. -/
  | statusSize (args : List String) (h : w.chanReadQ.headD (.ok none) = .ok (some args))
      (hn : args.length ≠ 1)
  /-- The one-element status is neither `ok` nor `error_page`. -/
  | statusUnknown (status : String) (h : w.chanReadQ.headD (.ok none) = .ok (some [status]))
      (h1 : status ≠ "ok") (h2 : status ≠ "error_page")
  /-- The peer closed the channel before the status. -/
  | statusClosed (h : w.chanReadQ.headD (.ok none) = .ok none)
  /-- The peer closed the channel before the error page. -/
  | errorPageClosed (h : w.chanReadQ.headD (.ok none) = .ok (some ["error_page"]))
      (hs : w.chanReadScalarQ.headD (.ok none) = .ok none)
  /-- The peer closed the channel before the application info. -/
  | infoClosed (h : w.chanReadQ.headD (.ok none) = .ok (some ["ok"]))
      (hi : w.chanReadQ.tail.headD (.ok none) = .ok none)
  /-- No owner descriptor arrives. -/
  | ownerPipeMissing (info : List String)
      (h : w.chanReadQ.headD (.ok none) = .ok (some ["ok"]))
      (hi : w.chanReadQ.tail.headD (.ok none) = .ok (some info))
      (hf : ∀ fd, w.chanReadFdQ.headD (.ioError "No valid file descriptor received.") ≠ .ok fd)
  /-- Reading the status fails with a system error. -/
  | statusError (e : Errno) (h : w.chanReadQ.headD (.ok none) = .fail e)
  /-- Reading the error page fails with a system error. -/
  | errorPageError (e : Errno)
      (h : w.chanReadQ.headD (.ok none) = .ok (some ["error_page"]))
      (hs : w.chanReadScalarQ.headD (.ok none) = .fail e)
  /-- Reading the application info fails with a system error. -/
  | infoError (e : Errno) (h : w.chanReadQ.headD (.ok none) = .ok (some ["ok"]))
      (hi : w.chanReadQ.tail.headD (.ok none) = .fail e)
  /-- The application info does not have exactly three elements. -/
  | infoSize (info : List String) (fd : Int)
      (h : w.chanReadQ.headD (.ok none) = .ok (some ["ok"]))
      (hi : w.chanReadQ.tail.headD (.ok none) = .ok (some info))
      (hf : w.chanReadFdQ.headD (.ioError "No valid file descriptor received.") = .ok fd)
      (hn : info.length ≠ 3)

/-- The helper answers `ok`, then an application info of two elements, then a
descriptor; it is reaped at once and the restart that follows cannot create a
socket pair. -/
def shortInfoReply : World :=
  { World.init 5000000 with
    chanWriteQ := [.ok ()],
    chanReadQ := [.ok (some ["ok"]), .ok (some ["4321", "/tmp/s.sock"])],
    chanReadFdQ := [.ok 9],
    waitpidQ := [100],
    socketpairQ := [.fail EMFILE] }

/-- A healthy helper answers the request with a worker of kind `unix`. -/
def healthyReply : World :=
  { World.init 5000000 with
    chanWriteQ := [.ok ()],
    chanReadQ := [.ok (some ["ok"]), .ok (some ["4321", "/tmp/s.sock", "unix"])],
    chanReadFdQ := [.ok 9] }

/-- A healthy helper answers the request with a pid text whose value is one
more than the largest `int`. -/
def pidBeyondInt : World :=
  { World.init 5000000 with
    chanWriteQ := [.ok ()],
    chanReadQ := [.ok (some ["ok"]), .ok (some ["2147483648", "/tmp/s.sock", "unix"])],
    chanReadFdQ := [.ok 9] }

/-- The helper is dead (the write fails with a broken pipe); it is reaped at
once, and the restart cannot create a socket pair. -/
def deadAndNoRestart : World :=
  { World.init 5000000 with
    chanWriteQ := [.fail EPIPE],
    waitpidQ := [100],
    socketpairQ := [.fail EMFILE] }

/-- Whether an event is a read from the control channel. -/
def isChannelRead : Event → Bool
  | .channelRead _ => true
  | .channelReadScalar _ => true
  | .channelReadFileDescriptor _ => true
  | _ => false

/-- The helper is dead when `reload` is called; the restart succeeds and the
new helper takes the message. -/
def reloadDeadThenHealthy : World :=
  { World.init 5000000 with
    chanWriteQ := [.fail EPIPE, .ok ()],
    waitpidQ := [100],
    socketpairQ := [.ok (3, 4)],
    forkQ := [.ok ⟨55, by decide⟩] }

/-- A session on descriptor 7 of worker 1234 whose close callback is number 1. -/
def exampleSession : StandardSession := ⟨1, 7, 1234⟩

/-- The stream of descriptor 7 cannot be closed: `close` fails with `EIO`. -/
def closeFails : World :=
  { World.init 0 with closeQ := [.fail ⟨5, "Input/output error"⟩] }

/-- Calls made by the TCP connector after the address was resolved. -/
def isTcpEvent : Event → Bool
  | .socket => true
  | .connect _ => true
  | .close _ => true
  | _ => false

/-- Whether an event is a call of the resolver or a socket call of the TCP connector. -/
def isTcpCall : Event → Bool
  | .getaddrinfo _ _ => true
  | .socket => true
  | .connect _ => true
  | _ => false

/-- Whether an event is a connection attempt of the Unix-domain connector. -/
def isUnixConnect : Event → Bool
  | .connectUnix _ => true
  | _ => false

/-- A worker listening on TCP port 9000 of the loopback address. -/
def tcpWorker : Application := ⟨"/app", 4321, "127.0.0.1:9000", "tcp", 9⟩

/-- A worker whose TCP address has a port with trailing non-digit characters. -/
def malformedPortWorker : Application := ⟨"/app", 4321, "127.0.0.1:80abc", "tcp", 9⟩

/-- The resolver rejects the service name it is given. -/
def resolverRejects : World :=
  { World.init 0 with getaddrinfoQ := [.failed "Servname not supported for ai_socktype"] }

/-- A worker listening on a Unix-domain socket. -/
def unixWorker : Application := ⟨"/app", 4321, "/tmp/s.sock", "unix", 9⟩

/-- Whether an event is a write that was accepted on descriptor `fd`. -/
def isWriteOn (fd : Int) : Event → Bool
  | .write d _ => d = fd
  | _ => false

/-- Whether the environment honoured every shutdown of a write side in a
trace: after a call `shutdown(fd, SHUT_WR)` no write on `fd` is accepted, up to
the next `close(fd)`.  This is how a socket answers once the shutdown has
succeeded: the write fails (`EPIPE`). -/
def honoursShutdown : List Event → Bool
  | [] => true
  | .shutdown fd .SHUT_WR :: t =>
    (t.takeWhile (fun e => e != .close fd)).all (fun e => !isWriteOn fd e)
      && honoursShutdown t
  | _ :: t => honoursShutdown t

/-- The write side of descriptor 7 was shut down and the write fails with a
broken pipe. -/
def writeSideDown : World :=
  { World.init 0 with shutdownQ := [.ok ()], writeQ := [.fail EPIPE] }

/-- Whether an answer is a failure with `EINTR`. -/
def isInterrupted {α : Type} : SysResult α → Bool
  | .fail e => decide (e.code = EINTR)
  | .ok _ => false

/-- Number of answers at the front of a queue that are failures with `EINTR`. -/
def interruptions {α : Type} (q : List (SysResult α)) : Nat :=
  (q.takeWhile isInterrupted).length

/-- The first answer of a queue that is not a failure with `EINTR`, `d` when
there is none. -/
def decisiveAnswer {α : Type} (d : SysResult α) (q : List (SysResult α)) : SysResult α :=
  (q.dropWhile isInterrupted).headD d

/-- The resolver answers; `socket` is interrupted once and then yields
descriptor 12; `connect` is interrupted once and then succeeds. -/
def interruptedConnect : World :=
  { World.init 0 with
    getaddrinfoQ := [.resolved],
    socketQ := [.fail ⟨4, "Interrupted system call"⟩, .ok 12],
    connectQ := [.fail ⟨4, "Interrupted system call"⟩, .ok ()] }

/-- The resolver answers and `socket` yields descriptor 12; `connect` is
refused, and the `close` that cleans up fails with `EIO`. -/
def refusedConnect : World :=
  { World.init 0 with
    getaddrinfoQ := [.resolved],
    socketQ := [.ok 12],
    connectQ := [.fail ECONNREFUSED],
    closeQ := [.fail ⟨5, "Input/output error"⟩] }

/-- Whether an event removes a file-system node. -/
def isUnlink : Event → Bool
  | .unlink _ => true
  | _ => false

/-- Calls that `connect` can make. -/
def isConnectEvent : Event → Bool
  | .connectUnix _ => true
  | .getaddrinfo _ _ => true
  | .socket => true
  | .connect _ => true
  | .close _ => true
  | _ => false

/-- Closing the owner pipe is interrupted once; removing the socket node
succeeds at once. -/
def interruptedClose : World :=
  { World.init 0 with closeQ := [.fail ⟨4, "Interrupted system call"⟩, .ok ()] }

/-- A healthy helper answers with a worker of kind `unix`, in a process whose
real user and group are 1000 and whose effective user and group are 0. -/
def setuidReply : World :=
  { healthyReply with uid := 1000, gid := 1000, euid := 0, egid := 0 }

/-- A healthy helper answers with a worker of kind `unix`; `chmod` is
interrupted once and then fails with `EPERM`, `chown` fails with `EPERM`. -/
def permissionDenied : World :=
  { healthyReply with
    chmodQ := [.fail ⟨4, "Interrupted system call"⟩, .fail ⟨1, "Operation not permitted"⟩],
    chownQ := [.fail ⟨1, "Operation not permitted"⟩] }

/-- Calls made by one polling window of `restartServer` on the process `pid`:
reading the clock, `waitpid(pid, NULL, WNOHANG)` and `usleep(100000)`. -/
def isPollEvent (pid : Int) : Event → Bool
  | .time => true
  | .waitpid p => p = pid
  | .usleep n => n = 100000
  | _ => false

def isWaitpid : Event → Bool
  | .waitpid _ => true
  | _ => false

def isUsleep : Event → Bool
  | .usleep _ => true
  | _ => false

/-- Whether one of the first `calls` answers to `waitpid` reports that the
child was reaped. -/
def reapedWithin (answers : List Int) (calls : Nat) : Bool :=
  (answers.take calls).any (fun r => decide (r > 0))

/-- Number of polls that fit between the clock value `clock` (in microseconds)
and the deadline `deadline`, a poll being made as long as the deadline is not
reached and followed by a sleep of 100 ms. -/
def pollsUntil (deadline clock : Nat) : Nat :=
  (deadline - clock + 99999) / 100000

/-- Number of polls of a window that starts at the clock value `clock`: its
deadline is 5 seconds after the start of the second in which it starts. -/
def windowPolls (clock : Nat) : Nat :=
  pollsUntil ((clock / 1000000 + 5) * 1000000) clock

/-- The calls of a polling window on `pid` that has room for `polls` polls and
gets the `waitpid` answers `answers` (`-1` once they are used up): each poll
reads the clock and calls `waitpid`; a positive answer ends the window, any
other is followed by a sleep of 100 ms; when no poll is left the clock is read
once more. -/
def pollWindow (pid : Int) : List Int → Nat → List Event
  | _, 0 => [.time]
  | [], n + 1 => .time :: .waitpid pid :: .usleep 100000 :: pollWindow pid [] n
  | a :: q, n + 1 =>
    if a > 0 then [.time, .waitpid pid]
    else .time :: .waitpid pid :: .usleep 100000 :: pollWindow pid q n

/-- The helper is reaped by the second poll. -/
def reapedAtSecondPoll : World :=
  { World.init 0 with waitpidQ := [0, 100] }

/-- A supervisor without helper that is configured with a log file. -/
def loggingManager : SpawnManager :=
  ⟨"spawn-server", "/var/log/spawn.log", "ruby", "", ⟨-1⟩, 0, true⟩

/-- The socket pair (3, 4) is created, the log file cannot be opened. -/
def logFileUnwritable : World :=
  { World.init 0 with socketpairQ := [.ok (3, 4)], fopenQ := [none] }

/-- The mutex operations of a trace. -/
def isLockEvent : Event → Bool
  | .mutexLock => true
  | .mutexUnlock => true
  | _ => false

/-- The helper answers `ok`, then an application info of two elements, then
the descriptor 9. -/
def twoElementInfo : World :=
  { World.init 0 with
    chanWriteQ := [.ok ()],
    chanReadQ := [.ok (some ["ok"]), .ok (some ["4321", "/tmp/s.sock"])],
    chanReadFdQ := [.ok 9] }

/-- The operations that touch the state of the supervisor. -/
inductive SupervisorCall where
  | restartServer
  | spawn (opts : PoolOptions)
  | reload (appRoot : String)

/-- State and world after one operation, whether it returned or threw. -/
def SupervisorCall.run : SupervisorCall → SpawnManager → World → SpawnManager × World
  | .restartServer, s, w => (SpawnManager.restartServer s w).2
  | .spawn opts, s, w => (SpawnManager.spawn opts s w).2
  | .reload appRoot, s, w => (SpawnManager.reload appRoot s w).2

/-- The map entry that belongs to a node of the list: its filename and the
iterator that points to it. -/
def nodeKey (n : Node) : String × Nat :=
  (n.entry.filename, n.id)

/-- The filenames of the recency list, front first. -/
def listedFiles (c : CachedFileStat) : List String :=
  c.entries.map (fun n => n.entry.filename)

/-- The list and the map agree: the map holds exactly one entry for each node
of the list, under the filename of the node and pointing to the node; no
filename and no node name occurs twice in the list. -/
def WellFormed (c : CachedFileStat) : Prop :=
  c.cache.pairs.Perm (c.entries.map nodeKey) ∧ (listedFiles c).Nodup ∧
    (c.entries.map Node.id).Nodup

/-- A call on the cache. -/
inductive CacheCall where
  | stat (filename : String) (throttleRate : Nat)
  | setMaxSize (maxSize : Nat)
deriving DecidableEq, Repr

/-- The cache and the world after one call; `none` when the call runs into
undefined behaviour. -/
def CacheCall.run : CacheCall → CachedFileStat → World → Option (CachedFileStat × World)
  | .stat filename throttleRate, c, w =>
    (CachedFileStat.stat filename throttleRate c w).map (fun x => (x.2.2.1, x.2.2.2))
  | .setMaxSize maxSize, c, w => (CachedFileStat.setMaxSize maxSize c).map (fun c1 => (c1, w))

/-- The cache and the world after a sequence of calls. -/
def runCache : List CacheCall → CachedFileStat → World → Option (CachedFileStat × World)
  | [], c, w => some (c, w)
  | call :: rest, c, w =>
    match call.run c w with
    | none => none
    | some x => runCache rest x.1 x.2

/-- Whether a call is a `stat` of the file `f`. -/
def isStatOf (f : String) : CacheCall → Bool
  | .stat g _ => g = f
  | .setMaxSize _ => false

/-- Position (counted from 1) of the most recent `stat` call on `f` in a
sequence of calls; 0 when there is none. -/
def lastUse (calls : List CacheCall) (f : String) : Nat :=
  (calls.reverse.dropWhile (fun c => !isStatOf f c)).length

/-- What holds of the cache after the calls `calls`: the list and the map
agree, the list is ordered from the most to the least recently used file, it
has at most one entry per call and, as long as the number of calls stays in
the range of `int`, at most `maxSize` entries when `maxSize` is not 0. -/
def CacheInvariant (calls : List CacheCall) (c : CachedFileStat) : Prop :=
  WellFormed c ∧
  (listedFiles c).Pairwise (fun a b => lastUse calls b < lastUse calls a) ∧
  c.entries.length ≤ calls.length ∧
  (calls.length < 2147483648 → c.maxSize ≠ 0 → c.entries.length ≤ c.maxSize)

/-- The cache after the calls `calls` on a new cache of maximum size
`maxSize`, in the world `w`; `none` when a call is undefined. -/
def cacheAfter (maxSize : Nat) (calls : List CacheCall) (w : World) : Option CachedFileStat :=
  (runCache calls (CachedFileStat.new maxSize) w).map Prod.fst

/-- The current time of a world in whole seconds. -/
def World.now (w : World) : Int :=
  ((w.clock / 1000000 : Nat) : Int)

/-- Three files are statted, the first of them twice, in a cache of two
entries. -/
def threeFiles : List CacheCall :=
  [.stat "a" 0, .stat "b" 0, .stat "a" 0, .stat "c" 0]

/-- The cache that `threeFiles` leaves in a world where no file exists. -/
def cacheOfThree : CachedFileStat :=
  { maxSize := 2,
    entries := [⟨4, ⟨-1, 2, 0, ⟨0, 0, 0⟩, "c"⟩⟩, ⟨3, ⟨-1, 2, 0, ⟨0, 0, 0⟩, "a"⟩⟩],
    cache := ⟨[("c", 4), ("a", 3)]⟩ }

/-- A world at 100 seconds in which no file exists. -/
def noSuchFile : World :=
  World.init 100000000

/-- Two files are statted. -/
def twoFiles : List CacheCall :=
  [.stat "a" 0, .stat "b" 0]

/-! ## Theorems -/

/-! ### The polling bound is never reached -/

theorem pollExit_fuel_aux (pid : Int) (b : Nat) :
    ∀ (n m : Nat) (w : World), n + 1 ≤ m →
      (b + 5) * 1000000 ≤ w.clock + n * 100000 →
      pollExit pid (b : Int) m w = pollExit pid (b : Int) (n + 1) w := by
  intro n
  induction n with
  | zero =>
    intro m w hm h
    cases m with
    | zero => omega
    | succ m =>
      have hc : ¬ (((w.clock / 1000000 : Nat) : Int) - (b : Int) < 5) := by
        have : b + 5 ≤ w.clock / 1000000 := by omega
        omega
      simp only [pollExit, syscalls.time, World.log, hc, if_false]
  | succ n ih =>
    intro m w hm h
    cases m with
    | zero => omega
    | succ m =>
      rw [pollExit, pollExit]
      have hrec : ∀ w1 : World, w1.clock = w.clock →
          pollExit pid (b : Int) m (syscalls.usleep 100000 w1)
            = pollExit pid (b : Int) (n + 1) (syscalls.usleep 100000 w1) := by
        intro w1 hw1
        apply ih
        · omega
        · simp only [syscalls.usleep, World.log, hw1]
          omega
      simp only [hrec (syscalls.waitpid pid (syscalls.time w).2).2 rfl]

/-- With the clock read at the start of the window, any bound of at least
`pollFuel` iterations gives the same run of the polling loop: the loop leaves
through its own test of the clock or by reaping the server. -/
theorem pollExit_fuel (pid : Int) (w : World) (m : Nat) (hm : pollFuel ≤ m) :
    pollExit pid (syscalls.time w).1 m (syscalls.time w).2
      = pollExit pid (syscalls.time w).1 pollFuel (syscalls.time w).2 := by
  have h := pollExit_fuel_aux pid (w.clock / 1000000) 50 m (syscalls.time w).2
    (by simpa [pollFuel] using hm)
    (by simp only [syscalls.time, World.log]; omega)
  simpa [syscalls.time, pollFuel] using h

/-! ### Shape of the trace of a restart -/

theorem Emits.refl (p : Event → Bool) (w : World) : Emits p w w :=
  ⟨[], by simp, by simp⟩

theorem Emits.trans {p : Event → Bool} {w1 w2 w3 : World}
    (h1 : Emits p w1 w2) (h2 : Emits p w2 w3) : Emits p w1 w3 := by
  obtain ⟨e1, ht1, hp1⟩ := h1
  obtain ⟨e2, ht2, hp2⟩ := h2
  refine ⟨e1 ++ e2, by rw [ht2, ht1, List.append_assoc], ?_⟩
  intro e he
  rcases List.mem_append.mp he with h | h
  · exact hp1 e h
  · exact hp2 e h

theorem Emits.of_trace {p : Event → Bool} {w1 w2 : World} (evs : List Event)
    (h : w2.trace = w1.trace ++ evs) (hp : ∀ e ∈ evs, p e = true) : Emits p w1 w2 :=
  ⟨evs, h, hp⟩

theorem pollExit_emits (pid : Int) (b : Int) :
    ∀ (n : Nat) (w : World), Emits isStopEvent w (pollExit pid b n w).2 := by
  intro n
  induction n with
  | zero => intro w; exact Emits.refl _ _
  | succ n ih =>
    intro w
    rw [pollExit]
    split
    · simp only
      split
      · exact Emits.of_trace [.time, .waitpid pid]
          (by simp [syscalls.waitpid, syscalls.time, World.log]) (by simp [isStopEvent])
      · refine Emits.trans ?_ (ih _)
        exact Emits.of_trace [.time, .waitpid pid, .usleep 100000]
          (by simp [syscalls.waitpid, syscalls.time, syscalls.usleep, World.log])
          (by simp [isStopEvent])
    · exact Emits.of_trace [.time] (by simp [syscalls.time, World.log]) (by simp [isStopEvent])

theorem stopServer_emits (s : SpawnManager) (w : World) :
    Emits isStopEvent w (stopServer s w).2 := by
  unfold stopServer
  split
  · have hc : Emits isStopEvent w (syscalls.time (s.channel.close w).2).2 := by
      unfold MessageChannel.close
      split
      · exact Emits.of_trace [.channelClose s.channel.fd, .time]
          (by simp [syscalls.time, World.log]) (by simp [isStopEvent])
      · exact Emits.of_trace [.time] (by simp [syscalls.time, World.log]) (by simp [isStopEvent])
    have hp := pollExit_emits s.pid (syscalls.time (s.channel.close w).2).1 pollFuel
      (syscalls.time (s.channel.close w).2).2
    simp only
    split
    · refine Emits.trans (Emits.trans hc hp) ?_
      refine Emits.trans ?_ (pollExit_emits _ _ _ _)
      exact Emits.of_trace [.kill s.pid SIGTERM, .time]
        (by simp [syscalls.time, syscalls.kill, World.log]) (by simp [isStopEvent])
    · exact Emits.trans hc hp
  · exact Emits.refl _ _

theorem forkServer_emits (s : SpawnManager) (fds : Int × Int) (lf : Option Nat) (w : World) :
    Emits isForkEvent w (forkServer s fds lf w).2.2 := by
  unfold forkServer
  simp only
  split
  · cases lf
    · exact Emits.of_trace [.fork, .close fds.1, .close fds.2]
        (by simp [syscalls.fork, syscalls.close, World.log]) (by simp [isForkEvent])
    · rename_i h
      exact Emits.of_trace [.fork, .close fds.1, .close fds.2, .fclose h]
        (by simp [syscalls.fork, syscalls.close, syscalls.fclose, World.log])
        (by simp [isForkEvent])
  · split
    · cases lf
      · exact Emits.of_trace [.fork, .close fds.2]
          (by simp [syscalls.fork, syscalls.close, World.log]) (by simp [isForkEvent])
      · rename_i h
        exact Emits.of_trace [.fork, .close fds.2, .fclose h]
          (by simp [syscalls.fork, syscalls.close, syscalls.fclose, World.log])
          (by simp [isForkEvent])
    · exact Emits.of_trace [.fork, .close fds.2]
        (by simp [syscalls.fork, syscalls.close, World.log]) (by simp [isForkEvent])

theorem startServer_emits (s : SpawnManager) (w : World) :
    Emits isForkEvent (syscalls.socketpair w).2 (startServer s w).2.2 := by
  unfold startServer
  simp only
  split
  · exact Emits.refl _ _
  · split
    · split
      · exact Emits.of_trace [.fopen s.logFile] (by simp [syscalls.fopen, World.log])
          (by simp [isForkEvent])
      · refine Emits.trans ?_ (forkServer_emits _ _ _ _)
        exact Emits.of_trace [.fopen s.logFile] (by simp [syscalls.fopen, World.log])
          (by simp [isForkEvent])
    · exact forkServer_emits _ _ _ _

/-- Shape of the trace of a restart: calls that stop the old server, one
`socketpair`, calls that start the new one. -/
theorem restartServer_trace (s : SpawnManager) (w : World) :
    ∃ pre post, (restartServer s w).2.2.trace = w.trace ++ pre ++ .socketpair :: post ∧
      (∀ e ∈ pre, isStopEvent e = true) ∧ (∀ e ∈ post, isForkEvent e = true) := by
  obtain ⟨pre, hpre, hp⟩ := stopServer_emits s w
  obtain ⟨post, hpost, hq⟩ := startServer_emits (stopServer s w).1 (stopServer s w).2
  refine ⟨pre, post, ?_, hp, hq⟩
  unfold restartServer
  simp only
  rw [hpost]
  simp [syscalls.socketpair, World.log, hpre]

theorem restartServer_restartAttempts (s : SpawnManager) (w : World) :
    restartAttempts (restartServer s w).2.2.trace = restartAttempts w.trace + 1 := by
  obtain ⟨pre, post, ht, hp, hq⟩ := restartServer_trace s w
  have h1 : pre.count Event.socketpair = 0 := by
    rw [List.count_eq_zero]
    intro hm
    simpa [isStopEvent] using hp _ hm
  have h2 : post.count Event.socketpair = 0 := by
    rw [List.count_eq_zero]
    intro hm
    simpa [isForkEvent] using hq _ hm
  simp [restartAttempts, ht, List.count_append, h1, h2]

theorem restartServer_countP_eq (s : SpawnManager) (w : World) (q : Event → Bool)
    (hs : ∀ e, isStopEvent e = true → q e = false)
    (hf : ∀ e, isForkEvent e = true → q e = false) (hq : q .socketpair = false) :
    (restartServer s w).2.2.trace.countP q = w.trace.countP q := by
  obtain ⟨pre, post, ht, hp, hq2⟩ := restartServer_trace s w
  have h1 : pre.countP q = 0 := by
    rw [List.countP_eq_zero]
    intro e he
    simp [hs e (hp e he)]
  have h2 : post.countP q = 0 := by
    rw [List.countP_eq_zero]
    intro e he
    simp [hf e (hq2 e he)]
  simp [ht, List.countP_append, List.countP_cons, h1, h2, hq]

/-! ### Shape of the trace of a spawn attempt -/

theorem chmodRetry_emits (path : String) (mode : Nat) (w : World) :
    Emits isReplyEvent w (chmodRetry path mode w).2 := by
  refine Emits.of_trace (List.replicate (eintrLoop w.chmodQ).1 (.chmod path mode))
    (by simp [chmodRetry]) ?_
  intro e he
  rw [(List.mem_replicate.mp he).2]
  rfl

theorem chownRetry_emits (path : String) (w : World) :
    Emits isReplyEvent w (chownRetry path w).2 := by
  refine Emits.of_trace (List.replicate (eintrLoop w.chownQ).1 (.chown path w.uid w.gid))
    (by simp [chownRetry]) ?_
  intro e he
  rw [(List.mem_replicate.mp he).2]
  rfl

theorem finishSpawn_emits (opts : PoolOptions) (args : List String) (fd : Int) (w : World) :
    Emits isReplyEvent w (finishSpawn opts args fd w).2 := by
  unfold finishSpawn
  split
  · simp only
    split
    · exact Emits.trans (chmodRetry_emits _ _ _) (chownRetry_emits _ _)
    · exact Emits.refl _ _
  · exact Emits.of_trace [.close fd] (by simp [syscalls.close, World.log])
      (by simp [isReplyEvent])

theorem readApplication_emits (opts : PoolOptions) (s : SpawnManager) (w : World) :
    Emits isReplyEvent w (readApplication opts s w).2 := by
  have h1 : Emits isReplyEvent w (s.channel.read w).2 :=
    Emits.of_trace [.channelRead s.channel.fd] (by simp [MessageChannel.read, World.log])
      (by simp [isReplyEvent])
  have h2 : Emits isReplyEvent w (s.channel.readFileDescriptor (s.channel.read w).2).2 :=
    Emits.trans h1 (Emits.of_trace [.channelReadFileDescriptor s.channel.fd]
      (by simp [MessageChannel.readFileDescriptor, World.log]) (by simp [isReplyEvent]))
  unfold readApplication
  simp only
  split
  · exact h1
  · exact h1
  · split
    · exact h2
    · exact h2
    · exact Emits.trans h2 (finishSpawn_emits _ _ _ _)

theorem readReply_emits (opts : PoolOptions) (s : SpawnManager) (w : World) :
    Emits isReplyEvent w (readReply opts s w).2 := by
  have h1 : Emits isReplyEvent w (s.channel.read w).2 :=
    Emits.of_trace [.channelRead s.channel.fd] (by simp [MessageChannel.read, World.log])
      (by simp [isReplyEvent])
  have h2 : Emits isReplyEvent w (s.channel.readScalar (s.channel.read w).2).2 :=
    Emits.trans h1 (Emits.of_trace [.channelReadScalar s.channel.fd]
      (by simp [MessageChannel.readScalar, World.log]) (by simp [isReplyEvent]))
  unfold readReply
  simp only
  split
  · exact h1
  · exact h1
  · split
    · split
      · split
        · exact h2
        · exact h2
        · exact h2
      · split
        · exact h1
        · exact Emits.trans h1 (readApplication_emits _ _ _)
    · exact h1

/-- Shape of the trace of one spawn attempt: the request, then calls that read
and act on the reply. -/
theorem sendSpawnCommand_trace (opts : PoolOptions) (s : SpawnManager) (w : World) :
    ∃ evs, (sendSpawnCommand opts s w).2.trace
        = w.trace ++ .channelWrite s.channel.fd ("spawn_application" :: opts.toVector) :: evs
      ∧ ∀ e ∈ evs, isReplyEvent e = true := by
  have hw : (s.channel.write ("spawn_application" :: opts.toVector) w).2.trace
      = w.trace ++ [.channelWrite s.channel.fd ("spawn_application" :: opts.toVector)] := by
    simp [MessageChannel.write, World.log]
  unfold sendSpawnCommand
  simp only
  split
  · exact ⟨[], by simp [hw], by simp⟩
  · obtain ⟨evs, ht, hp⟩ := readReply_emits opts s
      (s.channel.write ("spawn_application" :: opts.toVector) w).2
    exact ⟨evs, by rw [ht, hw]; simp, hp⟩

theorem sendSpawnCommand_restartAttempts (opts : PoolOptions) (s : SpawnManager) (w : World) :
    restartAttempts (sendSpawnCommand opts s w).2.trace = restartAttempts w.trace := by
  obtain ⟨evs, ht, hp⟩ := sendSpawnCommand_trace opts s w
  have h1 : evs.count Event.socketpair = 0 := by
    rw [List.count_eq_zero]
    intro hm
    simpa [isReplyEvent] using hp _ hm
  simp [restartAttempts, ht, List.count_append, h1, List.count_cons]

theorem sendSpawnCommand_spawnRequests (opts : PoolOptions) (s : SpawnManager) (w : World) :
    spawnRequests (sendSpawnCommand opts s w).2.trace = spawnRequests w.trace + 1 := by
  obtain ⟨evs, ht, hp⟩ := sendSpawnCommand_trace opts s w
  have h1 : evs.countP isSpawnRequest = 0 := by
    rw [List.countP_eq_zero]
    intro e he
    have := hp e he
    cases e <;> simp_all [isReplyEvent, isSpawnRequest]
  simp [spawnRequests, ht, List.countP_append, List.countP_cons, h1, isSpawnRequest]

theorem restartServer_spawnRequests (s : SpawnManager) (w : World) :
    spawnRequests (restartServer s w).2.2.trace = spawnRequests w.trace := by
  apply restartServer_countP_eq
  · intro e he; cases e <;> simp_all [isStopEvent, isSpawnRequest]
  · intro e he; cases e <;> simp_all [isForkEvent, isSpawnRequest]
  · rfl

theorem spawnRequests_log (w : World) (e : Event) (h : isSpawnRequest e = false) :
    spawnRequests (w.log e).trace = spawnRequests w.trace := by
  simp [World.log, spawnRequests, List.countP_append, List.countP_cons, h]

theorem restartAttempts_log (w : World) (e : Event) (h : e ≠ .socketpair) :
    restartAttempts (w.log e).trace = restartAttempts w.trace := by
  simp [World.log, restartAttempts, List.count_append, List.count_cons, h]

/-! ### Restart and retry -/

theorem restartServer_result (s : SpawnManager) (w : World) :
    (restartServer s w).1 = .ok () ∨ (∃ e, (restartServer s w).1 = .error (.system e)) ∨
      (∃ m, (restartServer s w).1 = .error (.ioException m)) := by
  have hf : ∀ (s1 : SpawnManager) fds lf w1,
      (forkServer s1 fds lf w1).1 = .ok () ∨ (∃ e, (forkServer s1 fds lf w1).1 = .error (.system e)) ∨
      (∃ m, (forkServer s1 fds lf w1).1 = .error (.ioException m)) := by
    intro s1 fds lf w1
    unfold forkServer
    simp only
    split <;> simp
  unfold restartServer startServer
  simp only
  split
  · simp
  · split
    · split
      · simp
      · exact hf _ _ _ _
    · exact hf _ _ _ _

/-- What `spawn` does once the first attempt has failed without an error page. -/
theorem spawn_after_fault (opts : PoolOptions) (s : SpawnManager) (w : World)
    (e : SpawnException)
    (hfirst : (sendSpawnCommand opts s (w.log .mutexLock)).1 = .error (.spawn e))
    (hpage : e.hasErrorPage = false) :
    spawn opts s w =
      ((handleSpawnException e opts s (sendSpawnCommand opts s (w.log .mutexLock)).2).1,
       (handleSpawnException e opts s (sendSpawnCommand opts s (w.log .mutexLock)).2).2.1,
       (handleSpawnException e opts s (sendSpawnCommand opts s (w.log .mutexLock)).2).2.2.log
          .mutexUnlock) := by
  unfold spawn
  simp only [hfirst, hpage]
  simp

theorem handleSpawnException_ok (e : SpawnException) (opts : PoolOptions) (s : SpawnManager)
    (w : World) (h : (restartServer s w).1 = .ok ()) :
    handleSpawnException e opts s w =
      ((sendSpawnCommand opts (restartServer s w).2.1 (restartServer s w).2.2).1,
       (restartServer s w).2.1,
       (sendSpawnCommand opts (restartServer s w).2.1 (restartServer s w).2.2).2) := by
  unfold handleSpawnException
  simp only [h]

theorem handleSpawnException_failed (e : SpawnException) (opts : PoolOptions)
    (s : SpawnManager) (w : World) (h : (restartServer s w).1 ≠ .ok ()) :
    handleSpawnException e opts s w =
      (.error (.spawn restartFailed), (restartServer s w).2.1, (restartServer s w).2.2) := by
  unfold handleSpawnException
  rcases restartServer_result s w with h1 | ⟨x, h1⟩ | ⟨x, h1⟩
  · exact absurd h1 h
  · simp only [h1]
  · simp only [h1]

theorem spawn_fault_counts (opts : PoolOptions) (s : SpawnManager) (w : World)
    (e : SpawnException)
    (hfirst : (sendSpawnCommand opts s (w.log .mutexLock)).1 = .error (.spawn e))
    (hpage : e.hasErrorPage = false) :
    restartAttempts (spawn opts s w).2.2.trace = restartAttempts w.trace + 1 ∧
    ((restartServer s (sendSpawnCommand opts s (w.log .mutexLock)).2).1 = .ok () →
      spawnRequests (spawn opts s w).2.2.trace = spawnRequests w.trace + 2 ∧
      (spawn opts s w).1 =
        (sendSpawnCommand opts
          (restartServer s (sendSpawnCommand opts s (w.log .mutexLock)).2).2.1
          (restartServer s (sendSpawnCommand opts s (w.log .mutexLock)).2).2.2).1 ∧
      (spawn opts s w).2.1 = (restartServer s (sendSpawnCommand opts s (w.log .mutexLock)).2).2.1) ∧
    ((restartServer s (sendSpawnCommand opts s (w.log .mutexLock)).2).1 ≠ .ok () →
      spawnRequests (spawn opts s w).2.2.trace = spawnRequests w.trace + 1 ∧
      (spawn opts s w).1 = .error (.spawn restartFailed)) := by
  rw [spawn_after_fault opts s w e hfirst hpage]
  have hl1 : restartAttempts (w.log .mutexLock).trace = restartAttempts w.trace :=
    restartAttempts_log _ _ (by simp)
  have hl2 : spawnRequests (w.log .mutexLock).trace = spawnRequests w.trace :=
    spawnRequests_log _ _ rfl
  by_cases hr : (restartServer s (sendSpawnCommand opts s (w.log .mutexLock)).2).1 = .ok ()
  · rw [handleSpawnException_ok e opts s _ hr]
    refine ⟨?_, fun _ => ⟨?_, rfl, rfl⟩, fun h => absurd hr h⟩
    · rw [restartAttempts_log _ .mutexUnlock (by simp), sendSpawnCommand_restartAttempts,
        restartServer_restartAttempts, sendSpawnCommand_restartAttempts, hl1]
    · rw [spawnRequests_log _ .mutexUnlock rfl, sendSpawnCommand_spawnRequests,
        restartServer_spawnRequests, sendSpawnCommand_spawnRequests, hl2]
  · rw [handleSpawnException_failed e opts s _ hr]
    refine ⟨?_, fun h => absurd h hr, fun _ => ⟨?_, rfl⟩⟩
    · rw [restartAttempts_log _ .mutexUnlock (by simp), restartServer_restartAttempts,
        sendSpawnCommand_restartAttempts, hl1]
    · rw [spawnRequests_log _ .mutexUnlock rfl, restartServer_spawnRequests,
        sendSpawnCommand_spawnRequests, hl2]

/-! ### C1: retry exactly once -/

/-- C1. Retry exactly once.  When the first attempt of `spawn` fails with a
`SpawnException` without error page, exactly one restart is attempted; when it
succeeds exactly one further spawn request is sent (two in all) and the result
of `spawn` is the result of that second attempt, with the supervisor in the
state the restart left; when it fails no further request is sent. -/
theorem spawn_retries_exactly_once (opts : PoolOptions) (s : SpawnManager) (w : World)
    (e : SpawnException)
    (hfirst : (sendSpawnCommand opts s (w.log .mutexLock)).1 = .error (.spawn e))
    (hpage : e.hasErrorPage = false) :
    restartAttempts (spawn opts s w).2.2.trace = restartAttempts w.trace + 1 ∧
    ((restartServer s (sendSpawnCommand opts s (w.log .mutexLock)).2).1 = .ok () →
      spawnRequests (spawn opts s w).2.2.trace = spawnRequests w.trace + 2 ∧
      (spawn opts s w).1 =
        (sendSpawnCommand opts
          (restartServer s (sendSpawnCommand opts s (w.log .mutexLock)).2).2.1
          (restartServer s (sendSpawnCommand opts s (w.log .mutexLock)).2).2.2).1 ∧
      (spawn opts s w).2.1 = (restartServer s (sendSpawnCommand opts s (w.log .mutexLock)).2).2.1) ∧
    ((restartServer s (sendSpawnCommand opts s (w.log .mutexLock)).2).1 ≠ .ok () →
      spawnRequests (spawn opts s w).2.2.trace = spawnRequests w.trace + 1) := by
  obtain ⟨h1, h2, h3⟩ := spawn_fault_counts opts s w e hfirst hpage
  exact ⟨h1, h2, fun h => (h3 h).1⟩

theorem spawn_retries_exactly_once_witness :
    (sendSpawnCommand exampleOptions exampleManager (deadThenHealthy.log .mutexLock)).1
      = .error (.spawn ⟨"Could not write 'spawn_application' command to the spawn server: "
          ++ "Broken pipe (32)", none⟩) ∧
    restartAttempts (spawn exampleOptions exampleManager deadThenHealthy).2.2.trace
      = restartAttempts deadThenHealthy.trace + 1 ∧
    spawnRequests (spawn exampleOptions exampleManager deadThenHealthy).2.2.trace = 2 ∧
    (spawn exampleOptions exampleManager deadThenHealthy).1
      = .ok ⟨"/app", 4321, "/tmp/s.sock", "unix", 9⟩ :=
  have h := spawn_retries_exactly_once exampleOptions exampleManager deadThenHealthy
    ⟨"Could not write 'spawn_application' command to the spawn server: Broken pipe (32)", none⟩
    (by decide) (by decide)
  ⟨by decide, h.1, (h.2.1 (by decide)).1, by decide⟩

/-! ### C2: error pages pass through -/

/-- C2. Application failure passes straight through.  When the request is
written and the helper answers with the array `error_page` followed by the
scalar `E`, `spawn` fails with the `SpawnException` whose error page is `E`;
the supervisor state is unchanged and the calls made are exactly: take the
lock, write the request, read the array, read the scalar, release the lock
(no restart, no second request). -/
theorem spawn_error_page_passes_through (opts : PoolOptions) (s : SpawnManager) (w : World)
    (E : String) (qw : List (SysResult Unit)) (qr : List (SysResult (Option (List String))))
    (qs : List (SysResult (Option String)))
    (hw : w.chanWriteQ = .ok () :: qw)
    (hr : w.chanReadQ = .ok (some ["error_page"]) :: qr)
    (hs : w.chanReadScalarQ = .ok (some E) :: qs) :
    (spawn opts s w).1
      = .error (.spawn ⟨"An error occured while spawning the application.", some E⟩) ∧
    (spawn opts s w).2.1 = s ∧
    (spawn opts s w).2.2.trace = w.trace ++
      [.mutexLock, .channelWrite s.channel.fd ("spawn_application" :: opts.toVector),
       .channelRead s.channel.fd, .channelReadScalar s.channel.fd, .mutexUnlock] ∧
    restartAttempts (spawn opts s w).2.2.trace = restartAttempts w.trace ∧
    spawnRequests (spawn opts s w).2.2.trace = spawnRequests w.trace + 1 := by
  have h1 : (sendSpawnCommand opts s (w.log .mutexLock)).1
      = .error (.spawn ⟨"An error occured while spawning the application.", some E⟩) := by
    simp [sendSpawnCommand, readReply, MessageChannel.write, MessageChannel.read,
      MessageChannel.readScalar, World.log, hw, hr, hs]
  have h2 : (sendSpawnCommand opts s (w.log .mutexLock)).2.trace = w.trace ++
      [.mutexLock, .channelWrite s.channel.fd ("spawn_application" :: opts.toVector),
       .channelRead s.channel.fd, .channelReadScalar s.channel.fd] := by
    simp [sendSpawnCommand, readReply, MessageChannel.write, MessageChannel.read,
      MessageChannel.readScalar, World.log, hw, hr, hs]
  have h3 : (spawn opts s w).2.2.trace = w.trace ++
      [.mutexLock, .channelWrite s.channel.fd ("spawn_application" :: opts.toVector),
       .channelRead s.channel.fd, .channelReadScalar s.channel.fd, .mutexUnlock] := by
    unfold spawn
    simp only [h1, SpawnException.hasErrorPage, Option.isSome, if_true]
    rw [World.log, h2]
    simp
  refine ⟨?_, ?_, h3, ?_, ?_⟩
  · unfold spawn
    simp only [h1, SpawnException.hasErrorPage, Option.isSome, if_true]
  · unfold spawn
    simp only [h1, SpawnException.hasErrorPage, Option.isSome, if_true]
  · rw [h3]
    simp [restartAttempts, List.count_append]
  · rw [h3]
    simp [spawnRequests, List.countP_append, List.countP_cons, isSpawnRequest]

theorem spawn_error_page_passes_through_witness :
    (spawn exampleOptions exampleManager errorPageReply).1
      = .error (.spawn ⟨"An error occured while spawning the application.",
          some "Gemfile not found"⟩) ∧
    (spawn exampleOptions exampleManager errorPageReply).2.1 = exampleManager ∧
    restartAttempts (spawn exampleOptions exampleManager errorPageReply).2.2.trace = 0 :=
  have h := spawn_error_page_passes_through exampleOptions exampleManager errorPageReply
    "Gemfile not found" [] [] [] rfl rfl rfl
  ⟨h.1, h.2.1, h.2.2.2.1⟩

theorem finishSpawn_bad_size (opts : PoolOptions) (info : List String) (fd : Int) (w : World)
    (hn : info.length ≠ 3) :
    (finishSpawn opts info fd w).1 = .error (.spawn invalidMessage) := by
  unfold finishSpawn
  split
  · simp at hn
  · rfl

theorem readReply_violation (opts : PoolOptions) (s : SpawnManager) (w : World)
    (hv : ProtocolViolation w) :
    ∃ e, (readReply opts s w).1 = .error (.spawn e) ∧ e.hasErrorPage = false := by
  cases hv with
  | statusSize args h hn =>
    refine ⟨invalidMessage, ?_, rfl⟩
    unfold readReply
    simp only [MessageChannel.read, h]
    split
    · simp at hn
    · rfl
  | statusUnknown status h h1 h2 =>
    refine ⟨invalidMessage, ?_, rfl⟩
    unfold readReply
    simp only [MessageChannel.read, h]
    simp [h1, h2]
  | statusClosed h =>
    refine ⟨exitedUnexpectedly, ?_, rfl⟩
    unfold readReply
    simp only [MessageChannel.read, h]
  | errorPageClosed h hs =>
    refine ⟨exitedUnexpectedly, ?_, rfl⟩
    unfold readReply
    simp only [MessageChannel.read, MessageChannel.readScalar, h, World.log, hs]
    simp
  | infoClosed h hi =>
    refine ⟨exitedUnexpectedly, ?_, rfl⟩
    unfold readReply
    simp only [MessageChannel.read, h, World.log, readApplication, hi]
    simp
  | ownerPipeMissing info h hi hf =>
    unfold readReply
    simp only [MessageChannel.read, h, World.log, readApplication, hi]
    simp only [MessageChannel.readFileDescriptor, World.log]
    cases hd : w.chanReadFdQ.headD (.ioError "No valid file descriptor received.") with
    | ok fd => exact absurd hd (hf fd)
    | systemError e => simp [SpawnException.hasErrorPage]
    | ioError m => simp [SpawnException.hasErrorPage]
  | statusError e h =>
    refine ⟨couldNotRead e, ?_, rfl⟩
    unfold readReply
    simp only [MessageChannel.read, h]
  | errorPageError e h hs =>
    refine ⟨couldNotRead e, ?_, rfl⟩
    unfold readReply
    simp only [MessageChannel.read, MessageChannel.readScalar, h, World.log, hs]
    simp
  | infoError e h hi =>
    refine ⟨couldNotRead e, ?_, rfl⟩
    unfold readReply
    simp only [MessageChannel.read, h, World.log, readApplication, hi]
    simp
  | infoSize info fd h hi hf hn =>
    refine ⟨invalidMessage, ?_, rfl⟩
    unfold readReply
    simp only [MessageChannel.read, h, World.log, readApplication, hi]
    simp only [MessageChannel.readFileDescriptor, World.log, hf]
    rw [if_neg (by decide), if_neg (by simp)]
    exact finishSpawn_bad_size opts info fd _ hn

/-! ### C3: protocol violations -/

theorem ProtocolViolation.congr {w1 w2 : World} (hv : ProtocolViolation w1)
    (h1 : w2.chanReadQ = w1.chanReadQ) (h2 : w2.chanReadScalarQ = w1.chanReadScalarQ)
    (h3 : w2.chanReadFdQ = w1.chanReadFdQ) : ProtocolViolation w2 := by
  cases hv with
  | statusSize args h hn => exact .statusSize args (h1 ▸ h) hn
  | statusUnknown status h ha hb => exact .statusUnknown status (h1 ▸ h) ha hb
  | statusClosed h => exact .statusClosed (h1 ▸ h)
  | errorPageClosed h hs => exact .errorPageClosed (h1 ▸ h) (h2 ▸ hs)
  | infoClosed h hi => exact .infoClosed (h1 ▸ h) (h1 ▸ hi)
  | ownerPipeMissing info h hi hf => exact .ownerPipeMissing info (h1 ▸ h) (h1 ▸ hi) (h3 ▸ hf)
  | statusError e h => exact .statusError e (h1 ▸ h)
  | errorPageError e h hs => exact .errorPageError e (h1 ▸ h) (h2 ▸ hs)
  | infoError e h hi => exact .infoError e (h1 ▸ h) (h1 ▸ hi)
  | infoSize info fd h hi hf hn => exact .infoSize info fd (h1 ▸ h) (h1 ▸ hi) (h3 ▸ hf) hn

/-- C3. Protocol violations are treated as helper death.  When the request is
written and the reply is one of the listed protocol violations, the first
attempt raises a `SpawnException` without error page, which `spawn` does not
hand to the caller: it runs `handleSpawnException`, so exactly one restart is
attempted and, when that succeeds, the request is sent a second time. -/
theorem protocol_violation_restarts (opts : PoolOptions) (s : SpawnManager) (w : World)
    (hw : w.chanWriteQ.headD (.fail EPIPE) = .ok ()) (hv : ProtocolViolation w) :
    ∃ e, (sendSpawnCommand opts s (w.log .mutexLock)).1 = .error (.spawn e) ∧
      e.hasErrorPage = false ∧
      spawn opts s w =
        ((handleSpawnException e opts s (sendSpawnCommand opts s (w.log .mutexLock)).2).1,
         (handleSpawnException e opts s (sendSpawnCommand opts s (w.log .mutexLock)).2).2.1,
         (handleSpawnException e opts s (sendSpawnCommand opts s (w.log .mutexLock)).2).2.2.log
            .mutexUnlock) ∧
      restartAttempts (spawn opts s w).2.2.trace = restartAttempts w.trace + 1 ∧
      ((restartServer s (sendSpawnCommand opts s (w.log .mutexLock)).2).1 = .ok () →
        spawnRequests (spawn opts s w).2.2.trace = spawnRequests w.trace + 2) := by
  have hv2 : ProtocolViolation
      (s.channel.write ("spawn_application" :: opts.toVector) (w.log .mutexLock)).2 :=
    hv.congr rfl rfl rfl
  obtain ⟨e, he, hp⟩ := readReply_violation opts s _ hv2
  have hfirst : (sendSpawnCommand opts s (w.log .mutexLock)).1 = .error (.spawn e) := by
    unfold sendSpawnCommand
    have : (s.channel.write ("spawn_application" :: opts.toVector) (w.log .mutexLock)).1
        = .ok () := hw
    simp only [this]
    exact he
  obtain ⟨c1, c2, _⟩ := spawn_fault_counts opts s w e hfirst hp
  exact ⟨e, hfirst, hp, spawn_after_fault opts s w e hfirst hp, c1, fun h => (c2 h).1⟩

theorem protocol_violation_restarts_witness :
    shortInfoReply.chanWriteQ.headD (.fail EPIPE) = .ok () ∧
    ProtocolViolation shortInfoReply ∧
    (sendSpawnCommand exampleOptions exampleManager (shortInfoReply.log .mutexLock)).1
      = .error (.spawn ⟨"The spawn server sent an invalid message.", none⟩) ∧
    restartAttempts (spawn exampleOptions exampleManager shortInfoReply).2.2.trace
      = restartAttempts shortInfoReply.trace + 1 :=
  have hv : ProtocolViolation shortInfoReply :=
    .infoSize ["4321", "/tmp/s.sock"] 9 rfl rfl rfl (by decide)
  have h := protocol_violation_restarts exampleOptions exampleManager shortInfoReply rfl hv
  ⟨rfl, hv, by decide, h.elim fun _ he => he.2.2.2.1⟩

/-! ### C4: successful spawn -/

theorem atoiDigits_eq_foldl (cs : List Char) (acc : Nat)
    (h : cs.all isDecimalDigit = true) :
    atoiDigits cs acc = cs.foldl (fun n c => n * 10 + (c.toNat - 48)) acc := by
  induction cs generalizing acc with
  | nil => rfl
  | cons c cs ih =>
    simp only [List.all_cons, Bool.and_eq_true] at h
    have hc : 48 ≤ c.toNat ∧ c.toNat ≤ 57 := by
      simpa [isDecimalDigit] using h.1
    simp only [atoiDigits, hc, and_self, if_true, List.foldl_cons]
    exact ih _ h.2

theorem leadingNumber_eq_decimalValue (p : String) (n : Nat) (h : decimalValue p = some n) :
    leadingNumber p = (n : Int) := by
  unfold decimalValue at h
  split at h
  · rename_i hd
    obtain ⟨hne, hall⟩ := hd
    simp only [Option.some.injEq] at h
    unfold leadingNumber
    cases hl : p.toList with
    | nil => exact absurd hl hne
    | cons c cs =>
      rw [hl] at hall h
      have hc : 48 ≤ c.toNat ∧ c.toNat ≤ 57 := by
        simp only [List.all_cons, Bool.and_eq_true] at hall
        simpa [isDecimalDigit] using hall.1
      have hsp : isspace c = false := by
        simp only [isspace, Bool.or_eq_false_iff, Bool.and_eq_false_iff, decide_eq_false_iff_not]
        omega
      have h45 : ¬ c.toNat = 45 := by omega
      have h43 : ¬ c.toNat = 43 := by omega
      simp only [List.dropWhile_cons, hsp, h45, h43, if_false, Bool.false_eq_true]
      rw [atoiDigits_eq_foldl _ _ hall, h]
  · simp at h

/-- For a decimal numeral of a value in the range of `int`, `atoi` is that
value. -/
theorem atoi_eq_decimalValue (p : String) (n : Nat) (h : decimalValue p = some n)
    (hn : n < 2147483648) : atoi p = (n : Int) := by
  unfold atoi strtol toInt LONG_MAX LONG_MIN
  rw [leadingNumber_eq_decimalValue p n h]
  split
  · omega
  · split
    · omega
    · omega

/-- C4, counterexample.  For the reply `2147483648, /tmp/s.sock, unix` the
handle that `spawn` returns has pid `-2147483648`, which is not the decimal
value of the text: `atoi` delivers an `int`. -/
theorem spawn_pid_wraps :
    decimalValue "2147483648" = some 2147483648 ∧
    (spawn exampleOptions exampleManager pidBeyondInt).1
      = .ok ⟨"/app", -2147483648, "/tmp/s.sock", "unix", 9⟩ := by
  decide

/-- C4, amended.  Successful spawn.  When the request is written and the
helper answers `ok`, then `p, a, k`, then the descriptor `fd`, `spawn` returns
a handle with application root `opts.appRoot`, pid `atoi p` (an `int`),
listening address `a`, kind `k` and owner descriptor `fd`; no restart is
attempted, one request is sent and the supervisor state is unchanged.  When
`p` is a decimal numeral of value `n` in the range of `int`, the pid is `n`;
for `4321` it is 4321. -/
theorem spawn_success (opts : PoolOptions) (s : SpawnManager) (w : World)
    (p a k : String) (fd : Int) (qw : List (SysResult Unit))
    (qr : List (SysResult (Option (List String)))) (qf : List FdResult)
    (hw : w.chanWriteQ = .ok () :: qw)
    (hr : w.chanReadQ = .ok (some ["ok"]) :: .ok (some [p, a, k]) :: qr)
    (hf : w.chanReadFdQ = .ok fd :: qf) :
    (spawn opts s w).1 = .ok ⟨opts.appRoot, atoi p, a, k, fd⟩ ∧
    (spawn opts s w).2.1 = s ∧
    restartAttempts (spawn opts s w).2.2.trace = restartAttempts w.trace ∧
    spawnRequests (spawn opts s w).2.2.trace = spawnRequests w.trace + 1 ∧
    (∀ n : Nat, decimalValue p = some n → n < 2 ^ 31 →
      (spawn opts s w).1 = .ok ⟨opts.appRoot, (n : Int), a, k, fd⟩) ∧
    (p = "4321" → k = "unix" →
      (spawn opts s w).1 = .ok ⟨opts.appRoot, 4321, a, "unix", fd⟩) := by
  have h1 : (sendSpawnCommand opts s (w.log .mutexLock)).1
      = .ok ⟨opts.appRoot, atoi p, a, k, fd⟩ := by
    simp [sendSpawnCommand, readReply, readApplication, finishSpawn, MessageChannel.write,
      MessageChannel.read, MessageChannel.readFileDescriptor, World.log, hw, hr, hf]
  have hres : (spawn opts s w).1 = .ok ⟨opts.appRoot, atoi p, a, k, fd⟩ := by
    unfold spawn
    simp only [h1]
  refine ⟨hres, ?_, ?_, ?_, ?_, ?_⟩
  · unfold spawn
    simp only [h1]
  · unfold spawn
    simp only [h1]
    rw [restartAttempts_log _ _ (by simp), sendSpawnCommand_restartAttempts,
      restartAttempts_log _ _ (by simp)]
  · unfold spawn
    simp only [h1]
    rw [spawnRequests_log _ .mutexUnlock rfl, sendSpawnCommand_spawnRequests,
      spawnRequests_log _ .mutexLock rfl]
  · intro n hn _
    rw [hres, atoi_eq_decimalValue p n hn (by omega)]
  · intro hp hk
    rw [hres, hp, hk]
    rfl

theorem spawn_success_witness :
    (spawn exampleOptions exampleManager healthyReply).1
      = .ok ⟨"/app", 4321, "/tmp/s.sock", "unix", 9⟩ ∧
    restartAttempts (spawn exampleOptions exampleManager healthyReply).2.2.trace = 0 ∧
    decimalValue "4321" = some 4321 :=
  have h := spawn_success exampleOptions exampleManager healthyReply "4321" "/tmp/s.sock"
    "unix" 9 [] [] [] rfl rfl rfl
  ⟨h.2.2.2.2.1 4321 (by decide) (by decide), h.2.2.1, by decide⟩

/-! ### C5: a failed restart -/

/-- C5, counterexample.  The first attempt fails with the broken-pipe fault,
the restart fails, and the error `spawn` reports is not that fault. -/
theorem spawn_restart_failure_not_original :
    (sendSpawnCommand exampleOptions exampleManager (deadAndNoRestart.log .mutexLock)).1
      = .error (.spawn ⟨"Could not write 'spawn_application' command to the spawn server: "
          ++ "Broken pipe (32)", none⟩) ∧
    (restartServer exampleManager
      (sendSpawnCommand exampleOptions exampleManager (deadAndNoRestart.log .mutexLock)).2).1
      ≠ .ok () ∧
    (spawn exampleOptions exampleManager deadAndNoRestart).1
      ≠ (sendSpawnCommand exampleOptions exampleManager (deadAndNoRestart.log .mutexLock)).1 := by
  decide

/-- C5, amended.  When the first attempt fails without an error page and the
restart fails, `spawn` reports the `SpawnException` with the message
`The spawn server died unexpectedly, and restarting it failed.` and no error
page. -/
theorem spawn_restart_failure_reported (opts : PoolOptions) (s : SpawnManager) (w : World)
    (e : SpawnException)
    (hfirst : (sendSpawnCommand opts s (w.log .mutexLock)).1 = .error (.spawn e))
    (hpage : e.hasErrorPage = false)
    (hrestart : (restartServer s (sendSpawnCommand opts s (w.log .mutexLock)).2).1 ≠ .ok ()) :
    (spawn opts s w).1 = .error (.spawn
      ⟨"The spawn server died unexpectedly, and restarting it failed.", none⟩) :=
  ((spawn_fault_counts opts s w e hfirst hpage).2.2 hrestart).2

theorem spawn_restart_failure_reported_witness :
    (restartServer exampleManager
      (sendSpawnCommand exampleOptions exampleManager (deadAndNoRestart.log .mutexLock)).2).1
      ≠ .ok () ∧
    (spawn exampleOptions exampleManager deadAndNoRestart).1 = .error (.spawn
      ⟨"The spawn server died unexpectedly, and restarting it failed.", none⟩) :=
  ⟨by decide, spawn_restart_failure_reported exampleOptions exampleManager deadAndNoRestart
    ⟨"Could not write 'spawn_application' command to the spawn server: Broken pipe (32)", none⟩
    (by decide) (by decide) (by decide)⟩

/-! ### C6: reload -/

theorem sendReloadCommand_trace (appRoot : String) (s : SpawnManager) (w : World) :
    (sendReloadCommand appRoot s w).2.trace
      = w.trace ++ [.channelWrite s.channel.fd ["reload", appRoot]] := by
  unfold sendReloadCommand
  simp only
  split <;> simp [MessageChannel.write, World.log]

theorem sendReloadCommand_result (appRoot : String) (s : SpawnManager) (w : World) :
    (sendReloadCommand appRoot s w).1 =
      match w.chanWriteQ.headD (.fail EPIPE) with
      | .ok _ => .ok ()
      | .fail e => .error (.system ⟨"Could not write 'reload' command to the spawn server", e⟩) := by
  unfold sendReloadCommand
  simp only [MessageChannel.write]
  cases w.chanWriteQ.headD (.fail EPIPE) <;> rfl

theorem handleReloadException_ok (e : SystemException) (appRoot : String) (s : SpawnManager)
    (w : World) (h : (restartServer s w).1 = .ok ()) :
    handleReloadException e appRoot s w =
      ((sendReloadCommand appRoot (restartServer s w).2.1 (restartServer s w).2.2).1,
       (restartServer s w).2.1,
       (sendReloadCommand appRoot (restartServer s w).2.1 (restartServer s w).2.2).2) := by
  unfold handleReloadException
  simp only [h]

theorem handleReloadException_failed (e : SystemException) (appRoot : String)
    (s : SpawnManager) (w : World) (h : (restartServer s w).1 ≠ .ok ()) :
    handleReloadException e appRoot s w =
      (.error (.spawn restartFailed), (restartServer s w).2.1, (restartServer s w).2.2) := by
  unfold handleReloadException
  rcases restartServer_result s w with h1 | ⟨x, h1⟩ | ⟨x, h1⟩
  · exact absurd h1 h
  · simp only [h1]
  · simp only [h1]

/-- C6. `reload` follows the restart-and-retry-once pattern.  Its first call is
the write of the two-element message `reload, appRoot`.  When that write
succeeds nothing else happens.  When it fails, one restart is attempted on the
world the failed write left; after a successful restart the same message is
written once more to the new channel, and the outcome of that write is the
outcome of `reload` (a failure is the `SystemException` of the write); after a
failed restart nothing is written and `reload` fails with the
`restarting it failed` `SpawnException`.  No reply is ever read. -/
theorem reload_retries_exactly_once (appRoot : String) (s : SpawnManager) (w : World) :
    (w.chanWriteQ.headD (.fail EPIPE) = .ok () →
      reload appRoot s w = (.ok (), s, (s.channel.write ["reload", appRoot] w).2) ∧
      (reload appRoot s w).2.2.trace
        = w.trace ++ [.channelWrite s.channel.fd ["reload", appRoot]]) ∧
    (∀ e, w.chanWriteQ.headD (.fail EPIPE) = .fail e →
      restartAttempts (reload appRoot s w).2.2.trace = restartAttempts w.trace + 1 ∧
      ((restartServer s (s.channel.write ["reload", appRoot] w).2).1 = .ok () →
        (reload appRoot s w).2.2.trace
          = (restartServer s (s.channel.write ["reload", appRoot] w).2).2.2.trace ++
            [.channelWrite (restartServer s (s.channel.write ["reload", appRoot] w).2).2.1.channel.fd
              ["reload", appRoot]] ∧
        (reload appRoot s w).2.2.trace.countP isChannelWrite
          = w.trace.countP isChannelWrite + 2 ∧
        (reload appRoot s w).1 =
          match (restartServer s (s.channel.write ["reload", appRoot] w).2).2.2.chanWriteQ.headD
              (.fail EPIPE) with
          | .ok _ => .ok ()
          | .fail e2 =>
            .error (.system ⟨"Could not write 'reload' command to the spawn server", e2⟩)) ∧
      ((restartServer s (s.channel.write ["reload", appRoot] w).2).1 ≠ .ok () →
        (reload appRoot s w).2.2.trace
          = (restartServer s (s.channel.write ["reload", appRoot] w).2).2.2.trace ∧
        (reload appRoot s w).2.2.trace.countP isChannelWrite
          = w.trace.countP isChannelWrite + 1 ∧
        (reload appRoot s w).1 = .error (.spawn
          ⟨"The spawn server died unexpectedly, and restarting it failed.", none⟩))) ∧
    (reload appRoot s w).2.2.trace.countP isChannelRead = w.trace.countP isChannelRead := by
  have hwt : (s.channel.write ["reload", appRoot] w).2.trace
      = w.trace ++ [.channelWrite s.channel.fd ["reload", appRoot]] := by
    simp [MessageChannel.write, World.log]
  have hcw : ∀ (s1 : SpawnManager) (w1 : World),
      (restartServer s1 w1).2.2.trace.countP isChannelWrite = w1.trace.countP isChannelWrite := by
    intro s1 w1
    apply restartServer_countP_eq
    · intro e he; cases e <;> simp_all [isStopEvent, isChannelWrite]
    · intro e he; cases e <;> simp_all [isForkEvent, isChannelWrite]
    · rfl
  have hcr : ∀ (s1 : SpawnManager) (w1 : World),
      (restartServer s1 w1).2.2.trace.countP isChannelRead = w1.trace.countP isChannelRead := by
    intro s1 w1
    apply restartServer_countP_eq
    · intro e he; cases e <;> simp_all [isStopEvent, isChannelRead]
    · intro e he; cases e <;> simp_all [isForkEvent, isChannelRead]
    · rfl
  cases hq : w.chanWriteQ.headD (.fail EPIPE) with
  | ok u =>
    have hreload : reload appRoot s w = (.ok (), s, (s.channel.write ["reload", appRoot] w).2) := by
      unfold reload sendReloadCommand
      simp only [MessageChannel.write, hq]
    refine ⟨fun _ => ⟨hreload, by rw [hreload, hwt]⟩, fun e he => by simp at he, ?_⟩
    rw [hreload, hwt]
    simp [List.countP_append, List.countP_cons, isChannelRead]
  | fail e =>
    have hreload : reload appRoot s w
        = handleReloadException
            ⟨"Could not write 'reload' command to the spawn server", e⟩ appRoot s
            (s.channel.write ["reload", appRoot] w).2 := by
      unfold reload sendReloadCommand
      simp only [MessageChannel.write, hq]
    refine ⟨fun h => by simp at h, fun e' _ => ?_, ?_⟩
    · by_cases hr : (restartServer s (s.channel.write ["reload", appRoot] w).2).1 = .ok ()
      · rw [hreload, handleReloadException_ok _ _ _ _ hr]
        refine ⟨?_, fun _ => ⟨?_, ?_, ?_⟩, fun h => absurd hr h⟩
        · rw [sendReloadCommand_trace]
          simp only [restartAttempts, List.count_append]
          have := restartServer_restartAttempts s (s.channel.write ["reload", appRoot] w).2
          simp only [restartAttempts, hwt, List.count_append] at this
          simp [this]
        · rw [sendReloadCommand_trace]
        · rw [sendReloadCommand_trace, List.countP_append, hcw, hwt]
          simp [List.countP_append, List.countP_cons, isChannelWrite]
        · rw [sendReloadCommand_result]
      · rw [hreload, handleReloadException_failed _ _ _ _ hr]
        refine ⟨?_, fun h => absurd h hr, fun _ => ⟨rfl, ?_, rfl⟩⟩
        · have := restartServer_restartAttempts s (s.channel.write ["reload", appRoot] w).2
          simp only [restartAttempts, hwt, List.count_append] at this
          simp [restartAttempts, this]
        · rw [hcw, hwt]
          simp [List.countP_append, List.countP_cons, isChannelWrite]
    · rw [hreload]
      by_cases hr : (restartServer s (s.channel.write ["reload", appRoot] w).2).1 = .ok ()
      · rw [handleReloadException_ok _ _ _ _ hr, sendReloadCommand_trace, List.countP_append,
          hcr, hwt]
        simp [List.countP_append, List.countP_cons, isChannelRead]
      · rw [handleReloadException_failed _ _ _ _ hr, hcr, hwt]
        simp [List.countP_append, List.countP_cons, isChannelRead]

theorem reload_retries_exactly_once_witness :
    reloadDeadThenHealthy.chanWriteQ.headD (.fail EPIPE) = .fail EPIPE ∧
    (restartServer exampleManager
      (exampleManager.channel.write ["reload", "/app"] reloadDeadThenHealthy).2).1 = .ok () ∧
    restartAttempts (reload "/app" exampleManager reloadDeadThenHealthy).2.2.trace = 1 ∧
    (reload "/app" exampleManager reloadDeadThenHealthy).2.2.trace.countP isChannelWrite = 2 ∧
    (reload "/app" exampleManager reloadDeadThenHealthy).1 = .ok () :=
  have h := (reload_retries_exactly_once "/app" exampleManager reloadDeadThenHealthy).2.1
    EPIPE rfl
  ⟨rfl, by decide, h.1, (h.2.1 (by decide)).2.1, by decide⟩

/-! ### C7: restart with no helper running -/

/-- On a session without descriptor an operation makes no call other than
setting a timeout, and the session stays without descriptor. -/
theorem SessionOp.run_closed (op : SessionOp) (s : StandardSession) (w : World)
    (q : Event → Bool) (hq : ∀ fd k m, q (.setTimeout fd k m) = false) (h : s.fd = -1) :
    (op.run s w).2.1.fd = -1 ∧
    (op.run s w).2.2.trace.countP q = w.trace.countP q := by
  cases op with
  | sendHeaders hd => simp [SessionOp.run, StandardSession.sendHeaders, StandardSession.getStream, h]
  | sendBodyBlock b =>
    simp [SessionOp.run, StandardSession.sendBodyBlock, StandardSession.getStream, h]
  | getStream => simp [SessionOp.run, h]
  | setReaderTimeout m =>
    refine ⟨h, ?_⟩
    simp only [SessionOp.run, StandardSession.setReaderTimeout, MessageChannel.setTimeout]
    split <;> simp [World.log, List.countP_append, List.countP_cons, hq]
  | setWriterTimeout m =>
    refine ⟨h, ?_⟩
    simp only [SessionOp.run, StandardSession.setWriterTimeout, MessageChannel.setTimeout]
    split <;> simp [World.log, List.countP_append, List.countP_cons, hq]
  | shutdownReader => simp [SessionOp.run, StandardSession.shutdownReader, h]
  | shutdownWriter => simp [SessionOp.run, StandardSession.shutdownWriter, h]
  | closeStream => simp [SessionOp.run, StandardSession.closeStream, h]
  | discardStream => simp [SessionOp.run, StandardSession.discardStream]
  | getPid => simp [SessionOp.run, h]

theorem runOps_closed (ops : List SessionOp) (s : StandardSession) (w : World)
    (q : Event → Bool) (hq : ∀ fd k m, q (.setTimeout fd k m) = false) (h : s.fd = -1) :
    (runOps ops s w).1.fd = -1 ∧
    (runOps ops s w).2.trace.countP q = w.trace.countP q := by
  induction ops generalizing s w with
  | nil => exact ⟨h, rfl⟩
  | cons op ops ih =>
    obtain ⟨h1, h2⟩ := SessionOp.run_closed op s w q hq h
    obtain ⟨h3, h4⟩ := ih (op.run s w).2.1 (op.run s w).2.2 h1
    exact ⟨h3, h4.trans h2⟩

theorem destroy_closed (s : StandardSession) (w : World) (q : Event → Bool)
    (hq : ∀ i, q (.closeCallback i) = false) (h : s.fd = -1) :
    (s.destroy w).2.2.trace.countP q = w.trace.countP q := by
  simp [StandardSession.destroy, StandardSession.closeStream, h, World.log,
    List.countP_append, List.countP_cons, hq]

/-- A session that has no descriptor never gets one back: whatever is done
with it, up to and including its destruction, no call is made other than
setting timeouts and the close callback. -/
theorem sessionLifetime_closed (ops : List SessionOp) (s : StandardSession) (w : World)
    (q : Event → Bool) (hq : ∀ fd k m, q (.setTimeout fd k m) = false)
    (hq2 : ∀ i, q (.closeCallback i) = false) (h : s.fd = -1) :
    (sessionLifetime ops s w).2.2.trace.countP q = w.trace.countP q := by
  obtain ⟨h1, h2⟩ := runOps_closed ops s w q hq h
  unfold sessionLifetime
  simp only
  rw [destroy_closed _ _ q hq2 h1, h2]

theorem closeCount_eq_countP (d : Int) (t : List Event) :
    closeCount d t = t.countP (fun e => e == .close d) := rfl

theorem closeCount_log (w : World) (d : Int) (e : Event) :
    closeCount d (w.log e).trace = closeCount d w.trace + (if e = .close d then 1 else 0) := by
  simp only [closeCount, World.log, List.count_append, List.count_cons, List.count_nil]
  by_cases h : e = .close d <;> simp [h]

theorem closeStream_open (s : StandardSession) (w : World) (h : s.fd ≠ -1) :
    (s.closeStream w).2.1.fd = -1 ∧
    closeCount s.fd (s.closeStream w).2.2.trace = closeCount s.fd w.trace + 1 := by
  unfold StandardSession.closeStream
  simp only [h, ne_eq, not_false_eq_true, if_true]
  have ht : closeCount s.fd (syscalls.close s.fd w).2.trace = closeCount s.fd w.trace + 1 := by
    simp [syscalls.close, World.log, closeCount, List.count_append]
  split
  · split <;> exact ⟨rfl, ht⟩
  · exact ⟨rfl, ht⟩

/-- On a session that owns its descriptor an operation other than
`discardStream` either keeps the descriptor and closes nothing, or is the
`closeStream` that closes it once. -/
theorem SessionOp.run_open (op : SessionOp) (s : StandardSession) (w : World)
    (h : s.fd ≠ -1) (hop : op ≠ .discardStream) :
    ((op.run s w).2.1.fd = s.fd ∧
      closeCount s.fd (op.run s w).2.2.trace = closeCount s.fd w.trace) ∨
    ((op.run s w).2.1.fd = -1 ∧
      closeCount s.fd (op.run s w).2.2.trace = closeCount s.fd w.trace + 1) := by
  cases op with
  | sendHeaders hd =>
    left
    refine ⟨rfl, ?_⟩
    simp only [SessionOp.run, StandardSession.sendHeaders, StandardSession.getStream, h,
      if_false, MessageChannel.writeScalar, MessageChannel.writeRaw]
    split <;> split <;> simp [closeCount, World.log, List.count_append, List.count_cons]
  | sendBodyBlock b =>
    left
    refine ⟨rfl, ?_⟩
    simp only [SessionOp.run, StandardSession.sendBodyBlock, StandardSession.getStream, h,
      if_false, MessageChannel.writeRaw]
    split <;> split <;> simp [closeCount, World.log, List.count_append, List.count_cons]
  | getStream => exact Or.inl ⟨rfl, rfl⟩
  | setReaderTimeout m =>
    left
    refine ⟨rfl, ?_⟩
    simp only [SessionOp.run, StandardSession.setReaderTimeout, MessageChannel.setTimeout]
    split <;> simp [closeCount, World.log, List.count_append, List.count_cons]
  | setWriterTimeout m =>
    left
    refine ⟨rfl, ?_⟩
    simp only [SessionOp.run, StandardSession.setWriterTimeout, MessageChannel.setTimeout]
    split <;> simp [closeCount, World.log, List.count_append, List.count_cons]
  | shutdownReader =>
    left
    refine ⟨rfl, ?_⟩
    simp only [SessionOp.run, StandardSession.shutdownReader, h, ne_eq, not_false_eq_true,
      if_true, syscalls.shutdown]
    split <;> simp [closeCount, World.log, List.count_append, List.count_cons]
  | shutdownWriter =>
    left
    refine ⟨rfl, ?_⟩
    simp only [SessionOp.run, StandardSession.shutdownWriter, h, ne_eq, not_false_eq_true,
      if_true, syscalls.shutdown]
    split <;> simp [closeCount, World.log, List.count_append, List.count_cons]
  | closeStream => exact Or.inr (closeStream_open s w h)
  | discardStream => exact absurd rfl hop
  | getPid => exact Or.inl ⟨rfl, rfl⟩

theorem sessionLifetime_open (ops : List SessionOp) (s : StandardSession) (w : World)
    (h : s.fd ≠ -1) (hops : SessionOp.discardStream ∉ ops) :
    closeCount s.fd (sessionLifetime ops s w).2.2.trace = closeCount s.fd w.trace + 1 := by
  induction ops generalizing s w with
  | nil =>
    unfold sessionLifetime runOps StandardSession.destroy
    simp only
    obtain ⟨_, h2⟩ := closeStream_open s w h
    split
    · exact h2
    · rw [closeCount_log, h2]
      simp
  | cons op ops ih =>
    have hop : op ≠ .discardStream := fun hh => hops (hh ▸ List.mem_cons_self _ _)
    have hrest : SessionOp.discardStream ∉ ops := fun hh => hops (List.mem_cons_of_mem _ hh)
    have hstep : sessionLifetime (op :: ops) s w
        = sessionLifetime ops (op.run s w).2.1 (op.run s w).2.2 := rfl
    rw [hstep]
    rcases SessionOp.run_open op s w h hop with ⟨h1, h2⟩ | ⟨h1, h2⟩
    · have := ih (op.run s w).2.1 (op.run s w).2.2 (h1 ▸ h) hrest
      rw [h1] at this
      rw [this, h2]
    · rw [closeCount_eq_countP, sessionLifetime_closed ops _ _ _ (fun _ _ _ => rfl)
        (fun _ => rfl) h1, ← closeCount_eq_countP, h2]

/-- C8. No double release of the session descriptor.  For a session that owns
descriptor `s.fd`: after `discardStream`, whatever operations follow and
through the destructor, no `close` and no `shutdown` is issued on that
descriptor; and over any sequence of operations without `discardStream`,
ending with the destructor, `close` is issued on it exactly once. -/
theorem session_descriptor_released_once (ops post : List SessionOp) (s : StandardSession)
    (w : World) (h : s.fd ≠ -1) :
    (sessionLifetime (.discardStream :: post) s w).2.2.trace.countP (releases s.fd)
      = w.trace.countP (releases s.fd) ∧
    (SessionOp.discardStream ∉ ops →
      closeCount s.fd (sessionLifetime ops s w).2.2.trace = closeCount s.fd w.trace + 1) := by
  refine ⟨?_, sessionLifetime_open ops s w h⟩
  have hstep : sessionLifetime (.discardStream :: post) s w
      = sessionLifetime post s.discardStream w := rfl
  rw [hstep]
  exact sessionLifetime_closed post _ _ _ (fun _ _ _ => rfl) (fun _ => rfl) rfl

theorem session_descriptor_released_once_witness :
    exampleSession.fd ≠ -1 ∧
    (sessionLifetime [.sendHeaders [1, 0, 2, 0], .discardStream, .closeStream, .shutdownWriter]
      exampleSession (World.init 0)).2.2.trace.countP (releases 7) = 0 ∧
    closeCount 7 (sessionLifetime [.sendHeaders [1, 0, 2, 0], .closeStream, .closeStream]
      exampleSession (World.init 0)).2.2.trace = 1 :=
  ⟨by decide, by decide,
    (session_descriptor_released_once [.sendHeaders [1, 0, 2, 0], .closeStream, .closeStream] []
      exampleSession (World.init 0) (by decide)).2 (by decide)⟩

/-- C9, the failing input.  Destroying a session whose `close` call fails ends
with the exception of `closeStream`; the only call made is the `close`, and the
close callback has not been called. -/
theorem destroy_skips_callback_when_close_fails :
    (exampleSession.destroy closeFails).1
      = .error (.system ⟨"A write operation on the session stream failed",
          ⟨5, "Input/output error"⟩⟩) ∧
    (exampleSession.destroy closeFails).2.2.trace = [.close 7] ∧
    (exampleSession.destroy closeFails).2.2.trace.count (.closeCallback 1) = 0 := by
  decide

theorem streamOutput_append (fd : Int) (t1 t2 : List Event) :
    streamOutput fd (t1 ++ t2) = streamOutput fd t1 ++ streamOutput fd t2 := by
  induction t1 with
  | nil => rfl
  | cons e t ih =>
    cases e with
    | write d data =>
      show (if d = fd then data ++ streamOutput fd (t ++ t2) else streamOutput fd (t ++ t2))
        = (if d = fd then data ++ streamOutput fd t else streamOutput fd t) ++ streamOutput fd t2
      rw [ih]
      split <;> simp
    | _ => exact ih

theorem sendHeaders_ok (s : StandardSession) (w : World) (H : Bytes) (hfd : s.fd ≠ -1)
    (h : w.writeQ.headD (.ok ()) = .ok ()) :
    s.sendHeaders H w
      = (.ok (), { w.log (.write s.fd (MessageChannel.scalarFrame H)) with
                   writeQ := w.writeQ.tail }) := by
  simp only [StandardSession.sendHeaders, StandardSession.getStream, hfd, if_false,
    MessageChannel.writeScalar, MessageChannel.writeRaw, h]

theorem sendBodyBlock_ok (s : StandardSession) (w : World) (B : Bytes) (hfd : s.fd ≠ -1)
    (h : w.writeQ.headD (.ok ()) = .ok ()) :
    s.sendBodyBlock B w
      = (.ok (), { w.log (.write s.fd B) with writeQ := w.writeQ.tail }) := by
  simp only [StandardSession.sendBodyBlock, StandardSession.getStream, hfd, if_false,
    MessageChannel.writeRaw, h]

/-- C10. Session ordering.  On a session with an open stream, when the three
writes succeed, `sendHeaders H`, `sendBodyBlock B1`, `sendBodyBlock B2` all
return normally and make exactly three calls: the write of the scalar frame of
`H`, of `B1` and of `B2`, on the session's descriptor.  The bytes delivered to
the stream grow by `scalarFrame H ++ B1 ++ B2`, where the scalar frame is the
length header followed by `H`. -/
theorem session_write_order (s : StandardSession) (w : World) (H B1 B2 : Bytes)
    (hfd : s.fd ≠ -1)
    (h1 : w.writeQ.headD (.ok ()) = .ok ())
    (h2 : w.writeQ.tail.headD (.ok ()) = .ok ())
    (h3 : w.writeQ.tail.tail.headD (.ok ()) = .ok ()) :
    (s.sendHeaders H w).1 = .ok () ∧
    (s.sendBodyBlock B1 (s.sendHeaders H w).2).1 = .ok () ∧
    (s.sendBodyBlock B2 (s.sendBodyBlock B1 (s.sendHeaders H w).2).2).1 = .ok () ∧
    (s.sendBodyBlock B2 (s.sendBodyBlock B1 (s.sendHeaders H w).2).2).2.trace
      = w.trace ++ [.write s.fd (MessageChannel.scalarFrame H), .write s.fd B1,
          .write s.fd B2] ∧
    streamOutput s.fd (s.sendBodyBlock B2 (s.sendBodyBlock B1 (s.sendHeaders H w).2).2).2.trace
      = streamOutput s.fd w.trace ++ (MessageChannel.scalarFrame H ++ B1 ++ B2) ∧
    MessageChannel.scalarFrame H = MessageChannel.lengthHeader H.length ++ H := by
  have e1 := sendHeaders_ok s w H hfd h1
  have e2 := sendBodyBlock_ok s (s.sendHeaders H w).2 B1 hfd (by rw [e1]; exact h2)
  have e3 := sendBodyBlock_ok s (s.sendBodyBlock B1 (s.sendHeaders H w).2).2 B2 hfd
    (by rw [e2, e1]; exact h3)
  have ht : (s.sendBodyBlock B2 (s.sendBodyBlock B1 (s.sendHeaders H w).2).2).2.trace
      = w.trace ++ [.write s.fd (MessageChannel.scalarFrame H), .write s.fd B1,
          .write s.fd B2] := by
    rw [e3, e2, e1]
    simp [World.log]
  refine ⟨by rw [e1], by rw [e2], by rw [e3], ht, ?_, rfl⟩
  rw [ht, streamOutput_append]
  simp [streamOutput]

theorem session_write_order_witness :
    exampleSession.fd ≠ -1 ∧
    streamOutput 7 (exampleSession.sendBodyBlock [9]
        (exampleSession.sendBodyBlock [8] (exampleSession.sendHeaders [65, 0, 66, 0]
          (World.init 0)).2).2).2.trace
      = [0, 0, 0, 4, 65, 0, 66, 0, 8, 9] :=
  ⟨by decide,
    (session_write_order exampleSession (World.init 0) [65, 0, 66, 0] [8] [9] (by decide)
      rfl rfl rfl).2.2.2.2.1⟩

/-! ### C11 to C13: connecting to a worker -/

theorem splitAux_length (sep : Char) (cs cur : List Char) :
    (splitAux sep cs cur).length = cs.count sep + 1 := by
  induction cs generalizing cur with
  | nil => rfl
  | cons c cs ih =>
    by_cases h : c = sep
    · subst h
      simp [splitAux, ih]
    · have h2 : ¬ (c == sep) = true := by simpa using h
      simp [splitAux, h, ih, List.count_cons, h2]

theorem split_length (str : String) (sep : Char) :
    (split str sep).length = str.toList.count sep + 1 :=
  splitAux_length sep str.toList []

theorem splitAux_last (sep : Char) (p cur : List Char) (hp : sep ∉ p) :
    splitAux sep p cur = [String.mk (cur.reverse ++ p)] := by
  induction p generalizing cur with
  | nil => simp [splitAux]
  | cons c cs ih =>
    have hc : ¬ c = sep := fun h => hp (h ▸ List.mem_cons_self _ _)
    have hcs : sep ∉ cs := fun h => hp (List.mem_cons_of_mem _ h)
    simp [splitAux, hc, ih _ hcs]

theorem splitAux_first (sep : Char) (h p cur : List Char) (hh : sep ∉ h) :
    splitAux sep (h ++ sep :: p) cur = String.mk (cur.reverse ++ h) :: splitAux sep p [] := by
  induction h generalizing cur with
  | nil => simp [splitAux]
  | cons c cs ih =>
    have hc : ¬ c = sep := fun h => hh (h ▸ List.mem_cons_self _ _)
    have hcs : sep ∉ cs := fun h => hh (List.mem_cons_of_mem _ h)
    simp [splitAux, hc, ih _ hcs]

/-- An address `host:port` in which neither part holds a colon is cut into
exactly these two parts. -/
theorem split_host_port (host port : String) (hh : colon ∉ host.toList)
    (hp : colon ∉ port.toList) :
    split (host ++ ":" ++ port) colon = [host, port] := by
  have hl : (host ++ ":" ++ port).toList = host.toList ++ colon :: port.toList := by
    simp [String.toList, colon]
  unfold split
  rw [hl, splitAux_first colon _ _ _ hh, splitAux_last colon _ _ hp]
  simp [String.toList]

theorem connectSocket_emits (a : Application) (cb : Nat) (w : World) :
    Emits isTcpEvent w (a.connectSocket cb w).2 := by
  have h1 : Emits isTcpEvent w (socketRetry w).2 := by
    refine Emits.of_trace (List.replicate (eintrLoopD (.fail EMFILE) w.socketQ).1 .socket)
      (by simp [socketRetry]) ?_
    intro e he
    rw [(List.mem_replicate.mp he).2]
    rfl
  have h2 : ∀ (fd : Int) (w1 : World), Emits isTcpEvent w1 (connectRetry fd w1).2 := by
    intro fd w1
    refine Emits.of_trace
      (List.replicate (eintrLoopD (.fail ECONNREFUSED) w1.connectQ).1 (.connect fd))
      (by simp [connectRetry]) ?_
    intro e he
    rw [(List.mem_replicate.mp he).2]
    rfl
  have h3 : ∀ (fd : Int) (w1 : World), Emits isTcpEvent w1 (closeRetry fd w1).2 := by
    intro fd w1
    refine Emits.of_trace (List.replicate (eintrLoop w1.closeQ).1 (.close fd))
      (by simp [closeRetry]) ?_
    intro e he
    rw [(List.mem_replicate.mp he).2]
    rfl
  unfold Application.connectSocket
  simp only
  split
  · exact h1
  · split
    · exact Emits.trans h1 (Emits.trans (h2 _ _) (h3 _ _))
    · exact Emits.trans h1 (h2 _ _)

/-- What the TCP connector does with an address that is cut into `host` and
`port`: it refuses it when `atoi port` is 0 and otherwise asks the resolver for
`host` and `port` before anything else. -/
theorem connectToTcpServer_host_port (a : Application) (cb : Nat) (w : World)
    (host port : String) (hs : split a.listenSocketName colon = [host, port]) :
    (atoi port = 0 → a.connectToTcpServer cb w = (.error a.invalidAddress, w)) ∧
    (atoi port ≠ 0 →
      (a.connectToTcpServer cb w).1 ≠ .error a.invalidAddress ∧
      ∃ evs, (a.connectToTcpServer cb w).2.trace
        = w.trace ++ .getaddrinfo host port :: evs ∧ ∀ e ∈ evs, isTcpEvent e = true) := by
  constructor
  · intro h0
    unfold Application.connectToTcpServer
    simp only [hs, h0, if_true]
  · intro h0
    unfold Application.connectToTcpServer
    simp only [hs, h0, if_false]
    have hg : (getaddrinfo host port w).2.trace = w.trace ++ [.getaddrinfo host port] := by
      simp [getaddrinfo, World.log]
    split
    · refine ⟨?_, [], by simp [hg], by simp⟩
      intro h
      simp only [Application.invalidAddress, Res.error.injEq, Exc.ioException.injEq] at h
      have h2 := congrArg (fun s => s.data.head?) h
      simp [String.data_append] at h2
    · obtain ⟨evs, ht, hp⟩ := connectSocket_emits a cb (getaddrinfo host port w).2
      refine ⟨?_, evs, by rw [ht, hg]; simp, hp⟩
      unfold Application.connectSocket Application.invalidAddress
      simp only
      split
      · simp
      · split <;> simp

theorem connectToTcpServer_bad_split (a : Application) (cb : Nat) (w : World)
    (h : (split a.listenSocketName colon).length ≠ 2) :
    a.connectToTcpServer cb w = (.error a.invalidAddress, w) := by
  unfold Application.connectToTcpServer
  split
  · rename_i hs
    rw [hs] at h
    exact absurd rfl h
  · rfl

theorem connect_tcp (a : Application) (cb : Nat) (w : World)
    (hk : a.listenSocketType = "tcp") : a.connect cb w = a.connectToTcpServer cb w := by
  unfold Application.connect
  rw [hk]
  simp

/-- C11. TCP address parsing.  For a worker of kind `tcp`, `connect` fails with
the `IOException` `Invalid TCP/IP address` and leaves the world untouched (no
call at all is made) when the address holds no colon, holds more than one, or
is `host:port` with a port that is a numeral of value zero.  For
`127.0.0.1:9000` the outcome is not that error and the first call made is the
resolver's, for host `127.0.0.1` and port `9000`; only socket calls follow. -/
theorem tcp_address_validation (a : Application) (cb : Nat) (w : World)
    (hk : a.listenSocketType = "tcp") :
    ((a.listenSocketName.toList.count colon = 0 ∨
      2 ≤ a.listenSocketName.toList.count colon ∨
      ∃ host port, a.listenSocketName = host ++ ":" ++ port ∧ colon ∉ host.toList ∧
        colon ∉ port.toList ∧ decimalValue port = some 0) →
      a.connect cb w
        = (.error (.ioException ("Invalid TCP/IP address '" ++ a.listenSocketName ++ "'")),
            w)) ∧
    (a.listenSocketName = "127.0.0.1:9000" →
      (a.connect cb w).1
        ≠ .error (.ioException ("Invalid TCP/IP address '" ++ a.listenSocketName ++ "'")) ∧
      ∃ evs, (a.connect cb w).2.trace = w.trace ++ .getaddrinfo "127.0.0.1" "9000" :: evs ∧
        ∀ e ∈ evs, isTcpEvent e = true) := by
  rw [connect_tcp a cb w hk]
  constructor
  · rintro (h0 | h2 | ⟨host, port, hn, hh, hp, hz⟩)
    · exact connectToTcpServer_bad_split a cb w (by rw [split_length]; omega)
    · exact connectToTcpServer_bad_split a cb w (by rw [split_length]; omega)
    · have hs : split a.listenSocketName colon = [host, port] := by
        rw [hn]
        exact split_host_port host port hh hp
      have ha : atoi port = 0 := by
        rw [atoi_eq_decimalValue port 0 hz (by omega)]
        rfl
      exact (connectToTcpServer_host_port a cb w host port hs).1 ha
  · intro hn
    have hs : split a.listenSocketName colon = ["127.0.0.1", "9000"] := by
      rw [hn]
      decide
    exact (connectToTcpServer_host_port a cb w "127.0.0.1" "9000" hs).2 (by decide)

theorem tcp_address_validation_witness :
    (⟨"/app", 4321, "127.0.0.1", "tcp", 9⟩ : Application).connect 1 (World.init 0)
      = (.error (.ioException "Invalid TCP/IP address '127.0.0.1'"), World.init 0) ∧
    (⟨"/app", 4321, "127.0.0.1:0", "tcp", 9⟩ : Application).connect 1 (World.init 0)
      = (.error (.ioException "Invalid TCP/IP address '127.0.0.1:0'"), World.init 0) ∧
    (tcpWorker.connect 1 (World.init 0)).1
      ≠ .error (.ioException ("Invalid TCP/IP address '" ++ tcpWorker.listenSocketName ++ "'")) ∧
    (tcpWorker.connect 1 (World.init 0)).2.trace.head? = some (.getaddrinfo "127.0.0.1" "9000") :=
  ⟨(tcp_address_validation ⟨"/app", 4321, "127.0.0.1", "tcp", 9⟩ 1 (World.init 0) rfl).1
      (Or.inl (by decide)),
    (tcp_address_validation ⟨"/app", 4321, "127.0.0.1:0", "tcp", 9⟩ 1 (World.init 0) rfl).1
      (Or.inr (Or.inr ⟨"127.0.0.1", "0", by decide, by decide, by decide, by decide⟩)),
    ((tcp_address_validation tcpWorker 1 (World.init 0) rfl).2 rfl).1, by decide⟩

/-- C12, counterexample.  The port `80abc` is not a decimal numeral, yet the
address passes validation: the resolver is asked for host `127.0.0.1` and
port `80abc`, and the failure reported is the resolver's. -/
theorem malformed_port_reaches_resolver :
    malformedPortWorker.listenSocketType = "tcp" ∧
    decimalValue "80abc" = none ∧
    (malformedPortWorker.connect 1 resolverRejects).2.trace
      = [.getaddrinfo "127.0.0.1" "80abc"] ∧
    (malformedPortWorker.connect 1 resolverRejects).1
      = .error (.ioException ("Cannot resolve address '127.0.0.1:80abc': "
          ++ "Servname not supported for ai_socktype")) := by
  decide

/-- C12, amended.  For a worker of kind `tcp` whose address is `host:port`
(no colon in either part), `connect` fails with the `IOException`
`Invalid TCP/IP address`, making no call, exactly when `atoi port` is 0, where
`atoi` gives the `int` that the C library makes of the number at the start of
`port` (optional white space and sign, then digits).  When `atoi port` is not
0, which includes ports with characters after the digits and signed ports, the
address passes and the first call made is the resolver's, for `host` and
`port` as written.  For a decimal numeral in the range of `int`, `atoi port`
is its value. -/
theorem tcp_port_validation (a : Application) (cb : Nat) (w : World) (host port : String)
    (hk : a.listenSocketType = "tcp") (hn : a.listenSocketName = host ++ ":" ++ port)
    (hh : colon ∉ host.toList) (hp : colon ∉ port.toList) :
    (atoi port = 0 →
      a.connect cb w
        = (.error (.ioException ("Invalid TCP/IP address '" ++ a.listenSocketName ++ "'")),
            w)) ∧
    (atoi port ≠ 0 →
      (a.connect cb w).1
        ≠ .error (.ioException ("Invalid TCP/IP address '" ++ a.listenSocketName ++ "'")) ∧
      ∃ evs, (a.connect cb w).2.trace = w.trace ++ .getaddrinfo host port :: evs ∧
        ∀ e ∈ evs, isTcpEvent e = true) ∧
    (∀ n : Nat, decimalValue port = some n → n < 2147483648 → atoi port = (n : Int)) := by
  rw [connect_tcp a cb w hk]
  have hs : split a.listenSocketName colon = [host, port] := by
    rw [hn]
    exact split_host_port host port hh hp
  exact ⟨(connectToTcpServer_host_port a cb w host port hs).1,
    (connectToTcpServer_host_port a cb w host port hs).2,
    fun n h hlt => atoi_eq_decimalValue port n h hlt⟩

theorem tcp_port_validation_witness :
    atoi "80abc" = 80 ∧ atoi "+80" = 80 ∧ atoi "-80" = -80 ∧ atoi "abc" = 0 ∧
    atoi "4294967296" = 0 ∧
    (malformedPortWorker.connect 1 resolverRejects).1
      ≠ .error (.ioException
          ("Invalid TCP/IP address '" ++ malformedPortWorker.listenSocketName ++ "'")) ∧
    (⟨"/app", 4321, "127.0.0.1:abc", "tcp", 9⟩ : Application).connect 1 resolverRejects
      = (.error (.ioException "Invalid TCP/IP address '127.0.0.1:abc'"), resolverRejects) ∧
    (⟨"/app", 4321, "127.0.0.1:4294967296", "tcp", 9⟩ : Application).connect 1
        resolverRejects
      = (.error (.ioException "Invalid TCP/IP address '127.0.0.1:4294967296'"),
          resolverRejects) :=
  ⟨by decide, by decide, by decide, by decide, by decide,
    ((tcp_port_validation malformedPortWorker 1 resolverRejects "127.0.0.1" "80abc" rfl
      (by decide) (by decide) (by decide)).2.1 (by decide)).1,
    (tcp_port_validation ⟨"/app", 4321, "127.0.0.1:abc", "tcp", 9⟩ 1 resolverRejects
      "127.0.0.1" "abc" rfl (by decide) (by decide) (by decide)).1 (by decide),
    (tcp_port_validation ⟨"/app", 4321, "127.0.0.1:4294967296", "tcp", 9⟩ 1 resolverRejects
      "127.0.0.1" "4294967296" rfl (by decide) (by decide) (by decide)).1 (by decide)⟩

theorem connectToUnixServer_trace (a : Application) (cb : Nat) (w : World) :
    (a.connectToUnixServer cb w).2.trace = w.trace ++ [.connectUnix a.listenSocketName] := by
  unfold Application.connectToUnixServer
  simp only
  split <;> simp [Passenger.connectToUnixServer, World.log]

theorem connectToTcpServer_unixConnects (a : Application) (cb : Nat) (w : World) :
    (a.connectToTcpServer cb w).2.trace.countP isUnixConnect = w.trace.countP isUnixConnect := by
  have hsock : ∀ w1 : World, (a.connectSocket cb w1).2.trace.countP isUnixConnect
      = w1.trace.countP isUnixConnect := by
    intro w1
    obtain ⟨evs, ht, hp⟩ := connectSocket_emits a cb w1
    have h0 : evs.countP isUnixConnect = 0 := by
      rw [List.countP_eq_zero]
      intro e he
      have := hp e he
      cases e <;> simp_all [isTcpEvent, isUnixConnect]
    rw [ht, List.countP_append, h0]
    rfl
  unfold Application.connectToTcpServer
  split
  · split
    · rfl
    · simp only
      split
      · simp [getaddrinfo, World.log, List.countP_append, List.countP_cons, isUnixConnect]
      · rw [hsock]
        simp [getaddrinfo, World.log, List.countP_append, List.countP_cons, isUnixConnect]
  · rfl

/-- C13. Listening-address kind dispatch.  `connect` is the Unix-domain
connector when the kind is `unix`, and makes a Unix-domain connection attempt
(exactly one) if and only if the kind is `unix`; it is the TCP connector when
the kind is `tcp`, and for any other kind makes no resolver or socket call;
for a kind that is neither it fails with the `IOException`
`Unsupported socket type` and makes no call at all. -/
theorem connect_dispatch (a : Application) (cb : Nat) (w : World) :
    (a.listenSocketType = "unix" → a.connect cb w = a.connectToUnixServer cb w) ∧
    (a.listenSocketType = "tcp" → a.connect cb w = a.connectToTcpServer cb w) ∧
    (a.connect cb w).2.trace.countP isUnixConnect
      = w.trace.countP isUnixConnect + (if a.listenSocketType = "unix" then 1 else 0) ∧
    (a.listenSocketType ≠ "tcp" →
      (a.connect cb w).2.trace.countP isTcpCall = w.trace.countP isTcpCall) ∧
    (a.listenSocketType ≠ "unix" → a.listenSocketType ≠ "tcp" →
      a.connect cb w
        = (.error (.ioException ("Unsupported socket type '" ++ a.listenSocketType ++ "'")),
            w)) := by
  have hu : a.listenSocketType = "unix" → a.connect cb w = a.connectToUnixServer cb w := by
    intro h
    unfold Application.connect
    simp only [h, if_true]
  have ho : a.listenSocketType ≠ "unix" → a.listenSocketType ≠ "tcp" →
      a.connect cb w
        = (.error (.ioException ("Unsupported socket type '" ++ a.listenSocketType ++ "'")),
            w) := by
    intro h1 h2
    unfold Application.connect
    simp only [h1, h2, if_false]
  refine ⟨hu, connect_tcp a cb w, ?_, ?_, ho⟩
  · by_cases h1 : a.listenSocketType = "unix"
    · rw [hu h1, connectToUnixServer_trace]
      simp [h1, List.countP_append, List.countP_cons, isUnixConnect]
    · by_cases h2 : a.listenSocketType = "tcp"
      · rw [connect_tcp a cb w h2, connectToTcpServer_unixConnects]
        simp [h1]
      · rw [ho h1 h2]
        simp [h1]
  · intro h2
    by_cases h1 : a.listenSocketType = "unix"
    · rw [hu h1, connectToUnixServer_trace]
      simp [List.countP_append, List.countP_cons, isTcpCall]
    · rw [ho h1 h2]

theorem connect_dispatch_witness :
    (unixWorker.connect 1 (World.init 0)).2.trace = [.connectUnix "/tmp/s.sock"] ∧
    (tcpWorker.connect 1 (World.init 0)).2.trace.countP isUnixConnect = 0 ∧
    (⟨"/app", 4321, "/tmp/s.sock", "UNIX", 9⟩ : Application).connect 1 (World.init 0)
      = (.error (.ioException "Unsupported socket type 'UNIX'"), World.init 0) :=
  ⟨by decide, (connect_dispatch tcpWorker 1 (World.init 0)).2.2.1,
    (connect_dispatch ⟨"/app", 4321, "/tmp/s.sock", "UNIX", 9⟩ 1 (World.init 0)).2.2.2.2
      (by decide) (by decide)⟩

/-! ### C14 to C17: the stream of a session -/

theorem closeStream_fd (s : StandardSession) (w : World) : (s.closeStream w).2.1.fd = -1 := by
  unfold StandardSession.closeStream
  split
  · simp only
    split
    · split <;> rfl
    · rfl
  · rename_i h
    simpa using h

theorem sendHeaders_closed (s : StandardSession) (w : World) (payload : Bytes)
    (h : s.fd = -1) :
    s.sendHeaders payload w
      = (.error (.ioException ("Cannot write headers to the request handler "
          ++ "because the writer stream has already been closed.")), w) := by
  simp [StandardSession.sendHeaders, StandardSession.getStream, h]

theorem sendBodyBlock_closed (s : StandardSession) (w : World) (payload : Bytes)
    (h : s.fd = -1) :
    s.sendBodyBlock payload w
      = (.error (.ioException ("Cannot write request body block to the "
          ++ "request handler because the writer stream has already been closed.")), w) := by
  simp [StandardSession.sendBodyBlock, StandardSession.getStream, h]

theorem runOps_fd_closed (ops : List SessionOp) (s : StandardSession) (w : World)
    (h : s.fd = -1) : (runOps ops s w).1.fd = -1 :=
  (runOps_closed ops s w (fun _ => false) (fun _ _ _ => rfl) h).1

/-- C14. Stream operations after close or discard fail cleanly.  Take a
session on which `closeStream` (whatever its outcome) or `discardStream` has
been called, followed by any further operations.  Then `sendHeaders` and
`sendBodyBlock` raise, for every payload, the `IOException` saying that the
writer stream has already been closed, and leave the world as it is: no call
is made, no byte is written. -/
theorem closed_session_refuses_writes (s : StandardSession) (w wd : World)
    (ops : List SessionOp) (payload : Bytes) :
    (runOps ops (s.closeStream w).2.1 (s.closeStream w).2.2).1.sendHeaders payload
        (runOps ops (s.closeStream w).2.1 (s.closeStream w).2.2).2
      = (.error (.ioException ("Cannot write headers to the request handler "
          ++ "because the writer stream has already been closed.")),
          (runOps ops (s.closeStream w).2.1 (s.closeStream w).2.2).2) ∧
    (runOps ops (s.closeStream w).2.1 (s.closeStream w).2.2).1.sendBodyBlock payload
        (runOps ops (s.closeStream w).2.1 (s.closeStream w).2.2).2
      = (.error (.ioException ("Cannot write request body block to the "
          ++ "request handler because the writer stream has already been closed.")),
          (runOps ops (s.closeStream w).2.1 (s.closeStream w).2.2).2) ∧
    (runOps ops s.discardStream wd).1.sendHeaders payload (runOps ops s.discardStream wd).2
      = (.error (.ioException ("Cannot write headers to the request handler "
          ++ "because the writer stream has already been closed.")),
          (runOps ops s.discardStream wd).2) ∧
    (runOps ops s.discardStream wd).1.sendBodyBlock payload (runOps ops s.discardStream wd).2
      = (.error (.ioException ("Cannot write request body block to the "
          ++ "request handler because the writer stream has already been closed.")),
          (runOps ops s.discardStream wd).2) := by
  have h1 := runOps_fd_closed ops (s.closeStream w).2.1 (s.closeStream w).2.2
    (closeStream_fd s w)
  have h2 := runOps_fd_closed ops s.discardStream wd rfl
  exact ⟨sendHeaders_closed _ _ _ h1, sendBodyBlock_closed _ _ _ h1,
    sendHeaders_closed _ _ _ h2, sendBodyBlock_closed _ _ _ h2⟩

theorem honoursShutdown_cons (e : Event) (t : List Event)
    (h : honoursShutdown (e :: t) = true) : honoursShutdown t = true := by
  cases e with
  | shutdown fd how =>
    cases how with
    | SHUT_RD => simpa [honoursShutdown] using h
    | SHUT_WR =>
      simp only [honoursShutdown, Bool.and_eq_true] at h
      exact h.2
  | _ => simpa [honoursShutdown] using h

theorem honoursShutdown_suffix (pre t : List Event)
    (h : honoursShutdown (pre ++ t) = true) : honoursShutdown t = true := by
  induction pre with
  | nil => exact h
  | cons e pre ih => exact ih (honoursShutdown_cons e _ h)

/-- In a trace that honours shutdowns, a write that follows a
`shutdown(fd, SHUT_WR)` without a `close(fd)` in between was not accepted. -/
theorem honoursShutdown_refuses (pre mid : List Event) (fd : Int) (data : Bytes)
    (hmid : Event.close fd ∉ mid)
    (h : honoursShutdown (pre ++ .shutdown fd .SHUT_WR :: (mid ++ [.write fd data])) = true) :
    False := by
  have h1 := honoursShutdown_suffix pre _ h
  simp only [honoursShutdown, Bool.and_eq_true] at h1
  have htw : (mid ++ [Event.write fd data]).takeWhile (fun e => e != .close fd)
      = mid ++ [Event.write fd data] := by
    rw [List.takeWhile_eq_self_iff]
    intro e he
    rcases List.mem_append.mp he with hm | hm
    · have : e ≠ .close fd := fun hc => hmid (hc ▸ hm)
      simpa using this
    · rw [List.mem_singleton.mp hm]
      simp
  rw [htw] at h1
  have := List.all_eq_true.mp h1.1 (.write fd data) (by simp)
  simp [isWriteOn] at this

theorem SessionOp.run_extends (op : SessionOp) (s : StandardSession) (w : World) :
    ∃ evs, (op.run s w).2.2.trace = w.trace ++ evs := by
  cases op with
  | sendHeaders hd =>
    simp only [SessionOp.run, StandardSession.sendHeaders, StandardSession.getStream,
      MessageChannel.writeScalar, MessageChannel.writeRaw]
    split
    · exact ⟨[], by simp⟩
    · split <;> exact ⟨_, rfl⟩
  | sendBodyBlock b =>
    simp only [SessionOp.run, StandardSession.sendBodyBlock, StandardSession.getStream,
      MessageChannel.writeRaw]
    split
    · exact ⟨[], by simp⟩
    · split <;> exact ⟨_, rfl⟩
  | getStream => exact ⟨[], by simp [SessionOp.run]⟩
  | setReaderTimeout m =>
    simp only [SessionOp.run, StandardSession.setReaderTimeout, MessageChannel.setTimeout]
    split <;> exact ⟨_, rfl⟩
  | setWriterTimeout m =>
    simp only [SessionOp.run, StandardSession.setWriterTimeout, MessageChannel.setTimeout]
    split <;> exact ⟨_, rfl⟩
  | shutdownReader =>
    simp only [SessionOp.run, StandardSession.shutdownReader, syscalls.shutdown]
    split
    · split <;> exact ⟨_, rfl⟩
    · exact ⟨[], by simp⟩
  | shutdownWriter =>
    simp only [SessionOp.run, StandardSession.shutdownWriter, syscalls.shutdown]
    split
    · split <;> exact ⟨_, rfl⟩
    · exact ⟨[], by simp⟩
  | closeStream =>
    simp only [SessionOp.run, StandardSession.closeStream, syscalls.close]
    split
    · split
      · split <;> exact ⟨_, rfl⟩
      · exact ⟨_, rfl⟩
    · exact ⟨[], by simp⟩
  | discardStream => exact ⟨[], by simp [SessionOp.run]⟩
  | getPid => exact ⟨[], by simp [SessionOp.run]⟩

/-- Operations that leave the session with a descriptor leave it with the one
it had and make no `close` call on it. -/
theorem runOps_open (ops : List SessionOp) :
    ∀ (s : StandardSession) (w : World), s.fd ≠ -1 → (runOps ops s w).1.fd ≠ -1 →
      (runOps ops s w).1.fd = s.fd ∧
      ∃ evs, (runOps ops s w).2.trace = w.trace ++ evs ∧ Event.close s.fd ∉ evs := by
  induction ops with
  | nil => intro s w _ _; exact ⟨rfl, [], by simp [runOps], by simp⟩
  | cons op ops ih =>
    intro s w h hfin
    rw [runOps] at hfin ⊢
    have hmid : (op.run s w).2.1.fd ≠ -1 := by
      intro hc
      exact hfin (runOps_fd_closed ops _ _ hc)
    have hop : op ≠ .discardStream := by
      intro hc
      rw [hc] at hmid
      exact hmid rfl
    obtain ⟨e1, he1⟩ := SessionOp.run_extends op s w
    rcases SessionOp.run_open op s w h hop with ⟨hf, hc⟩ | ⟨hf, _⟩
    · obtain ⟨h1, e2, he2, hn2⟩ := ih (op.run s w).2.1 (op.run s w).2.2 hmid hfin
      rw [hf] at h1 hn2
      refine ⟨h1, e1 ++ e2, by rw [he2, he1, List.append_assoc], ?_⟩
      intro hm
      rcases List.mem_append.mp hm with hm | hm
      · rw [he1] at hc
        simp only [closeCount, List.count_append] at hc
        have h0 : e1.count (.close s.fd) = 0 := by omega
        exact List.count_eq_zero.mp h0 hm
      · exact hn2 hm
    · exact absurd hf hmid

/-- C15.  On a session that owns its descriptor, let `shutdownWriter` be
called, let any operations follow that leave the stream open, and let
`sendHeaders` or `sendBodyBlock` be called then.  `shutdownWriter` has called
`shutdown(fd, SHUT_WR)` on the descriptor of the session, which the session
still holds and on which it now makes the write.  In every run in which the
environment honours the shutdown, that is, accepts no write on a descriptor
after `shutdown(fd, SHUT_WR)` on it as long as it is not closed, the call
fails: it raises the `SystemException` of the write that was refused and no
byte is delivered to the stream. -/
theorem write_after_shutdownWriter (s : StandardSession) (w : World) (ops : List SessionOp)
    (payload : Bytes) (hfd : s.fd ≠ -1)
    (hopen : (runOps ops s (s.shutdownWriter w).2).1.fd ≠ -1) :
    (honoursShutdown ((runOps ops s (s.shutdownWriter w).2).1.sendHeaders payload
        (runOps ops s (s.shutdownWriter w).2).2).2.trace = true →
      (∃ e, ((runOps ops s (s.shutdownWriter w).2).1.sendHeaders payload
          (runOps ops s (s.shutdownWriter w).2).2).1
        = .error (.system
            ⟨"An error occured while writing headers to the request handler", e⟩)) ∧
      streamOutput s.fd ((runOps ops s (s.shutdownWriter w).2).1.sendHeaders payload
          (runOps ops s (s.shutdownWriter w).2).2).2.trace
        = streamOutput s.fd (runOps ops s (s.shutdownWriter w).2).2.trace) ∧
    (honoursShutdown ((runOps ops s (s.shutdownWriter w).2).1.sendBodyBlock payload
        (runOps ops s (s.shutdownWriter w).2).2).2.trace = true →
      (∃ e, ((runOps ops s (s.shutdownWriter w).2).1.sendBodyBlock payload
          (runOps ops s (s.shutdownWriter w).2).2).1
        = .error (.system
            ⟨"An error occured while sending the request body to the request handler",
              e⟩)) ∧
      streamOutput s.fd ((runOps ops s (s.shutdownWriter w).2).1.sendBodyBlock payload
          (runOps ops s (s.shutdownWriter w).2).2).2.trace
        = streamOutput s.fd (runOps ops s (s.shutdownWriter w).2).2.trace) := by
  obtain ⟨hsame, mid, hmid, hnc⟩ := runOps_open ops s (s.shutdownWriter w).2 hfd hopen
  have hsw : (s.shutdownWriter w).2.trace = w.trace ++ [.shutdown s.fd .SHUT_WR] := by
    simp only [StandardSession.shutdownWriter, hfd, ne_eq, not_false_eq_true, if_true,
      syscalls.shutdown]
    split <;> rfl
  generalize (runOps ops s (s.shutdownWriter w).2).1 = s1 at *
  generalize (runOps ops s (s.shutdownWriter w).2).2 = w1 at *
  have hfd1 : ¬ s1.fd = -1 := hopen
  have hw1 : w1.trace = w.trace ++ .shutdown s.fd .SHUT_WR :: mid := by
    rw [hmid, hsw]
    simp
  have key : ∀ data : Bytes,
      honoursShutdown (w1.log (.write s.fd data)).trace = true → False := by
    intro data hl
    have : (w1.log (.write s.fd data)).trace
        = w.trace ++ .shutdown s.fd .SHUT_WR :: (mid ++ [.write s.fd data]) := by
      simp [World.log, hw1]
    rw [this] at hl
    exact honoursShutdown_refuses _ _ _ _ hnc hl
  constructor
  · intro hl
    simp only [StandardSession.sendHeaders, StandardSession.getStream, hfd1, if_false,
      MessageChannel.writeScalar, MessageChannel.writeRaw] at hl ⊢
    cases hq : w1.writeQ.headD (.ok ()) with
    | ok u =>
      rw [hq] at hl
      simp only [hsame] at hl
      exact absurd hl (fun h => key _ h)
    | fail e =>
      refine ⟨⟨e, rfl⟩, ?_⟩
      simp only [World.log]
      rw [streamOutput_append]
      simp [streamOutput]
  · intro hl
    simp only [StandardSession.sendBodyBlock, StandardSession.getStream, hfd1, if_false,
      MessageChannel.writeRaw] at hl ⊢
    cases hq : w1.writeQ.headD (.ok ()) with
    | ok u =>
      rw [hq] at hl
      simp only [hsame] at hl
      exact absurd hl (fun h => key _ h)
    | fail e =>
      refine ⟨⟨e, rfl⟩, ?_⟩
      simp only [World.log]
      rw [streamOutput_append]
      simp [streamOutput]

theorem write_after_shutdownWriter_witness :
    exampleSession.fd ≠ -1 ∧
    (exampleSession.shutdownWriter writeSideDown).1 = .ok () ∧
    (exampleSession.sendHeaders [65, 0, 66, 0]
      (exampleSession.shutdownWriter writeSideDown).2).1
      = .error (.system
          ⟨"An error occured while writing headers to the request handler", EPIPE⟩) ∧
    honoursShutdown (exampleSession.sendHeaders [65, 0, 66, 0]
      (exampleSession.shutdownWriter writeSideDown).2).2.trace = true ∧
    streamOutput 7 (exampleSession.sendHeaders [65, 0, 66, 0]
      (exampleSession.shutdownWriter writeSideDown).2).2.trace = [] :=
  ⟨by decide, by decide, by decide, by decide,
    ((write_after_shutdownWriter exampleSession writeSideDown [] [65, 0, 66, 0] (by decide)
      (by decide)).1 (by decide)).2⟩

theorem closeStream_noop (s : StandardSession) (w : World) (h : s.fd = -1) :
    s.closeStream w = (.ok (), s, w) := by
  simp [StandardSession.closeStream, h]

theorem shutdownReader_noop (s : StandardSession) (w : World) (h : s.fd = -1) :
    s.shutdownReader w = (.ok (), w) := by
  simp [StandardSession.shutdownReader, h]

theorem shutdownWriter_noop (s : StandardSession) (w : World) (h : s.fd = -1) :
    s.shutdownWriter w = (.ok (), w) := by
  simp [StandardSession.shutdownWriter, h]

/-- C16. Idempotence after close.  After `closeStream`, whatever its outcome,
the descriptor slot is `-1`; and after any further operations, `closeStream`,
`shutdownReader` and `shutdownWriter` return normally, make no call (the world
is unchanged) and leave the session as it is. -/
theorem close_is_idempotent (s : StandardSession) (w : World) (ops : List SessionOp) :
    (s.closeStream w).2.1.fd = -1 ∧
    (runOps ops (s.closeStream w).2.1 (s.closeStream w).2.2).1.closeStream
        (runOps ops (s.closeStream w).2.1 (s.closeStream w).2.2).2
      = (.ok (), (runOps ops (s.closeStream w).2.1 (s.closeStream w).2.2).1,
          (runOps ops (s.closeStream w).2.1 (s.closeStream w).2.2).2) ∧
    (runOps ops (s.closeStream w).2.1 (s.closeStream w).2.2).1.shutdownReader
        (runOps ops (s.closeStream w).2.1 (s.closeStream w).2.2).2
      = (.ok (), (runOps ops (s.closeStream w).2.1 (s.closeStream w).2.2).2) ∧
    (runOps ops (s.closeStream w).2.1 (s.closeStream w).2.2).1.shutdownWriter
        (runOps ops (s.closeStream w).2.1 (s.closeStream w).2.2).2
      = (.ok (), (runOps ops (s.closeStream w).2.1 (s.closeStream w).2.2).2) := by
  have h1 := runOps_fd_closed ops (s.closeStream w).2.1 (s.closeStream w).2.2
    (closeStream_fd s w)
  exact ⟨closeStream_fd s w, closeStream_noop _ _ h1, shutdownReader_noop _ _ h1,
    shutdownWriter_noop _ _ h1⟩

/-- C17. `closeStream` distinguishes data loss from ordinary close failure.
On a session that owns a descriptor, with `e` any error number: `closeStream`
raises the `SystemException` `A write operation on the session stream failed`
carrying `e` iff `close` fails with `e` and `e` is `EIO`; it raises the
`SystemException` `Cannot close the session stream` carrying `e` iff `close`
fails with `e` and `e` is not `EIO`; it returns normally iff `close` succeeds. -/
theorem closeStream_error_kinds (s : StandardSession) (w : World) (hfd : s.fd ≠ -1) :
    (∀ e : Errno,
      (s.closeStream w).1
          = .error (.system ⟨"A write operation on the session stream failed", e⟩)
        ↔ (w.closeQ.headD (.ok ()) = .fail e ∧ e.code = EIO)) ∧
    (∀ e : Errno,
      (s.closeStream w).1 = .error (.system ⟨"Cannot close the session stream", e⟩)
        ↔ (w.closeQ.headD (.ok ()) = .fail e ∧ e.code ≠ EIO)) ∧
    ((s.closeStream w).1 = .ok () ↔ w.closeQ.headD (.ok ()) = .ok ()) ∧
    (∀ x : SystemException, (s.closeStream w).1 = .error (.system x) →
      w.closeQ.headD (.ok ()) = .fail x.errno) := by
  unfold StandardSession.closeStream
  simp only [hfd, ne_eq, not_false_eq_true, if_true, syscalls.close]
  cases hq : w.closeQ.headD (.ok ()) with
  | ok u =>
    simp
  | fail e0 =>
    by_cases h5 : e0.code = EIO
    · simp only [h5, if_true]
      refine ⟨fun e => ?_, fun e => ?_, ?_, fun x hx => ?_⟩
      · constructor
        · intro h
          simp only [Res.error.injEq, Exc.system.injEq, SystemException.mk.injEq, true_and] at h
          subst h
          exact ⟨rfl, h5⟩
        · rintro ⟨h, _⟩
          simp only [SysResult.fail.injEq] at h
          subst h
          rfl
      · constructor
        · intro h
          simp only [Res.error.injEq, Exc.system.injEq, SystemException.mk.injEq] at h
          exact absurd h.1 (by decide)
        · rintro ⟨h, hne⟩
          simp only [SysResult.fail.injEq] at h
          subst h
          exact absurd h5 hne
      · simp
      · simp only [Res.error.injEq, Exc.system.injEq] at hx
        subst hx
        rfl
    · simp only [h5, if_false]
      refine ⟨fun e => ?_, fun e => ?_, ?_, fun x hx => ?_⟩
      · constructor
        · intro h
          simp only [Res.error.injEq, Exc.system.injEq, SystemException.mk.injEq] at h
          exact absurd h.1 (by decide)
        · rintro ⟨h, he⟩
          simp only [SysResult.fail.injEq] at h
          subst h
          exact absurd he h5
      · constructor
        · intro h
          simp only [Res.error.injEq, Exc.system.injEq, SystemException.mk.injEq, true_and] at h
          subst h
          exact ⟨rfl, h5⟩
        · rintro ⟨h, _⟩
          simp only [SysResult.fail.injEq] at h
          subst h
          rfl
      · simp
      · simp only [Res.error.injEq, Exc.system.injEq] at hx
        subst hx
        rfl

theorem closeStream_error_kinds_witness :
    exampleSession.fd ≠ -1 ∧
    (exampleSession.closeStream closeFails).1
      = .error (.system ⟨"A write operation on the session stream failed",
          ⟨5, "Input/output error"⟩⟩) ∧
    (exampleSession.closeStream (World.init 0)).1 = .ok () :=
  ⟨by decide,
    ((closeStream_error_kinds exampleSession closeFails (by decide)).1
      ⟨5, "Input/output error"⟩).mpr ⟨rfl, rfl⟩,
    (closeStream_error_kinds exampleSession (World.init 0) (by decide)).2.2.1.mpr rfl⟩

/-! ### Retry loops -/

/-- A retry loop makes one call for every interrupted answer and one more; its
outcome is the first answer that is not an interruption. -/
theorem eintrLoopD_spec {α : Type} (d : SysResult α) (q : List (SysResult α)) :
    (eintrLoopD d q).1 = interruptions q + 1 ∧
    (eintrLoopD d q).2.1 = decisiveAnswer d q ∧
    (eintrLoopD d q).2.2 = (q.dropWhile isInterrupted).tail := by
  induction q with
  | nil => exact ⟨rfl, rfl, rfl⟩
  | cons r q ih =>
    cases r with
    | ok a => exact ⟨rfl, rfl, rfl⟩
    | fail e =>
      by_cases he : e.code = EINTR
      · simp only [eintrLoopD, he, if_true, interruptions, decisiveAnswer, List.takeWhile_cons,
          List.dropWhile_cons, isInterrupted, decide_True, List.length_cons]
        exact ⟨by rw [ih.1]; rfl, ih.2.1, ih.2.2⟩
      · simp only [eintrLoopD, he, if_false, interruptions, decisiveAnswer,
          List.takeWhile_cons, List.dropWhile_cons, isInterrupted, decide_False]
        exact ⟨rfl, rfl, rfl⟩

theorem eintrLoop_spec (q : List (SysResult Unit)) :
    (eintrLoop q).1 = interruptions q + 1 ∧
    (eintrLoop q).2.1 = decisiveAnswer (.ok ()) q ∧
    (eintrLoop q).2.2 = (q.dropWhile isInterrupted).tail := by
  induction q with
  | nil => exact ⟨rfl, rfl, rfl⟩
  | cons r q ih =>
    cases r with
    | ok a => exact ⟨rfl, rfl, rfl⟩
    | fail e =>
      by_cases he : e.code = EINTR
      · simp only [eintrLoop, he, if_true, interruptions, decisiveAnswer, List.takeWhile_cons,
          List.dropWhile_cons, isInterrupted, decide_True, List.length_cons]
        exact ⟨by rw [ih.1]; rfl, ih.2.1, ih.2.2⟩
      · simp only [eintrLoop, he, if_false, interruptions, decisiveAnswer,
          List.takeWhile_cons, List.dropWhile_cons, isInterrupted, decide_False]
        exact ⟨rfl, rfl, rfl⟩

/-- The answer that ends a retry loop is not an interruption. -/
theorem decisiveAnswer_not_interrupted {α : Type} (d : SysResult α)
    (q : List (SysResult α)) (hd : isInterrupted d = false) :
    isInterrupted (decisiveAnswer d q) = false := by
  induction q with
  | nil => exact hd
  | cons r q ih =>
    by_cases hr : isInterrupted r = true
    · simpa [decisiveAnswer, List.dropWhile_cons, hr] using ih
    · simp only [Bool.not_eq_true] at hr
      simp [decisiveAnswer, List.dropWhile_cons, hr]

theorem decisiveAnswer_mem {α : Type} (d : SysResult α) (q : List (SysResult α)) :
    decisiveAnswer d q = d ∨ decisiveAnswer d q ∈ q := by
  induction q with
  | nil => exact Or.inl rfl
  | cons r q ih =>
    by_cases hr : isInterrupted r = true
    · have : decisiveAnswer d (r :: q) = decisiveAnswer d q := by
        simp [decisiveAnswer, List.dropWhile_cons, hr]
      rw [this]
      rcases ih with h | h
      · exact Or.inl h
      · exact Or.inr (List.mem_cons_of_mem _ h)
    · simp only [Bool.not_eq_true] at hr
      right
      simp [decisiveAnswer, List.dropWhile_cons, hr]

theorem closeRetry_spec (fd : Int) (w : World) :
    (closeRetry fd w).1 = decisiveAnswer (.ok ()) w.closeQ ∧
    (closeRetry fd w).2.trace
      = w.trace ++ List.replicate (interruptions w.closeQ + 1) (.close fd) ∧
    (closeRetry fd w).2.unlinkQ = w.unlinkQ := by
  obtain ⟨h1, h2, _⟩ := eintrLoop_spec w.closeQ
  refine ⟨h2, ?_, rfl⟩
  show w.trace ++ List.replicate (eintrLoop w.closeQ).1 _ = _
  rw [h1]

theorem unlinkRetry_spec (path : String) (w : World) :
    (unlinkRetry path w).1 = decisiveAnswer (.ok ()) w.unlinkQ ∧
    (unlinkRetry path w).2.trace
      = w.trace ++ List.replicate (interruptions w.unlinkQ + 1) (.unlink path) := by
  obtain ⟨h1, h2, _⟩ := eintrLoop_spec w.unlinkQ
  refine ⟨h2, ?_⟩
  show w.trace ++ List.replicate (eintrLoop w.unlinkQ).1 _ = _
  rw [h1]

theorem socketRetry_spec (w : World) :
    (socketRetry w).1 = decisiveAnswer (.fail EMFILE) w.socketQ ∧
    (socketRetry w).2.trace = w.trace ++ List.replicate (interruptions w.socketQ + 1) .socket ∧
    (socketRetry w).2.connectQ = w.connectQ ∧ (socketRetry w).2.closeQ = w.closeQ := by
  obtain ⟨h1, h2, _⟩ := eintrLoopD_spec (.fail EMFILE) w.socketQ
  refine ⟨h2, ?_, rfl, rfl⟩
  show w.trace ++ List.replicate (eintrLoopD (.fail EMFILE) w.socketQ).1 _ = _
  rw [h1]

theorem connectRetry_spec (fd : Int) (w : World) :
    (connectRetry fd w).1 = decisiveAnswer (.fail ECONNREFUSED) w.connectQ ∧
    (connectRetry fd w).2.trace
      = w.trace ++ List.replicate (interruptions w.connectQ + 1) (.connect fd) ∧
    (connectRetry fd w).2.closeQ = w.closeQ := by
  obtain ⟨h1, h2, _⟩ := eintrLoopD_spec (.fail ECONNREFUSED) w.connectQ
  refine ⟨h2, ?_, rfl⟩
  show w.trace ++ List.replicate (eintrLoopD (.fail ECONNREFUSED) w.connectQ).1 _ = _
  rw [h1]

theorem chmodRetry_spec (path : String) (mode : Nat) (w : World) :
    (chmodRetry path mode w).2.trace
      = w.trace ++ List.replicate (interruptions w.chmodQ + 1) (.chmod path mode) ∧
    (chmodRetry path mode w).2.chownQ = w.chownQ ∧
    (chmodRetry path mode w).2.uid = w.uid ∧ (chmodRetry path mode w).2.gid = w.gid := by
  obtain ⟨h1, _, _⟩ := eintrLoop_spec w.chmodQ
  refine ⟨?_, rfl, rfl, rfl⟩
  show w.trace ++ List.replicate (eintrLoop w.chmodQ).1 _ = _
  rw [h1]

theorem chownRetry_spec (path : String) (w : World) :
    (chownRetry path w).2.trace
      = w.trace ++ List.replicate (interruptions w.chownQ + 1) (.chown path w.uid w.gid) := by
  obtain ⟨h1, _, _⟩ := eintrLoop_spec w.chownQ
  show w.trace ++ List.replicate (eintrLoop w.chownQ).1 _ = _
  rw [h1]

/-! ### C20: establishing the TCP connection -/

theorem connectSocket_spec (a : Application) (cb : Nat) (w : World) :
    (∀ e, decisiveAnswer (.fail EMFILE) w.socketQ = .fail e →
      (a.connectSocket cb w).1
        = .error (.system ⟨"Cannot create a new unconnected TCP socket", e⟩) ∧
      (a.connectSocket cb w).2.trace
        = w.trace ++ List.replicate (interruptions w.socketQ + 1) .socket) ∧
    (∀ fd : Nat, decisiveAnswer (.fail EMFILE) w.socketQ = .ok fd →
      (∀ e, decisiveAnswer (.fail ECONNREFUSED) w.connectQ = .fail e →
        (a.connectSocket cb w).1
          = .error (.system ⟨"Cannot connect to TCP server '" ++ a.listenSocketName ++ "'",
              e⟩) ∧
        (a.connectSocket cb w).2.trace
          = w.trace ++ List.replicate (interruptions w.socketQ + 1) .socket
            ++ List.replicate (interruptions w.connectQ + 1) (.connect fd)
            ++ List.replicate (interruptions w.closeQ + 1) (.close fd)) ∧
      (decisiveAnswer (.fail ECONNREFUSED) w.connectQ = .ok () →
        (a.connectSocket cb w).1 = .ok ⟨cb, fd, a.pid⟩ ∧
        (a.connectSocket cb w).2.trace
          = w.trace ++ List.replicate (interruptions w.socketQ + 1) .socket
            ++ List.replicate (interruptions w.connectQ + 1) (.connect fd))) := by
  obtain ⟨s1, s2, s3, s4⟩ := socketRetry_spec w
  refine ⟨fun e he => ?_, fun fd hfd => ⟨fun e he => ?_, fun he => ?_⟩⟩
  · unfold Application.connectSocket
    simp only [s1, he]
    exact ⟨trivial, s2⟩
  · obtain ⟨c1, c2, c3⟩ := connectRetry_spec fd (socketRetry w).2
    obtain ⟨_, k2, _⟩ := closeRetry_spec fd (connectRetry fd (socketRetry w).2).2
    unfold Application.connectSocket
    simp only [s1, hfd, c1, s3, he]
    refine ⟨trivial, ?_⟩
    rw [k2, c2, c3, s2, s3, s4]
  · obtain ⟨c1, c2, c3⟩ := connectRetry_spec fd (socketRetry w).2
    unfold Application.connectSocket
    simp only [s1, hfd, c1, s3, he]
    refine ⟨trivial, ?_⟩
    rw [c2, s2, s3]

theorem connectToTcpServer_resolved (a : Application) (cb : Nat) (w : World)
    (host port : String) (hs : split a.listenSocketName colon = [host, port])
    (hp : atoi port ≠ 0)
    (hr : w.getaddrinfoQ.headD (.failed "Name or service not known") = .resolved) :
    a.connectToTcpServer cb w = a.connectSocket cb (getaddrinfo host port w).2 := by
  have hg : (getaddrinfo host port w).1 = .resolved := hr
  unfold Application.connectToTcpServer
  simp only [hs, hp, if_false, hg]

/-- C20. TCP connection establishment retries only on interruption.  Once the
address has passed validation and was resolved, the TCP connector calls
`socket` once for every interrupted answer (failure with `EINTR`) and once
more, and the answer that ends the loop is not an interruption; likewise for
`connect`.  If that `socket` answer is a failure the connector raises the
`SystemException` carrying its error number; if it is descriptor `fd` and the
`connect` answer is a failure, the connector closes `fd` and raises the
`SystemException` carrying the error number of `connect`, whatever the `close`
answers; if `connect` succeeds the result is the session that owns `fd`, with
the worker's pid and the caller's callback. -/
theorem tcp_connect_retries (a : Application) (cb : Nat) (w : World)
    (host port : String) (hs : split a.listenSocketName colon = [host, port])
    (hp : atoi port ≠ 0)
    (hr : w.getaddrinfoQ.headD (.failed "Name or service not known") = .resolved) :
    isInterrupted (decisiveAnswer (.fail EMFILE) w.socketQ) = false ∧
    isInterrupted (decisiveAnswer (.fail ECONNREFUSED) w.connectQ) = false ∧
    (∀ e, decisiveAnswer (.fail EMFILE) w.socketQ = .fail e →
      (a.connectToTcpServer cb w).1
        = .error (.system ⟨"Cannot create a new unconnected TCP socket", e⟩) ∧
      (a.connectToTcpServer cb w).2.trace
        = w.trace ++ [.getaddrinfo host port]
          ++ List.replicate (interruptions w.socketQ + 1) .socket) ∧
    (∀ fd : Nat, decisiveAnswer (.fail EMFILE) w.socketQ = .ok fd →
      (∀ e, decisiveAnswer (.fail ECONNREFUSED) w.connectQ = .fail e →
        (a.connectToTcpServer cb w).1
          = .error (.system ⟨"Cannot connect to TCP server '" ++ a.listenSocketName ++ "'",
              e⟩) ∧
        (a.connectToTcpServer cb w).2.trace
          = w.trace ++ [.getaddrinfo host port]
            ++ List.replicate (interruptions w.socketQ + 1) .socket
            ++ List.replicate (interruptions w.connectQ + 1) (.connect fd)
            ++ List.replicate (interruptions w.closeQ + 1) (.close fd)) ∧
      (decisiveAnswer (.fail ECONNREFUSED) w.connectQ = .ok () →
        (a.connectToTcpServer cb w).1 = .ok ⟨cb, fd, a.pid⟩ ∧
        (a.connectToTcpServer cb w).2.trace
          = w.trace ++ [.getaddrinfo host port]
            ++ List.replicate (interruptions w.socketQ + 1) .socket
            ++ List.replicate (interruptions w.connectQ + 1) (.connect fd))) := by
  rw [connectToTcpServer_resolved a cb w host port hs hp hr]
  exact ⟨decisiveAnswer_not_interrupted _ _ (by decide),
    decisiveAnswer_not_interrupted _ _ (by decide),
    (connectSocket_spec a cb (getaddrinfo host port w).2).1,
    (connectSocket_spec a cb (getaddrinfo host port w).2).2⟩

theorem tcp_connect_retries_witness :
    split tcpWorker.listenSocketName colon = ["127.0.0.1", "9000"] ∧
    (tcpWorker.connectToTcpServer 1 interruptedConnect).1 = .ok ⟨1, 12, 4321⟩ ∧
    (tcpWorker.connectToTcpServer 1 interruptedConnect).2.trace
      = [.getaddrinfo "127.0.0.1" "9000", .socket, .socket, .connect 12, .connect 12] ∧
    (tcpWorker.connectToTcpServer 1 refusedConnect).1
      = .error (.system ⟨"Cannot connect to TCP server '127.0.0.1:9000'", ECONNREFUSED⟩) :=
  ⟨by decide,
    (((tcp_connect_retries tcpWorker 1 interruptedConnect "127.0.0.1" "9000" (by decide)
      (by decide) rfl).2.2.2 12 (by decide)).2 (by decide)).1,
    by decide,
    (((tcp_connect_retries tcpWorker 1 refusedConnect "127.0.0.1" "9000" (by decide)
      (by decide) rfl).2.2.2 12 (by decide)).1 ECONNREFUSED (by decide)).1⟩

/-! ### C18: releasing the worker handle -/

theorem connect_emits (a : Application) (cb : Nat) (w : World) :
    Emits isConnectEvent w (a.connect cb w).2 := by
  have hsock : ∀ w1 : World, Emits isConnectEvent w1 (a.connectSocket cb w1).2 := by
    intro w1
    obtain ⟨evs, ht, hp⟩ := connectSocket_emits a cb w1
    refine ⟨evs, ht, fun e he => ?_⟩
    have := hp e he
    cases e <;> simp_all [isTcpEvent, isConnectEvent]
  unfold Application.connect
  split
  · exact Emits.of_trace [.connectUnix a.listenSocketName]
      (connectToUnixServer_trace a cb w) (by simp [isConnectEvent])
  · split
    · unfold Application.connectToTcpServer
      split
      · split
        · exact Emits.refl _ _
        · rename_i host port _ _
          have hg : Emits isConnectEvent w (getaddrinfo host port w).2 :=
            Emits.of_trace [.getaddrinfo host port] (by simp [getaddrinfo, World.log])
              (by simp [isConnectEvent])
          simp only
          split
          · exact hg
          · exact Emits.trans hg (hsock _)
      · exact Emits.refl _ _
    · exact Emits.refl _ _

theorem closeCount_replicate (d fd : Int) (n : Nat) (h : fd ≠ d) :
    closeCount d (List.replicate n (.close fd)) = 0 := by
  unfold closeCount
  rw [List.count_eq_zero]
  intro hm
  have := (List.mem_replicate.mp hm).2
  simp only [Event.close.injEq] at this
  exact h this.symm

theorem closeCount_append (d : Int) (t1 t2 : List Event) :
    closeCount d (t1 ++ t2) = closeCount d t1 + closeCount d t2 := by
  simp [closeCount, List.count_append]

theorem connectSocket_closeCount (a : Application) (cb : Nat) (w : World) (d : Int)
    (hfresh : ∀ n : Nat, SysResult.ok n ∈ w.socketQ → (n : Int) ≠ d) :
    closeCount d (a.connectSocket cb w).2.trace = closeCount d w.trace := by
  have hs0 : ∀ n : Nat, closeCount d (List.replicate n Event.socket) = 0 := by
    intro n
    unfold closeCount
    rw [List.count_eq_zero]
    intro hm
    have := (List.mem_replicate.mp hm).2
    simp at this
  have hc0 : ∀ (n : Nat) (fd : Int), closeCount d (List.replicate n (Event.connect fd)) = 0 := by
    intro n fd
    unfold closeCount
    rw [List.count_eq_zero]
    intro hm
    have := (List.mem_replicate.mp hm).2
    simp at this
  obtain ⟨h1, h2⟩ := connectSocket_spec a cb w
  cases hs : decisiveAnswer (.fail EMFILE) w.socketQ with
  | fail e =>
    rw [(h1 e hs).2, closeCount_append, hs0]
    rfl
  | ok fd =>
    have hmem : SysResult.ok fd ∈ w.socketQ := by
      rcases decisiveAnswer_mem (.fail EMFILE) w.socketQ with h | h
      · rw [hs] at h
        exact absurd h (by simp)
      · rw [hs] at h
        exact h
    have hne : (fd : Int) ≠ d := hfresh fd hmem
    cases hc : decisiveAnswer (.fail ECONNREFUSED) w.connectQ with
    | fail e =>
      rw [((h2 fd hs).1 e hc).2, closeCount_append, closeCount_append, closeCount_append,
        hs0, hc0, closeCount_replicate d fd _ hne]
      rfl
    | ok u =>
      rw [((h2 fd hs).2 hc).2, closeCount_append, closeCount_append, hs0, hc0]
      rfl

theorem connect_closeCount (a : Application) (cb : Nat) (w : World) (d : Int)
    (hfresh : ∀ n : Nat, SysResult.ok n ∈ w.socketQ → (n : Int) ≠ d) :
    closeCount d (a.connect cb w).2.trace = closeCount d w.trace := by
  unfold Application.connect
  split
  · rw [connectToUnixServer_trace, closeCount_append]
    simp [closeCount]
  · split
    · unfold Application.connectToTcpServer
      split
      · split
        · rfl
        · simp only
          split
          · simp [getaddrinfo, World.log, closeCount, List.count_append]
          · rename_i host port _ _ _ _
            rw [connectSocket_closeCount a cb (getaddrinfo host port w).2 d hfresh]
            simp [getaddrinfo, World.log, closeCount, List.count_append]
      · rfl
    · rfl

/-- C18, counterexample.  The first `close` of the owner pipe is interrupted:
destroying the handle calls `close(9)` twice, not once. -/
theorem owner_pipe_closed_twice :
    (tcpWorker.destroy interruptedClose).trace = [.close 9, .close 9] ∧
    closeCount 9 (tcpWorker.destroy interruptedClose).trace = 2 := by
  decide

/-- C18, amended.  Worker handle release.  The destructor makes exactly these
calls: if the owner pipe is not `-1`, `close` on it, once and once more for
every interrupted answer; then, if and only if the kind is `unix`, `unlink` on
the socket node, once and once more for every interrupted answer.  So each of
the two is released by a single call when that call is not interrupted.
`getAppRoot` and `getPid` only read fields of the handle.  `connect` never
calls `unlink`, and it does not call `close` on the owner pipe as long as
`socket` yields descriptors other than the (still open) owner pipe. -/
theorem handle_release (a : Application) (cb : Nat) (w : World) :
    (a.destroy w).trace
      = w.trace
        ++ (if a.ownerPipe ≠ -1 then
              List.replicate (interruptions w.closeQ + 1) (.close a.ownerPipe) else [])
        ++ (if a.listenSocketType = "unix" then
              List.replicate (interruptions w.unlinkQ + 1) (.unlink a.listenSocketName)
            else []) ∧
    (a.ownerPipe ≠ -1 → interruptions w.closeQ = 0 →
      closeCount a.ownerPipe (a.destroy w).trace = closeCount a.ownerPipe w.trace + 1) ∧
    (interruptions w.unlinkQ = 0 →
      (a.destroy w).trace.countP isUnlink
        = w.trace.countP isUnlink + (if a.listenSocketType = "unix" then 1 else 0)) ∧
    a.getAppRoot = a.appRoot ∧ a.getPid = a.pid ∧
    (a.connect cb w).2.trace.countP isUnlink = w.trace.countP isUnlink ∧
    ((∀ n : Nat, SysResult.ok n ∈ w.socketQ → (n : Int) ≠ a.ownerPipe) →
      closeCount a.ownerPipe (a.connect cb w).2.trace = closeCount a.ownerPipe w.trace) := by
  have htrace : (a.destroy w).trace
      = w.trace
        ++ (if a.ownerPipe ≠ -1 then
              List.replicate (interruptions w.closeQ + 1) (.close a.ownerPipe) else [])
        ++ (if a.listenSocketType = "unix" then
              List.replicate (interruptions w.unlinkQ + 1) (.unlink a.listenSocketName)
            else []) := by
    unfold Application.destroy
    by_cases h1 : a.ownerPipe = -1 <;> by_cases h2 : a.listenSocketType = "unix"
    · simp only [h1, h2, ne_eq, not_true_eq_false, if_false, if_true, List.append_nil]
      exact (unlinkRetry_spec _ _).2
    · simp [h1, h2]
    · simp only [h1, h2, ne_eq, not_false_eq_true, if_true]
      rw [(unlinkRetry_spec _ _).2, (closeRetry_spec _ _).2.1, (closeRetry_spec _ _).2.2]
    · simp only [h1, h2, ne_eq, not_false_eq_true, if_true, if_false, List.append_nil]
      exact (closeRetry_spec _ _).2.1
  refine ⟨htrace, ?_, ?_, rfl, rfl, ?_, connect_closeCount a cb w a.ownerPipe⟩
  · intro h1 h0
    rw [htrace, if_pos h1, h0]
    by_cases h2 : a.listenSocketType = "unix"
    · simp [h2, closeCount, List.count_append, List.count_replicate]
    · simp [h2, closeCount, List.count_append]
  · intro h0
    rw [htrace, h0]
    by_cases h1 : a.ownerPipe = -1 <;> by_cases h2 : a.listenSocketType = "unix" <;>
      simp [h1, h2, List.countP_append, List.countP_replicate, isUnlink]
  · obtain ⟨evs, ht, hp⟩ := connect_emits a cb w
    have h0 : evs.countP isUnlink = 0 := by
      rw [List.countP_eq_zero]
      intro e he
      have := hp e he
      cases e <;> simp_all [isConnectEvent, isUnlink]
    rw [ht, List.countP_append, h0]
    rfl

theorem handle_release_witness :
    (unixWorker.destroy (World.init 0)).trace = [.close 9, .unlink "/tmp/s.sock"] ∧
    unixWorker.ownerPipe ≠ -1 ∧ interruptions (World.init 0).closeQ = 0 ∧
    closeCount 9 (unixWorker.destroy (World.init 0)).trace = 1 ∧
    (tcpWorker.destroy (World.init 0)).trace = [.close 9] ∧
    closeCount 9 (tcpWorker.connect 1 refusedConnect).2.trace = 0 :=
  ⟨(handle_release unixWorker 1 (World.init 0)).1, by decide, by decide,
    (handle_release unixWorker 1 (World.init 0)).2.1 (by decide) (by decide),
    (handle_release tcpWorker 1 (World.init 0)).1,
    (handle_release tcpWorker 1 refusedConnect).2.2.2.2.2.2
      (fun n hn => by
        have h12 : n = 12 := by simpa [refusedConnect] using hn
        rw [h12]
        decide)⟩

/-! ### C19: tightening the permissions of the socket node -/

/-- C19, counterexample.  In a process whose real user is 1000 and whose
effective user is 0, the socket node of the spawned worker is given to user
1000 and group 1000, the real ids: no `chown` to the effective ids is made. -/
theorem chown_uses_real_ids :
    setuidReply.euid = 0 ∧ setuidReply.egid = 0 ∧
    (spawn exampleOptions exampleManager setuidReply).1
      = .ok ⟨"/app", 4321, "/tmp/s.sock", "unix", 9⟩ ∧
    (spawn exampleOptions exampleManager setuidReply).2.2.trace
      = [.mutexLock, .channelWrite 7 ["spawn_application", "/app"], .channelRead 7,
         .channelRead 7, .channelReadFileDescriptor 7, .chmod "/tmp/s.sock" 384,
         .chown "/tmp/s.sock" 1000 1000, .mutexUnlock] ∧
    Event.chown "/tmp/s.sock" setuidReply.euid setuidReply.egid
      ∉ (spawn exampleOptions exampleManager setuidReply).2.2.trace := by
  decide

theorem finishSpawn_trace (opts : PoolOptions) (p a k : String) (fd : Int) (w : World) :
    (finishSpawn opts [p, a, k] fd w).1 = .ok ⟨opts.appRoot, atoi p, a, k, fd⟩ ∧
    (k = "unix" →
      (finishSpawn opts [p, a, k] fd w).2.trace
        = w.trace
          ++ List.replicate (interruptions w.chmodQ + 1) (.chmod a (S_IRUSR ||| S_IWUSR))
          ++ List.replicate (interruptions w.chownQ + 1) (.chown a w.uid w.gid)) ∧
    (k ≠ "unix" → (finishSpawn opts [p, a, k] fd w).2 = w) := by
  refine ⟨rfl, fun hk => ?_, fun hk => ?_⟩
  · obtain ⟨c1, c2, c3, c4⟩ := chmodRetry_spec a (S_IRUSR ||| S_IWUSR) w
    simp only [finishSpawn, hk, if_true]
    rw [chownRetry_spec, c1, c2, c3, c4]
  · simp only [finishSpawn, hk, if_false]

/-- C19, amended.  After a successful spawn reply `p, a, k` with descriptor
`fd`, `spawn` returns the worker handle whatever `chmod` and `chown` answer.
When `k` is `unix` the calls made after the reply was read are: `chmod` of `a`
to owner-read/write (octal 600), once for every interrupted answer and once
more, then `chown` of `a` to the real user id and group id of the process
(`getuid()`, `getgid()`), once for every interrupted answer and once more; the
answer that ends either loop is not an interruption.  When `k` is not `unix`
no `chmod` and no `chown` is made. -/
theorem socket_permissions (opts : PoolOptions) (s : SpawnManager) (w : World)
    (p a k : String) (fd : Int) (qw : List (SysResult Unit))
    (qr : List (SysResult (Option (List String)))) (qf : List FdResult)
    (hw : w.chanWriteQ = .ok () :: qw)
    (hr : w.chanReadQ = .ok (some ["ok"]) :: .ok (some [p, a, k]) :: qr)
    (hf : w.chanReadFdQ = .ok fd :: qf) :
    (spawn opts s w).1 = .ok ⟨opts.appRoot, atoi p, a, k, fd⟩ ∧
    S_IRUSR ||| S_IWUSR = 6 * 64 ∧
    isInterrupted (decisiveAnswer (.ok ()) w.chmodQ) = false ∧
    isInterrupted (decisiveAnswer (.ok ()) w.chownQ) = false ∧
    (k = "unix" →
      (spawn opts s w).2.2.trace
        = w.trace
          ++ [.mutexLock, .channelWrite s.channel.fd ("spawn_application" :: opts.toVector),
              .channelRead s.channel.fd, .channelRead s.channel.fd,
              .channelReadFileDescriptor s.channel.fd]
          ++ List.replicate (interruptions w.chmodQ + 1) (.chmod a (S_IRUSR ||| S_IWUSR))
          ++ List.replicate (interruptions w.chownQ + 1) (.chown a w.uid w.gid)
          ++ [.mutexUnlock]) ∧
    (k ≠ "unix" →
      (spawn opts s w).2.2.trace
        = w.trace
          ++ [.mutexLock, .channelWrite s.channel.fd ("spawn_application" :: opts.toVector),
              .channelRead s.channel.fd, .channelRead s.channel.fd,
              .channelReadFileDescriptor s.channel.fd, .mutexUnlock]) := by
  have hsend : sendSpawnCommand opts s (w.log .mutexLock)
      = finishSpawn opts [p, a, k] fd
          { w with
            trace := w.trace ++
              [.mutexLock, .channelWrite s.channel.fd ("spawn_application" :: opts.toVector),
               .channelRead s.channel.fd, .channelRead s.channel.fd,
               .channelReadFileDescriptor s.channel.fd],
            chanWriteQ := qw, chanReadQ := qr, chanReadFdQ := qf } := by
    simp [sendSpawnCommand, readReply, readApplication, MessageChannel.write,
      MessageChannel.read, MessageChannel.readFileDescriptor, World.log, hw, hr, hf]
  obtain ⟨f1, f2, f3⟩ := finishSpawn_trace opts p a k fd
    { w with
      trace := w.trace ++
        [.mutexLock, .channelWrite s.channel.fd ("spawn_application" :: opts.toVector),
         .channelRead s.channel.fd, .channelRead s.channel.fd,
         .channelReadFileDescriptor s.channel.fd],
      chanWriteQ := qw, chanReadQ := qr, chanReadFdQ := qf }
  have hspawn : spawn opts s w
      = (.ok ⟨opts.appRoot, atoi p, a, k, fd⟩, s,
          (sendSpawnCommand opts s (w.log .mutexLock)).2.log .mutexUnlock) := by
    unfold spawn
    simp only [hsend, f1]
  refine ⟨by rw [hspawn], by decide, decisiveAnswer_not_interrupted _ _ rfl,
    decisiveAnswer_not_interrupted _ _ rfl, fun hk => ?_, fun hk => ?_⟩
  · rw [hspawn, hsend]
    simp only [World.log, f2 hk]
  · rw [hspawn, hsend]
    simp only [World.log, f3 hk]
    simp

theorem socket_permissions_witness :
    (spawn exampleOptions exampleManager permissionDenied).1
      = .ok ⟨"/app", 4321, "/tmp/s.sock", "unix", 9⟩ ∧
    (spawn exampleOptions exampleManager permissionDenied).2.2.trace
      = [.mutexLock, .channelWrite 7 ["spawn_application", "/app"], .channelRead 7,
         .channelRead 7, .channelReadFileDescriptor 7, .chmod "/tmp/s.sock" 384,
         .chmod "/tmp/s.sock" 384, .chown "/tmp/s.sock" 0 0, .mutexUnlock] :=
  ⟨(socket_permissions exampleOptions exampleManager permissionDenied "4321" "/tmp/s.sock"
      "unix" 9 [] [] [] rfl rfl rfl).1,
    (socket_permissions exampleOptions exampleManager permissionDenied "4321" "/tmp/s.sock"
      "unix" 9 [] [] [] rfl rfl rfl).2.2.2.2.1 rfl⟩

/-! ### The two polling windows of `restartServer` -/

theorem reapedWithin_succ (q : List Int) (m : Nat) (h : ¬ q.headD (-1) > 0) :
    reapedWithin q (m + 1) = reapedWithin q.tail m := by
  cases q with
  | nil => simp [reapedWithin]
  | cons a q =>
    have ha : ¬ a > 0 := by simpa using h
    simp [reapedWithin, List.take_succ_cons, ha]

theorem windowPolls_bounds (clock : Nat) : 41 ≤ windowPolls clock ∧ windowPolls clock ≤ 50 := by
  unfold windowPolls pollsUntil
  omega

/-- A window makes clock reads, `waitpid` calls on `pid` and sleeps of 100 ms,
at most one sleep per poll; when no answer reports the child as reaped it
makes every poll and sleeps after each. -/
theorem pollWindow_calls (pid : Int) : ∀ (n : Nat) (q : List Int),
    (∀ e ∈ pollWindow pid q n, isPollEvent pid e = true) ∧
    (pollWindow pid q n).countP isUsleep ≤ n ∧
    (reapedWithin q n = false →
      (pollWindow pid q n).countP isWaitpid = n ∧ (pollWindow pid q n).countP isUsleep = n) := by
  intro n
  induction n with
  | zero =>
    intro q
    cases q <;> simp [pollWindow, isPollEvent, isUsleep, isWaitpid]
  | succ n ih =>
    intro q
    cases q with
    | nil =>
      obtain ⟨h1, h2, h3⟩ := ih []
      refine ⟨?_, ?_, ?_⟩
      · intro e he
        simp only [pollWindow, List.mem_cons] at he
        rcases he with h | h | h | h
        · rw [h]; rfl
        · rw [h]; simp [isPollEvent]
        · rw [h]; simp [isPollEvent]
        · exact h1 e h
      · simp only [pollWindow, List.countP_cons, isUsleep]
        simp only [Bool.false_eq_true, if_false, if_true]
        omega
      · intro _
        have := h3 (by simp [reapedWithin])
        simp only [pollWindow, List.countP_cons, isUsleep, isWaitpid]
        simp only [Bool.false_eq_true, if_false, if_true]
        omega
    | cons a q =>
      by_cases ha : a > 0
      · refine ⟨?_, ?_, ?_⟩
        · intro e he
          simp only [pollWindow, ha, if_true, List.mem_cons, List.mem_singleton,
            List.not_mem_nil, or_false] at he
          rcases he with h | h
          · rw [h]; rfl
          · rw [h]; simp [isPollEvent]
        · simp [pollWindow, ha, isUsleep]
        · intro hr
          simp [reapedWithin, List.take_succ_cons, ha] at hr
      · obtain ⟨h1, h2, h3⟩ := ih q
        refine ⟨?_, ?_, ?_⟩
        · intro e he
          simp only [pollWindow, ha, if_false, List.mem_cons] at he
          rcases he with h | h | h | h
          · rw [h]; rfl
          · rw [h]; simp [isPollEvent]
          · rw [h]; simp [isPollEvent]
          · exact h1 e h
        · simp only [pollWindow, ha, if_false, List.countP_cons, isUsleep]
          simp only [Bool.false_eq_true, if_false, if_true]
          omega
        · intro hr
          have hr2 : reapedWithin q n = false := by
            rw [← hr]
            exact (reapedWithin_succ (a :: q) n (by simpa using ha)).symm
          have := h3 hr2
          simp only [pollWindow, ha, if_false, List.countP_cons, isUsleep, isWaitpid]
          simp only [Bool.false_eq_true, if_false, if_true]
          omega

/-- The polling loop of the source, run with enough iterations, makes exactly
the calls of the window with room for `pollsUntil` polls, and tells whether
the child was reaped; when it was not, every poll was followed by its sleep. -/
theorem pollExit_eq_window (pid : Int) (b : Nat) :
    ∀ (n : Nat) (w : World), pollsUntil ((b + 5) * 1000000) w.clock < n →
      (pollExit pid (b : Int) n w).2.trace
        = w.trace ++ pollWindow pid w.waitpidQ (pollsUntil ((b + 5) * 1000000) w.clock) ∧
      (pollExit pid (b : Int) n w).1
        = reapedWithin w.waitpidQ (pollsUntil ((b + 5) * 1000000) w.clock) ∧
      ((pollExit pid (b : Int) n w).1 = false →
        (pollExit pid (b : Int) n w).2.clock
          = w.clock + 100000 * pollsUntil ((b + 5) * 1000000) w.clock ∧
        (pollExit pid (b : Int) n w).2.waitpidQ
          = w.waitpidQ.drop (pollsUntil ((b + 5) * 1000000) w.clock)) := by
  intro n
  induction n with
  | zero => intro w h; omega
  | succ n ih =>
    intro w hn
    rw [pollExit]
    by_cases hcond : (syscalls.time w).1 - (b : Int) < 5
    · have hlt : w.clock < (b + 5) * 1000000 := by
        have : (((w.clock / 1000000 : Nat) : Int)) - (b : Int) < 5 := hcond
        omega
      obtain ⟨m, hm⟩ : ∃ m, pollsUntil ((b + 5) * 1000000) w.clock = m + 1 := by
        refine ⟨pollsUntil ((b + 5) * 1000000) w.clock - 1, ?_⟩
        unfold pollsUntil
        omega
      have hm2 : pollsUntil ((b + 5) * 1000000) (w.clock + 100000) = m := by
        unfold pollsUntil at hm ⊢
        omega
      rw [if_pos hcond, hm]
      simp only
      by_cases hpos : (syscalls.waitpid pid (syscalls.time w).2).1 > 0
      · rw [if_pos hpos]
        have h3 : w.waitpidQ.headD (-1) > 0 := hpos
        cases hq : w.waitpidQ with
        | nil => rw [hq] at h3; simp at h3
        | cons a q =>
          rw [hq] at h3
          have ha : a > 0 := by simpa using h3
          refine ⟨?_, ?_, ?_⟩
          · simp [pollWindow, ha, syscalls.waitpid, syscalls.time, World.log]
          · simp [reapedWithin, List.take_succ_cons, ha]
          · intro hf
            simp at hf
      · rw [if_neg hpos]
        have h3 : ¬ w.waitpidQ.headD (-1) > 0 := hpos
        have hw2 : (syscalls.usleep 100000 (syscalls.waitpid pid (syscalls.time w).2).2).clock
            = w.clock + 100000 := rfl
        have hq2 : (syscalls.usleep 100000 (syscalls.waitpid pid (syscalls.time w).2).2).waitpidQ
            = w.waitpidQ.tail := rfl
        have ht2 : (syscalls.usleep 100000 (syscalls.waitpid pid (syscalls.time w).2).2).trace
            = w.trace ++ [.time, .waitpid pid, .usleep 100000] := by
          simp [syscalls.usleep, syscalls.waitpid, syscalls.time, World.log]
        obtain ⟨i1, i2, i3⟩ := ih
          (syscalls.usleep 100000 (syscalls.waitpid pid (syscalls.time w).2).2)
          (by rw [hw2, hm2]; omega)
        rw [hw2, hm2, hq2] at i1 i2 i3
        rw [ht2] at i1
        refine ⟨?_, ?_, ?_⟩
        · rw [i1]
          cases hq : w.waitpidQ with
          | nil => simp [pollWindow]
          | cons a q =>
            have ha : ¬ a > 0 := by
              rw [hq] at h3
              simpa using h3
            simp [pollWindow, ha]
        · rw [i2, reapedWithin_succ _ _ h3]
        · intro hf
          obtain ⟨j1, j2⟩ := i3 hf
          refine ⟨by rw [j1]; omega, ?_⟩
          rw [j2]
          cases w.waitpidQ <;> simp
    · have hge : (b + 5) * 1000000 ≤ w.clock := by
        have : ¬ (((w.clock / 1000000 : Nat) : Int)) - (b : Int) < 5 := hcond
        omega
      have hz : pollsUntil ((b + 5) * 1000000) w.clock = 0 := by
        unfold pollsUntil
        omega
      rw [if_neg hcond, hz]
      refine ⟨?_, ?_, ?_⟩
      · cases w.waitpidQ <;> simp [pollWindow, syscalls.time, World.log]
      · simp [reapedWithin]
      · intro _
        exact ⟨rfl, by simp [syscalls.time, World.log]⟩

/-- A window of `restartServer` that starts by reading the clock of `w`. -/
theorem pollExit_window (pid : Int) (w : World) :
    (pollExit pid (syscalls.time w).1 pollFuel (syscalls.time w).2).2.trace
      = w.trace ++ .time :: pollWindow pid w.waitpidQ (windowPolls w.clock) ∧
    (pollExit pid (syscalls.time w).1 pollFuel (syscalls.time w).2).1
      = reapedWithin w.waitpidQ (windowPolls w.clock) ∧
    ((pollExit pid (syscalls.time w).1 pollFuel (syscalls.time w).2).1 = false →
      (pollExit pid (syscalls.time w).1 pollFuel (syscalls.time w).2).2.clock
        = w.clock + 100000 * windowPolls w.clock ∧
      (pollExit pid (syscalls.time w).1 pollFuel (syscalls.time w).2).2.waitpidQ
        = w.waitpidQ.drop (windowPolls w.clock)) := by
  have hb := windowPolls_bounds w.clock
  have h := pollExit_eq_window pid (w.clock / 1000000) pollFuel (syscalls.time w).2
    (by
      show pollsUntil ((w.clock / 1000000 + 5) * 1000000) w.clock < pollFuel
      have : windowPolls w.clock = pollsUntil ((w.clock / 1000000 + 5) * 1000000) w.clock := rfl
      rw [← this]
      simp only [pollFuel]
      omega)
  have h2 : (syscalls.time w).1 = ((w.clock / 1000000 : Nat) : Int) := rfl
  have h3 : (syscalls.time w).2.clock = w.clock := rfl
  have h4 : (syscalls.time w).2.waitpidQ = w.waitpidQ := rfl
  have h5 : (syscalls.time w).2.trace = w.trace ++ [.time] := rfl
  rw [h2]
  rw [h3, h4, h5] at h
  obtain ⟨k1, k2, k3⟩ := h
  refine ⟨?_, k2, k3⟩
  rw [k1]
  simp [windowPolls]

/-- C26: with a helper running (and its channel open), the stop phase of
`restartServer` makes exactly these calls: the close of the channel, a clock
read, and a first polling window; then nothing more when one of the `waitpid`
answers of that window reported the helper as reaped, and otherwise one
`kill(pid, SIGTERM)`, a clock read and a second polling window.  A window
polls (clock read, `waitpid` on the helper, sleep of 100 ms) until an answer
is positive or its polls are used up; it has room for between 41 and 50 polls
(5 seconds from the start of the second in which it starts), makes no other
call, and when the helper is not reaped it makes all of them.  The phase
leaves `pid = 0` and the channel closed, and `socketpair` follows in every
case.  Each loop ends by itself: a larger bound on the number of iterations
gives the same run. -/
theorem restart_bounded_shutdown (s : SpawnManager) (w : World) (hp : s.pid ≠ 0)
    (hc : s.channel.fd ≠ -1) :
    (stopServer s w).2.trace
      = w.trace ++ .channelClose s.channel.fd :: .time
          :: pollWindow s.pid w.waitpidQ (windowPolls w.clock)
        ++ (if reapedWithin w.waitpidQ (windowPolls w.clock) = true then []
            else .kill s.pid SIGTERM :: .time
              :: pollWindow s.pid (w.waitpidQ.drop (windowPolls w.clock))
                  (windowPolls (w.clock + 100000 * windowPolls w.clock))) ∧
    (∀ clock, 41 ≤ windowPolls clock ∧ windowPolls clock ≤ 50) ∧
    (∀ (n : Nat) (q : List Int),
      (∀ e ∈ pollWindow s.pid q n, isPollEvent s.pid e = true) ∧
      (pollWindow s.pid q n).countP isUsleep ≤ n ∧
      (reapedWithin q n = false →
        (pollWindow s.pid q n).countP isWaitpid = n ∧
        (pollWindow s.pid q n).countP isUsleep = n)) ∧
    (stopServer s w).1 = { s with channel := ⟨-1⟩, pid := 0 } ∧
    (∃ post, (restartServer s w).2.2.trace
      = (stopServer s w).2.trace ++ .socketpair :: post) ∧
    (∀ (m : Nat) (w1 : World), pollFuel ≤ m →
      pollExit s.pid (syscalls.time w1).1 m (syscalls.time w1).2
        = pollExit s.pid (syscalls.time w1).1 pollFuel (syscalls.time w1).2) := by
  have hclose : s.channel.close w = (⟨-1⟩, w.log (.channelClose s.channel.fd)) := by
    simp [MessageChannel.close, hc]
  obtain ⟨ht1, hr1, hn1⟩ := pollExit_window s.pid (w.log (.channelClose s.channel.fd))
  have hq : (w.log (.channelClose s.channel.fd)).waitpidQ = w.waitpidQ := rfl
  have hck : (w.log (.channelClose s.channel.fd)).clock = w.clock := rfl
  have htr : (w.log (.channelClose s.channel.fd)).trace
      = w.trace ++ [.channelClose s.channel.fd] := rfl
  rw [hq, hck] at hr1 hn1
  rw [hq, hck, htr] at ht1
  have hpost : ∃ post, (restartServer s w).2.2.trace
      = (stopServer s w).2.trace ++ .socketpair :: post := by
    obtain ⟨post, hpo, _⟩ := startServer_emits (stopServer s w).1 (stopServer s w).2
    refine ⟨post, ?_⟩
    unfold restartServer
    simp only
    rw [hpo]
    simp [syscalls.socketpair, World.log]
  have hfuel : ∀ (m : Nat) (w1 : World), pollFuel ≤ m →
      pollExit s.pid (syscalls.time w1).1 m (syscalls.time w1).2
        = pollExit s.pid (syscalls.time w1).1 pollFuel (syscalls.time w1).2 :=
    fun m w1 hm => pollExit_fuel s.pid w1 m hm
  have hstate : (stopServer s w).1 = { s with channel := ⟨-1⟩, pid := 0 } := by
    unfold stopServer
    simp [hp, hclose]
  refine ⟨?_, windowPolls_bounds, fun n q => pollWindow_calls s.pid n q, hstate, hpost, hfuel⟩
  cases hd : (pollExit s.pid (syscalls.time (w.log (.channelClose s.channel.fd))).1 pollFuel
      (syscalls.time (w.log (.channelClose s.channel.fd))).2).1 with
  | true =>
    rw [← hr1, hd]
    unfold stopServer
    simp only [hp, hclose, hd, ne_eq, not_false_eq_true, if_true]
    rw [if_neg (by decide), ht1]
    simp
  | false =>
    obtain ⟨hk1, hk2⟩ := hn1 hd
    obtain ⟨ht2, _, _⟩ := pollExit_window s.pid (syscalls.kill s.pid SIGTERM
      (pollExit s.pid (syscalls.time (w.log (.channelClose s.channel.fd))).1 pollFuel
        (syscalls.time (w.log (.channelClose s.channel.fd))).2).2)
    have hq2 : (syscalls.kill s.pid SIGTERM
        (pollExit s.pid (syscalls.time (w.log (.channelClose s.channel.fd))).1 pollFuel
          (syscalls.time (w.log (.channelClose s.channel.fd))).2).2).waitpidQ
        = w.waitpidQ.drop (windowPolls w.clock) := hk2
    have hck2 : (syscalls.kill s.pid SIGTERM
        (pollExit s.pid (syscalls.time (w.log (.channelClose s.channel.fd))).1 pollFuel
          (syscalls.time (w.log (.channelClose s.channel.fd))).2).2).clock
        = w.clock + 100000 * windowPolls w.clock := hk1
    have htr2 : (syscalls.kill s.pid SIGTERM
        (pollExit s.pid (syscalls.time (w.log (.channelClose s.channel.fd))).1 pollFuel
          (syscalls.time (w.log (.channelClose s.channel.fd))).2).2).trace
        = (w.trace ++ [.channelClose s.channel.fd] ++ .time
            :: pollWindow s.pid w.waitpidQ (windowPolls w.clock)) ++ [.kill s.pid SIGTERM] := by
      have hkill : ∀ w0 : World, (syscalls.kill s.pid SIGTERM w0).trace
          = w0.trace ++ [.kill s.pid SIGTERM] := fun _ => rfl
      rw [hkill, ht1]
    rw [hq2, hck2, htr2] at ht2
    rw [← hr1, hd]
    unfold stopServer
    simp only [hp, hclose, hd, ne_eq, not_false_eq_true, if_true]
    rw [if_neg (by decide), ht2]
    simp

theorem restart_bounded_shutdown_witness :
    exampleManager.pid ≠ 0 ∧ exampleManager.channel.fd ≠ -1 ∧
    (stopServer exampleManager reapedAtSecondPoll).2.trace
      = [.channelClose 7, .time, .time, .waitpid 100, .usleep 100000, .time, .waitpid 100] ∧
    (stopServer exampleManager (World.init 0)).1
      = { exampleManager with channel := ⟨-1⟩, pid := 0 } ∧
    (stopServer exampleManager (World.init 0)).2.trace.count (.kill 100 SIGTERM) = 1 ∧
    (stopServer exampleManager (World.init 0)).2.trace.countP isWaitpid = 100 := by
  have h2 := restart_bounded_shutdown exampleManager reapedAtSecondPoll (by decide) (by decide)
  obtain ⟨ht, _, hcalls, hs, _, _⟩ :=
    restart_bounded_shutdown exampleManager (World.init 0) (by decide) (by decide)
  refine ⟨by decide, by decide, ?_, hs, ?_, ?_⟩
  · rw [h2.1]
    decide
  · have hr : ∀ n, reapedWithin (World.init 0).waitpidQ n = false := by
      intro n
      simp [reapedWithin, World.init]
    have hk : ∀ (n : Nat) (q : List Int),
        (pollWindow 100 q n).count (.kill 100 SIGTERM) = 0 := by
      intro n q
      rw [List.count_eq_zero]
      intro hm
      simpa [isPollEvent] using (hcalls n q).1 _ hm
    rw [ht, hr]
    simp [List.count_append, List.count_cons, hk, World.init, exampleManager]
  · have hr : ∀ n, reapedWithin (World.init 0).waitpidQ n = false := by
      intro n
      simp [reapedWithin, World.init]
    have hd : ∀ n, (World.init 0).waitpidQ.drop n = [] := by
      intro n
      simp [World.init]
    have hw1 : windowPolls (World.init 0).clock = 50 := by decide
    have hw2 : windowPolls ((World.init 0).clock + 100000 * 50) = 50 := by decide
    have c1 := ((hcalls 50 (World.init 0).waitpidQ).2.2 (hr 50)).1
    have c2 := ((hcalls 50 []).2.2 (by simp [reapedWithin])).1
    rw [ht, hr, hw1, hw2, hd]
    simp only [Bool.false_eq_true, if_false, List.countP_append, List.countP_cons, c1, c2,
      isWaitpid]
    simp [World.init]

/-! ### C28: descriptors of a failed restart -/

/-- C28, the failing path: with a log file configured, a socket pair (3, 4)
created and `fopen` answering `NULL`, `restartServer` raises the `IOException`
after the two calls `socketpair` and `fopen` only: neither descriptor of the
pair is closed. -/
theorem restart_leaks_socket_pair :
    (restartServer loggingManager logFileUnwritable).1
      = .error (.ioException "Cannot open log file '/var/log/spawn.log' for writing.") ∧
    (restartServer loggingManager logFileUnwritable).2.2.trace
      = [.socketpair, .fopen "/var/log/spawn.log"] ∧
    closeCount 3 (restartServer loggingManager logFileUnwritable).2.2.trace = 0 ∧
    closeCount 4 (restartServer loggingManager logFileUnwritable).2.2.trace = 0 := by
  decide

/-- The sibling path: when `fork` fails, both descriptors of the pair are closed
once and the log file handle, if any, is closed. -/
theorem forkServer_failure_closes (s : SpawnManager) (fds : Int × Int) (lf : Option Nat)
    (w : World) (e : Errno) (h : w.forkQ.headD (.fail EAGAIN) = .fail e) :
    (forkServer s fds lf w).1 = .error (.system ⟨"Unable to fork a process", e⟩) ∧
    (forkServer s fds lf w).2.2.trace
      = w.trace ++ [.fork, .close fds.1, .close fds.2]
        ++ (match lf with
            | some hd => [.fclose hd]
            | none => []) := by
  have hf : (syscalls.fork w).1 = .fail e := h
  unfold forkServer
  simp only [hf]
  cases lf <;> simp [syscalls.fork, syscalls.close, syscalls.fclose, World.log]

/-! ### C29: the owner descriptor of a malformed reply -/

/-- C29: when the request is written and the helper answers `ok`, then the
application info `info`, then the descriptor `fd`: if `info` does not have 3
elements, the attempt ends with the `invalid message` exception and no handle,
and its last call is the one `close(fd)` it makes; if `info` has 3 elements the
attempt returns a handle that holds `fd` and makes no `close` call at all. -/
theorem malformed_reply_closes_owner_pipe (opts : PoolOptions) (s : SpawnManager) (w : World)
    (info : List String) (fd : Int) (qw : List (SysResult Unit))
    (qr : List (SysResult (Option (List String)))) (qf : List FdResult)
    (hw : w.chanWriteQ = .ok () :: qw)
    (hr : w.chanReadQ = .ok (some ["ok"]) :: .ok (some info) :: qr)
    (hf : w.chanReadFdQ = .ok fd :: qf) :
    (info.length ≠ 3 →
      (sendSpawnCommand opts s w).1 = .error (.spawn invalidMessage) ∧
      (sendSpawnCommand opts s w).2.trace
        = w.trace ++ [.channelWrite s.channel.fd ("spawn_application" :: opts.toVector),
            .channelRead s.channel.fd, .channelRead s.channel.fd,
            .channelReadFileDescriptor s.channel.fd, .close fd] ∧
      closeCount fd (sendSpawnCommand opts s w).2.trace = closeCount fd w.trace + 1) ∧
    (∀ p a k, info = [p, a, k] →
      (sendSpawnCommand opts s w).1 = .ok ⟨opts.appRoot, atoi p, a, k, fd⟩ ∧
      ∀ d, closeCount d (sendSpawnCommand opts s w).2.trace = closeCount d w.trace) := by
  have hsend : sendSpawnCommand opts s w
      = finishSpawn opts info fd
          (s.channel.readFileDescriptor (s.channel.read (s.channel.read
            (s.channel.write ("spawn_application" :: opts.toVector) w).2).2).2).2 := by
    simp [sendSpawnCommand, readReply, readApplication, MessageChannel.write,
      MessageChannel.read, MessageChannel.readFileDescriptor, World.log, hw, hr, hf]
  have htr : (s.channel.readFileDescriptor (s.channel.read (s.channel.read
        (s.channel.write ("spawn_application" :: opts.toVector) w).2).2).2).2.trace
      = w.trace ++ [.channelWrite s.channel.fd ("spawn_application" :: opts.toVector),
          .channelRead s.channel.fd, .channelRead s.channel.fd,
          .channelReadFileDescriptor s.channel.fd] := by
    simp [MessageChannel.write, MessageChannel.read, MessageChannel.readFileDescriptor,
      World.log]
  constructor
  · intro hn
    have hfin : ∀ w1 : World, finishSpawn opts info fd w1
        = (.error (.spawn invalidMessage), (syscalls.close fd w1).2) := by
      intro w1
      unfold finishSpawn
      split
      · simp at hn
      · rfl
    have ht : (sendSpawnCommand opts s w).2.trace
        = w.trace ++ [.channelWrite s.channel.fd ("spawn_application" :: opts.toVector),
            .channelRead s.channel.fd, .channelRead s.channel.fd,
            .channelReadFileDescriptor s.channel.fd, .close fd] := by
      rw [hsend, hfin]
      simp only [syscalls.close, World.log]
      rw [htr]
      simp
    refine ⟨by rw [hsend, hfin], ht, ?_⟩
    rw [ht]
    simp [closeCount, List.count_append, List.count_cons]
  · intro p a k hi
    subst hi
    obtain ⟨h1, h2, h3⟩ := finishSpawn_trace opts p a k fd
      (s.channel.readFileDescriptor (s.channel.read (s.channel.read
        (s.channel.write ("spawn_application" :: opts.toVector) w).2).2).2).2
    refine ⟨by rw [hsend, h1], ?_⟩
    intro d
    rw [hsend]
    by_cases hk : k = "unix"
    · rw [h2 hk, htr]
      simp [closeCount, List.count_append, List.count_cons, List.count_replicate]
    · rw [h3 hk, htr]
      simp [closeCount, List.count_append, List.count_cons]

theorem malformed_reply_closes_owner_pipe_witness :
    twoElementInfo.chanWriteQ = .ok () :: [] ∧
    twoElementInfo.chanReadQ
      = .ok (some ["ok"]) :: .ok (some ["4321", "/tmp/s.sock"]) :: [] ∧
    twoElementInfo.chanReadFdQ = .ok 9 :: [] ∧
    ["4321", "/tmp/s.sock"].length ≠ 3 ∧
    (sendSpawnCommand exampleOptions exampleManager twoElementInfo).1
      = .error (.spawn invalidMessage) ∧
    closeCount 9 (sendSpawnCommand exampleOptions exampleManager twoElementInfo).2.trace
      = closeCount 9 twoElementInfo.trace + 1 :=
  have h := (malformed_reply_closes_owner_pipe exampleOptions exampleManager twoElementInfo
    ["4321", "/tmp/s.sock"] 9 [] [] [] rfl rfl rfl).1 (by decide)
  ⟨rfl, rfl, rfl, by decide, h.1, h.2.2⟩

/-! ### C21: which operations hold the lock -/

theorem restartServer_lockEvents (s : SpawnManager) (w : World) :
    (restartServer s w).2.2.trace.countP isLockEvent = w.trace.countP isLockEvent := by
  apply restartServer_countP_eq
  · intro e he; cases e <;> simp_all [isStopEvent, isLockEvent]
  · intro e he; cases e <;> simp_all [isForkEvent, isLockEvent]
  · rfl

theorem sendReloadCommand_lockEvents (appRoot : String) (s : SpawnManager) (w : World) :
    (sendReloadCommand appRoot s w).2.trace.countP isLockEvent
      = w.trace.countP isLockEvent := by
  rw [sendReloadCommand_trace]
  simp [List.countP_append, List.countP_cons, isLockEvent]

theorem sendSpawnCommand_unlocked (opts : PoolOptions) (s : SpawnManager) (w : World) :
    Emits (fun e => !isLockEvent e) w (sendSpawnCommand opts s w).2 := by
  obtain ⟨evs, ht, hp⟩ := sendSpawnCommand_trace opts s w
  refine ⟨_, ht, ?_⟩
  intro e he
  rcases List.mem_cons.mp he with h | h
  · rw [h]; rfl
  · have := hp e h
    cases e <;> simp_all [isReplyEvent, isLockEvent]

theorem restartServer_unlocked (s : SpawnManager) (w : World) :
    Emits (fun e => !isLockEvent e) w (restartServer s w).2.2 := by
  obtain ⟨pre, post, ht, hp, hq⟩ := restartServer_trace s w
  refine ⟨pre ++ .socketpair :: post, by rw [ht, List.append_assoc], ?_⟩
  intro e he
  rcases List.mem_append.mp he with h | h
  · have := hp e h
    cases e <;> simp_all [isStopEvent, isLockEvent]
  · rcases List.mem_cons.mp h with h | h
    · rw [h]; rfl
    · have := hq e h
      cases e <;> simp_all [isForkEvent, isLockEvent]

theorem handleSpawnException_unlocked (e : SpawnException) (opts : PoolOptions)
    (s : SpawnManager) (w : World) :
    Emits (fun e => !isLockEvent e) w (handleSpawnException e opts s w).2.2 := by
  by_cases hok : (restartServer s w).1 = .ok ()
  · rw [handleSpawnException_ok _ _ _ _ hok]
    exact Emits.trans (restartServer_unlocked s w) (sendSpawnCommand_unlocked _ _ _)
  · rw [handleSpawnException_failed _ _ _ _ hok]
    exact restartServer_unlocked s w

/-- The sibling path: `spawn` takes the lock first, releases it last, and
everything it does in between happens while the lock is held. -/
theorem spawn_holds_lock (opts : PoolOptions) (s : SpawnManager) (w : World) :
    ∃ evs, (spawn opts s w).2.2.trace = w.trace ++ .mutexLock :: evs ++ [.mutexUnlock] ∧
      ∀ e ∈ evs, isLockEvent e = false := by
  have key : ∀ w2 : World, Emits (fun e => !isLockEvent e) (w.log .mutexLock) w2 →
      ∃ evs, (w2.log .mutexUnlock).trace = w.trace ++ .mutexLock :: evs ++ [.mutexUnlock] ∧
        ∀ e ∈ evs, isLockEvent e = false := by
    intro w2 h
    obtain ⟨evs, ht, hp⟩ := h
    refine ⟨evs, by simp [World.log, ht], ?_⟩
    intro e he
    simpa using hp e he
  have h1 := sendSpawnCommand_unlocked opts s (w.log .mutexLock)
  unfold spawn
  simp only
  split
  · exact key _ h1
  · split
    · exact key _ h1
    · exact key _ (Emits.trans h1 (handleSpawnException_unlocked _ _ _ _))
  · exact key _ h1

/-- C21, the failing path: `reload` never takes the lock.  Whatever the state
and the environment, its trace starts with the write of the command on the
control channel and contains no mutex operation beyond those already there,
also when it restarts the helper and sends the command again. -/
theorem reload_runs_unlocked (appRoot : String) (s : SpawnManager) (w : World) :
    (reload appRoot s w).2.2.trace.countP isLockEvent = w.trace.countP isLockEvent ∧
    ∃ evs, (reload appRoot s w).2.2.trace
      = w.trace ++ .channelWrite s.channel.fd ["reload", appRoot] :: evs := by
  have h1 := sendReloadCommand_trace appRoot s w
  have hres := sendReloadCommand_result appRoot s w
  cases hq : w.chanWriteQ.headD (.fail EPIPE) with
  | ok u =>
    rw [hq] at hres
    have hr : reload appRoot s w = (.ok (), s, (sendReloadCommand appRoot s w).2) := by
      unfold reload
      simp only [hres]
    rw [hr]
    exact ⟨sendReloadCommand_lockEvents appRoot s w, [], h1⟩
  | fail e =>
    rw [hq] at hres
    have hr : reload appRoot s w
        = handleReloadException ⟨"Could not write 'reload' command to the spawn server", e⟩
            appRoot s (sendReloadCommand appRoot s w).2 := by
      unfold reload
      simp only [hres]
    rw [hr]
    obtain ⟨pre, post, ht, _, _⟩ := restartServer_trace s (sendReloadCommand appRoot s w).2
    by_cases hok : (restartServer s (sendReloadCommand appRoot s w).2).1 = .ok ()
    · rw [handleReloadException_ok _ _ _ _ hok]
      refine ⟨?_, ?_⟩
      · simp only
        rw [sendReloadCommand_lockEvents, restartServer_lockEvents,
          sendReloadCommand_lockEvents]
      · simp only
        rw [sendReloadCommand_trace, ht, h1]
        exact ⟨pre ++ .socketpair :: post ++ [.channelWrite
          (restartServer s (sendReloadCommand appRoot s w).2).2.1.channel.fd
          ["reload", appRoot]], by simp⟩
    · rw [handleReloadException_failed _ _ _ _ hok]
      refine ⟨?_, ?_⟩
      · simp only
        rw [restartServer_lockEvents, sendReloadCommand_lockEvents]
      · simp only
        rw [ht, h1]
        exact ⟨pre ++ .socketpair :: post, by simp⟩

/-! ### C27: the state of the supervisor -/

theorem lastUse_snoc (calls : List CacheCall) (call : CacheCall) (f : String) :
    lastUse (calls ++ [call]) f
      = if isStatOf f call = true then calls.length + 1 else lastUse calls f := by
  unfold lastUse
  rw [List.reverse_append]
  by_cases h : isStatOf f call = true
  · simp [List.dropWhile_cons, h]
  · simp [List.dropWhile_cons, h]

theorem lastUse_le (calls : List CacheCall) (f : String) : lastUse calls f ≤ calls.length := by
  unfold lastUse
  have h := (List.dropWhile_sublist (fun c => !isStatOf f c) (l := calls.reverse)).length_le
  simpa using h

theorem refresh_filename (r : Nat) (e : Entry) (w : World) :
    (e.refresh r w).2.1.filename = e.filename := by
  unfold Entry.refresh
  simp only
  split <;> rfl

theorem newNode_fresh (l : List Node) : ∀ n ∈ l, n.id < EntryList.newNode l := by
  induction l with
  | nil => intro n hn; simp at hn
  | cons a l ih =>
    intro n hn
    rcases List.mem_cons.mp hn with h | h
    · subst h
      simp only [EntryList.newNode, List.map_cons, List.foldr_cons]
      omega
    · have := ih n h
      simp only [EntryList.newNode, List.map_cons, List.foldr_cons] at this ⊢
      omega

theorem WellFormed.mem_pairs {c : CachedFileStat} (h : WellFormed c) (p : String × Nat) :
    p ∈ c.cache.pairs ↔ ∃ n ∈ c.entries, nodeKey n = p := by
  rw [h.1.mem_iff, List.mem_map]

theorem WellFormed.node_unique {c : CachedFileStat} (h : WellFormed c) {a b : Node}
    (ha : a ∈ c.entries) (hb : b ∈ c.entries) (hf : a.entry.filename = b.entry.filename) :
    a = b :=
  List.inj_on_of_nodup_map h.2.1 ha hb hf

theorem WellFormed.node_unique_id {c : CachedFileStat} (h : WellFormed c) {a b : Node}
    (ha : a ∈ c.entries) (hb : b ∈ c.entries) (hf : a.id = b.id) : a = b :=
  List.inj_on_of_nodup_map h.2.2 ha hb hf

/-- Under the invariant, looking a listed file up in the map gives the iterator
of its node. -/
theorem WellFormed.find_node {c : CachedFileStat} (h : WellFormed c) {n : Node}
    (hn : n ∈ c.entries) : c.cache.find n.entry.filename = some n.id := by
  unfold EntryMap.find
  cases hf : c.cache.pairs.find? (fun p => decide (p.1 = n.entry.filename)) with
  | none =>
    have hk : nodeKey n ∈ c.cache.pairs := (h.mem_pairs _).mpr ⟨n, hn, rfl⟩
    have := List.find?_eq_none.mp hf _ hk
    simp [nodeKey] at this
  | some p =>
    have hp1 : p.1 = n.entry.filename := by simpa using List.find?_some hf
    have hp2 : p ∈ c.cache.pairs := List.mem_of_find?_eq_some hf
    obtain ⟨m, hm, hmk⟩ := (h.mem_pairs p).mp hp2
    have hmn : m = n := h.node_unique hm hn (by rw [← hp1, ← hmk]; rfl)
    subst hmn
    simp [← hmk, nodeKey]

/-- Under the invariant, a map entry points to a node of the list that holds
the entry of the same filename. -/
theorem WellFormed.find_some {c : CachedFileStat} (h : WellFormed c) {f : String} {it : Nat}
    (hf : c.cache.find f = some it) :
    ∃ n ∈ c.entries, n.entry.filename = f ∧ n.id = it := by
  unfold EntryMap.find at hf
  cases hq : c.cache.pairs.find? (fun p => decide (p.1 = f)) with
  | none => rw [hq] at hf; simp at hf
  | some p =>
    rw [hq] at hf
    have hp1 : p.1 = f := by simpa using List.find?_some hq
    have hp2 : p ∈ c.cache.pairs := List.mem_of_find?_eq_some hq
    obtain ⟨m, hm, hmk⟩ := (h.mem_pairs p).mp hp2
    refine ⟨m, hm, ?_, ?_⟩
    · rw [← hp1, ← hmk]; rfl
    · have : p.2 = it := by simpa using hf
      rw [← this, ← hmk]; rfl

theorem WellFormed.find_none {c : CachedFileStat} (h : WellFormed c) {f : String}
    (hf : c.cache.find f = none) : f ∉ listedFiles c := by
  intro hm
  obtain ⟨n, hn, hnf⟩ := List.mem_map.mp hm
  have := h.find_node hn
  rw [hnf, hf] at this
  simp at this

theorem knows_iff {c : CachedFileStat} (h : WellFormed c) (f : String) :
    knows f c = true ↔ f ∈ listedFiles c := by
  unfold knows
  constructor
  · intro hk
    cases hf : c.cache.find f with
    | none => rw [hf] at hk; simp at hk
    | some it =>
      obtain ⟨n, hn, hnf, _⟩ := h.find_some hf
      exact List.mem_map.mpr ⟨n, hn, hnf⟩
  · intro hm
    obtain ⟨n, hn, hnf⟩ := List.mem_map.mp hm
    rw [← hnf, h.find_node hn]
    rfl

theorem WellFormed.deref_node {c : CachedFileStat} (h : WellFormed c) {n : Node}
    (hn : n ∈ c.entries) : EntryList.deref n.id c.entries = some n.entry := by
  unfold EntryList.deref
  cases hf : c.entries.find? (fun m => decide (m.id = n.id)) with
  | none =>
    have := List.find?_eq_none.mp hf _ hn
    simp at this
  | some m =>
    have hm1 : m.id = n.id := by simpa using List.find?_some hf
    have hm2 : m ∈ c.entries := List.mem_of_find?_eq_some hf
    rw [h.node_unique_id hm2 hn hm1]
    rfl

theorem WellFormed.size_eq {c : CachedFileStat} (h : WellFormed c) :
    c.cache.size = c.entries.length := by
  unfold EntryMap.size
  rw [h.1.length_eq, List.length_map]

theorem popBack_some {c c1 : CachedFileStat} (h : popBack c = some c1) :
    ∃ last, c.entries = c1.entries ++ [last] ∧ c1.cache = c.cache.erase last.entry.filename ∧
      c1.maxSize = c.maxSize ∧ c.entries.getLast? = some last := by
  unfold popBack at h
  cases hl : c.entries.getLast? with
  | none => rw [hl] at h; simp at h
  | some last =>
    rw [hl] at h
    simp only [Option.some.injEq] at h
    subst h
    refine ⟨last, ?_, rfl, rfl, rfl⟩
    have := List.dropLast_append_getLast? last hl
    exact this.symm

theorem popBack_defined {c : CachedFileStat} (h : c.entries ≠ []) :
    ∃ c1, popBack c = some c1 := by
  unfold popBack
  cases hl : c.entries.getLast? with
  | none => exact absurd (List.getLast?_eq_none_iff.mp hl) h
  | some last => exact ⟨_, rfl⟩

theorem erase_pairs_of_snoc {c : CachedFileStat} (h : WellFormed c) (init : List Node)
    (last : Node) (he : c.entries = init ++ [last]) :
    (c.cache.erase last.entry.filename).pairs.Perm (init.map nodeKey) := by
  have hn := h.2.1
  unfold listedFiles at hn
  rw [he, List.map_append, List.nodup_append] at hn
  obtain ⟨_, _, hdis⟩ := hn
  have h1 := h.1.filter (fun p => decide (p.1 ≠ last.entry.filename))
  rw [he, List.map_append, List.filter_append] at h1
  have h2 : List.filter (fun p => decide (p.1 ≠ last.entry.filename)) (init.map nodeKey)
      = init.map nodeKey := by
    rw [List.filter_eq_self]
    intro p hp
    obtain ⟨n, hn1, hn2⟩ := List.mem_map.mp hp
    have hne : n.entry.filename ≠ last.entry.filename := by
      intro heq
      exact hdis (List.mem_map.mpr ⟨n, hn1, rfl⟩) (by simp [heq])
    simpa [← hn2, nodeKey] using hne
  have h3 : List.filter (fun p => decide (p.1 ≠ last.entry.filename)) ([last].map nodeKey)
      = [] := by
    simp [nodeKey]
  rw [h2, h3, List.append_nil] at h1
  exact h1

theorem popBack_wellFormed {c c1 : CachedFileStat} (h : WellFormed c)
    (hp : popBack c = some c1) : WellFormed c1 := by
  obtain ⟨last, he, hc, _, _⟩ := popBack_some hp
  refine ⟨?_, ?_, ?_⟩
  · rw [hc]
    exact erase_pairs_of_snoc h c1.entries last he
  · have hn := h.2.1
    unfold listedFiles at hn ⊢
    rw [he, List.map_append] at hn
    exact (List.nodup_append.mp hn).1
  · have hn := h.2.2
    rw [he, List.map_append] at hn
    exact (List.nodup_append.mp hn).1

/-- Pushing the entry of `f` to the front gives a well-formed cache when the
list holds no node for `f` and the map, `f` aside, agrees with the list. -/
theorem pushFront_wellFormed (f : String) (r : Nat) (entry : Entry) (c : CachedFileStat)
    (w : World) (hperm : (c.cache.erase f).pairs.Perm (c.entries.map nodeKey))
    (hnames : (listedFiles c).Nodup) (hids : (c.entries.map Node.id).Nodup)
    (hf : f ∉ listedFiles c) (he : entry.filename = f) :
    WellFormed (pushFront f r entry c w).2.2.1 := by
  unfold pushFront
  refine ⟨?_, ?_, ?_⟩
  · simp only [EntryMap.set, List.map_cons]
    have hk : nodeKey ⟨EntryList.newNode c.entries, (entry.refresh r w).2.1⟩
        = (f, EntryList.newNode c.entries) := by
      simp [nodeKey, refresh_filename, he]
    rw [hk]
    exact List.Perm.cons _ hperm
  · unfold listedFiles at hnames hf ⊢
    simp only [List.map_cons, refresh_filename, he]
    exact List.nodup_cons.mpr ⟨hf, hnames⟩
  · simp only [List.map_cons]
    refine List.nodup_cons.mpr ⟨?_, hids⟩
    intro hm
    obtain ⟨n, hn, hni⟩ := List.mem_map.mp hm
    have := newNode_fresh c.entries n hn
    omega

theorem erase_absent (m : EntryMap) (f : String) (h : m.find f = none) : m.erase f = m := by
  unfold EntryMap.find at h
  unfold EntryMap.erase
  have h1 : m.pairs.find? (fun p => decide (p.1 = f)) = none := by
    cases hq : m.pairs.find? (fun p => decide (p.1 = f)) with
    | none => rfl
    | some p => rw [hq] at h; simp at h
  have h2 : m.pairs.filter (fun p => decide (p.1 ≠ f)) = m.pairs := by
    rw [List.filter_eq_self]
    intro p hp
    have := List.find?_eq_none.mp h1 p hp
    simpa using this
  rw [h2]

/-- Removing the node of `f` from the list leaves a list that agrees with the
map, `f` aside. -/
theorem erase_node {c : CachedFileStat} (h : WellFormed c) {n : Node} (hn : n ∈ c.entries) :
    (c.cache.erase n.entry.filename).pairs.Perm
      ((EntryList.erase n.id c.entries).map nodeKey) ∧
    n.entry.filename ∉ (EntryList.erase n.id c.entries).map (fun m => m.entry.filename) ∧
    EntryList.erase n.id c.entries
      = c.entries.filter (fun m => decide (m.entry.filename ≠ n.entry.filename)) := by
  have heq : EntryList.erase n.id c.entries
      = c.entries.filter (fun m => decide (m.entry.filename ≠ n.entry.filename)) := by
    unfold EntryList.erase
    apply List.filter_congr
    intro m hm
    by_cases hmn : m = n
    · subst hmn; simp
    · have h1 : m.id ≠ n.id := fun hi => hmn (h.node_unique_id hm hn hi)
      have h2 : m.entry.filename ≠ n.entry.filename := fun hi => hmn (h.node_unique hm hn hi)
      simp [h1, h2]
  refine ⟨?_, ?_, heq⟩
  · rw [heq]
    have h1 := h.1.filter (fun p => decide (p.1 ≠ n.entry.filename))
    have h2 : List.filter (fun p => decide (p.1 ≠ n.entry.filename)) (c.entries.map nodeKey)
        = (c.entries.filter (fun m => decide (m.entry.filename ≠ n.entry.filename))).map
            nodeKey := by
      rw [List.filter_map]
      rfl
    rw [h2] at h1
    exact h1
  · rw [heq]
    intro hm
    obtain ⟨m, hm1, hm2⟩ := List.mem_map.mp hm
    have := (List.mem_filter.mp hm1).2
    simp at this
    exact this hm2

/-- A cache hit: the node of the file is taken out of the list and its entry
is pushed to the front. -/
theorem stat_hit {c : CachedFileStat} (h : WellFormed c) {n : Node} (hn : n ∈ c.entries)
    (r : Nat) (w : World) :
    stat n.entry.filename r c w
      = some (pushFront n.entry.filename r n.entry
          { c with entries := EntryList.erase n.id c.entries } w) := by
  unfold stat
  simp only [h.find_node hn, h.deref_node hn]

theorem stat_miss_room {c : CachedFileStat} {f : String} (hf : c.cache.find f = none)
    (hroom : ¬ (c.maxSize ≠ 0 ∧ c.cache.size = c.maxSize)) (r : Nat) (w : World) :
    stat f r c w = some (pushFront f r (Entry.new f) c w) := by
  unfold stat
  simp only [hf]
  rw [if_neg hroom]

theorem stat_miss_full {c : CachedFileStat} (h : WellFormed c) {f : String}
    (hf : c.cache.find f = none) (hfull : c.maxSize ≠ 0 ∧ c.cache.size = c.maxSize)
    (r : Nat) (w : World) :
    ∃ c1, popBack c = some c1 ∧ stat f r c w = some (pushFront f r (Entry.new f) c1 w) := by
  have hne : c.entries ≠ [] := by
    intro he
    have := h.size_eq
    rw [he] at this
    simp only [List.length_nil] at this
    exact hfull.1 (by rw [← hfull.2, this])
  obtain ⟨c1, hc1⟩ := popBack_defined hne
  refine ⟨c1, hc1, ?_⟩
  unfold stat
  simp only [hf]
  rw [if_pos hfull]
  simp only [hc1]

theorem pushFront_listedFiles (f : String) (r : Nat) (entry : Entry) (c : CachedFileStat)
    (w : World) (he : entry.filename = f) :
    listedFiles (pushFront f r entry c w).2.2.1 = f :: listedFiles c ∧
    (pushFront f r entry c w).2.2.1.maxSize = c.maxSize := by
  unfold pushFront listedFiles
  simp [refresh_filename, he]

/-- What one `stat` call does to the cache, told on the list of filenames:
the call is defined, keeps the invariant and the maximum size, and puts the
file at the front; a file that was listed is taken out of its old place, and
for a new file the last one is dropped when the cache is full. -/
theorem stat_spec {c : CachedFileStat} (h : WellFormed c) (f : String) (r : Nat) (w : World) :
    ∃ res, stat f r c w = some res ∧ WellFormed res.2.2.1 ∧ res.2.2.1.maxSize = c.maxSize ∧
      listedFiles res.2.2.1 = f ::
        (if f ∈ listedFiles c then (listedFiles c).filter (fun g => decide (g ≠ f))
         else if c.maxSize ≠ 0 ∧ c.entries.length = c.maxSize then (listedFiles c).dropLast
         else listedFiles c) := by
  by_cases hm : f ∈ listedFiles c
  · obtain ⟨n, hn, hnf⟩ := List.mem_map.mp hm
    subst hnf
    obtain ⟨h1, h2, h3⟩ := erase_node h hn
    refine ⟨_, stat_hit h hn r w, ?_, ?_, ?_⟩
    · apply pushFront_wellFormed
      · exact h1
      · unfold listedFiles
        simp only
        rw [h3]
        exact (h.2.1.sublist ((List.filter_sublist _).map _))
      · simp only
        rw [h3]
        exact (h.2.2.sublist ((List.filter_sublist _).map _))
      · exact h2
      · rfl
    · exact (pushFront_listedFiles _ _ _ _ _ rfl).2
    · rw [(pushFront_listedFiles _ _ _ _ _ rfl).1, if_pos hm]
      unfold listedFiles
      simp only
      rw [h3, List.filter_map]
      rfl
  · have hf : c.cache.find f = none := by
      cases hq : c.cache.find f with
      | none => rfl
      | some it =>
        obtain ⟨n, hn, hnf, _⟩ := h.find_some hq
        exact absurd (List.mem_map.mpr ⟨n, hn, hnf⟩) hm
    by_cases hfull : c.maxSize ≠ 0 ∧ c.cache.size = c.maxSize
    · obtain ⟨c1, hc1, hs⟩ := stat_miss_full h hf hfull r w
      obtain ⟨last, he, hc, hmax, _⟩ := popBack_some hc1
      have hw1 := popBack_wellFormed h hc1
      have hl1 : listedFiles c1 = (listedFiles c).dropLast := by
        unfold listedFiles
        rw [he]
        simp [List.dropLast_concat]
      have hm1 : f ∉ listedFiles c1 := by
        rw [hl1]
        exact fun hx => hm (List.dropLast_subset _ hx)
      have hf1 : c1.cache.find f = none := by
        cases hq : c1.cache.find f with
        | none => rfl
        | some it =>
          obtain ⟨n, hn, hnf, _⟩ := hw1.find_some hq
          exact absurd (List.mem_map.mpr ⟨n, hn, hnf⟩) hm1
      refine ⟨_, hs, ?_, ?_, ?_⟩
      · apply pushFront_wellFormed
        · rw [erase_absent _ _ hf1]; exact hw1.1
        · exact hw1.2.1
        · exact hw1.2.2
        · exact hm1
        · rfl
      · rw [(pushFront_listedFiles f r (Entry.new f) c1 w rfl).2, hmax]
      · rw [(pushFront_listedFiles f r (Entry.new f) c1 w rfl).1, if_neg hm, hl1, ← h.size_eq,
          if_pos hfull]
    · refine ⟨_, stat_miss_room hf hfull r w, ?_, ?_, ?_⟩
      · apply pushFront_wellFormed
        · rw [erase_absent _ _ hf]; exact h.1
        · exact h.2.1
        · exact h.2.2
        · exact hm
        · rfl
      · exact (pushFront_listedFiles f r (Entry.new f) c w rfl).2
      · rw [(pushFront_listedFiles f r (Entry.new f) c w rfl).1, if_neg hm, ← h.size_eq,
          if_neg hfull]

theorem removeOldest_spec : ∀ (k : Nat) (c c1 : CachedFileStat), WellFormed c →
    removeOldest k c = some c1 →
    WellFormed c1 ∧ c1.maxSize = c.maxSize ∧ k ≤ c.entries.length ∧
      listedFiles c1 = (listedFiles c).take (c.entries.length - k) := by
  intro k
  induction k with
  | zero =>
    intro c c1 h hr
    simp only [removeOldest, Option.some.injEq] at hr
    subst hr
    refine ⟨h, rfl, Nat.zero_le _, ?_⟩
    unfold listedFiles
    rw [Nat.sub_zero, ← List.map_take, List.take_length]
  | succ k ih =>
    intro c c1 h hr
    rw [removeOldest] at hr
    cases hp : popBack c with
    | none => rw [hp] at hr; simp at hr
    | some c2 =>
      rw [hp] at hr
      simp only at hr
      obtain ⟨last, he, _, hmax, _⟩ := popBack_some hp
      obtain ⟨h1, h2, h3, h4⟩ := ih c2 c1 (popBack_wellFormed h hp) hr
      have hlen : c.entries.length = c2.entries.length + 1 := by rw [he]; simp
      refine ⟨h1, by rw [h2, hmax], by omega, ?_⟩
      rw [h4]
      unfold listedFiles
      rw [he, List.map_append, List.take_append_of_le_length (by simp)]
      congr 1
      simp only [List.length_append, List.length_singleton]
      omega

theorem removeOldest_defined : ∀ (k : Nat) (c : CachedFileStat), k ≤ c.entries.length →
    ∃ c1, removeOldest k c = some c1 := by
  intro k
  induction k with
  | zero => intro c _; exact ⟨c, rfl⟩
  | succ k ih =>
    intro c hk
    have hne : c.entries ≠ [] := by
      intro he
      rw [he] at hk
      simp at hk
    obtain ⟨c2, hp⟩ := popBack_defined hne
    obtain ⟨last, he, _, _, _⟩ := popBack_some hp
    have hlen : c.entries.length = c2.entries.length + 1 := by rw [he]; simp
    obtain ⟨c1, hc1⟩ := ih c2 (by omega)
    exact ⟨c1, by rw [removeOldest, hp]; exact hc1⟩

theorem listedFiles_length (c : CachedFileStat) : (listedFiles c).length = c.entries.length := by
  unfold listedFiles
  rw [List.length_map]

theorem toInt_of_small (size n : Nat) (h : size < 2147483648) :
    (toInt ((size : Int) - (n : Int)) ≤ 0 → size ≤ n) ∧
    (0 < toInt ((size : Int) - (n : Int)) →
      (toInt ((size : Int) - (n : Int))).toNat ≤ size →
      size - (toInt ((size : Int) - (n : Int))).toNat ≤ n) ∧
    (n ≤ size + 2147483648 → toInt ((size : Int) - (n : Int)) = (size : Int) - (n : Int)) := by
  unfold toInt
  refine ⟨?_, ?_, ?_⟩ <;> omega

/-- What `setMaxSize` does when it is defined and the cache has fewer than
`2^31` entries. -/
theorem setMaxSize_spec {c c1 : CachedFileStat} (h : WellFormed c) (n : Nat)
    (hsize : c.entries.length < 2147483648) (hs : setMaxSize n c = some c1) :
    WellFormed c1 ∧ c1.maxSize = n ∧ (n ≠ 0 → c1.entries.length ≤ n) ∧
    (∃ k, k ≤ c.entries.length ∧ listedFiles c1 = (listedFiles c).take (c.entries.length - k)) ∧
    (n = 0 → listedFiles c1 = listedFiles c) := by
  unfold setMaxSize at hs
  by_cases hn : n = 0
  · rw [if_neg (not_not.mpr hn)] at hs
    simp only [Option.some.injEq] at hs
    subst hs
    refine ⟨h, rfl, fun h0 => absurd hn h0, ⟨0, Nat.zero_le _, ?_⟩, fun _ => rfl⟩
    rw [Nat.sub_zero, ← listedFiles_length, List.take_length]
    rfl
  · rw [if_pos hn] at hs
    simp only at hs
    cases hr : removeOldest (toInt ((c.cache.size : Int) - (n : Int))).toNat c with
    | none => rw [hr] at hs; simp at hs
    | some c2 =>
      rw [hr] at hs
      simp only [Option.some.injEq] at hs
      subst hs
      obtain ⟨h1, h2, h3, h4⟩ := removeOldest_spec _ c c2 h hr
      have hl : c2.entries.length
          = c.entries.length - (toInt ((c.cache.size : Int) - (n : Int))).toNat := by
        rw [← listedFiles_length, h4, List.length_take, listedFiles_length]
        omega
      refine ⟨h1, rfl, fun _ => ?_, ⟨_, h3, h4⟩, fun h0 => absurd h0 hn⟩
      show c2.entries.length ≤ n
      rw [hl]
      rw [h.size_eq] at h3 ⊢
      obtain ⟨t1, t2, _⟩ := toInt_of_small c.entries.length n hsize
      by_cases hpos : 0 < toInt ((c.entries.length : Int) - (n : Int))
      · exact t2 hpos h3
      · have := t1 (by omega)
        omega

/-- In its working range `setMaxSize` is defined: nothing is removed when `n`
is 0 and otherwise the `n` files at the front of the list are kept. -/
theorem setMaxSize_in_range {c : CachedFileStat} (h : WellFormed c) (n : Nat)
    (hsize : c.entries.length < 2147483648) (hn : n ≤ 2147483648) :
    ∃ c1, setMaxSize n c = some c1 ∧ c1.maxSize = n ∧
      listedFiles c1 = if n = 0 then listedFiles c else (listedFiles c).take n := by
  by_cases h0 : n = 0
  · subst h0
    exact ⟨{ c with maxSize := 0 }, by simp [setMaxSize], rfl, by simp [listedFiles]⟩
  · obtain ⟨_, _, t3⟩ := toInt_of_small c.entries.length n hsize
    have ht := t3 (by omega)
    have hk : (toInt ((c.cache.size : Int) - (n : Int))).toNat ≤ c.entries.length := by
      rw [h.size_eq, ht]
      omega
    obtain ⟨c2, hc2⟩ := removeOldest_defined _ c hk
    obtain ⟨_, _, _, h4⟩ := removeOldest_spec _ c c2 h hc2
    refine ⟨{ c2 with maxSize := n }, ?_, rfl, ?_⟩
    · unfold setMaxSize
      rw [if_pos h0]
      simp only [hc2]
    · rw [if_neg h0]
      show listedFiles c2 = _
      rw [h4, h.size_eq, ht]
      by_cases hle : n ≤ c.entries.length
      · congr 1
        omega
      · rw [List.take_of_length_le (by rw [listedFiles_length]; omega),
          List.take_of_length_le (by rw [listedFiles_length]; omega)]

theorem lastUse_snoc_setMaxSize (calls : List CacheCall) (n : Nat) (f : String) :
    lastUse (calls ++ [.setMaxSize n]) f = lastUse calls f := by
  rw [lastUse_snoc]
  simp [isStatOf]

theorem lastUse_snoc_stat (calls : List CacheCall) (f : String) (r : Nat) (g : String) :
    lastUse (calls ++ [.stat f r]) g = if f = g then calls.length + 1 else lastUse calls g := by
  rw [lastUse_snoc]
  simp [isStatOf]

theorem CacheInvariant.step {calls : List CacheCall} {c c1 : CachedFileStat} {w w1 : World}
    (h : CacheInvariant calls c) (call : CacheCall) (hr : call.run c w = some (c1, w1)) :
    CacheInvariant (calls ++ [call]) c1 := by
  obtain ⟨hwf, hrec, hlen, hbound⟩ := h
  cases call with
  | stat f r =>
    obtain ⟨res, hs, h1, h2, h3⟩ := stat_spec hwf f r w
    have hc1 : c1 = res.2.2.1 := by
      simp only [CacheCall.run, hs, Option.map_some', Option.some.injEq, Prod.mk.injEq] at hr
      exact hr.1.symm
    subst hc1
    have hsub : ∀ rest : List String, rest.Sublist (listedFiles c) → f ∉ rest →
        listedFiles res.2.2.1 = f :: rest →
        (listedFiles res.2.2.1).Pairwise
          (fun a b => lastUse (calls ++ [.stat f r]) b < lastUse (calls ++ [.stat f r]) a) := by
      intro rest hsl hnot heq
      rw [heq, List.pairwise_cons]
      constructor
      · intro b hb
        have hbf : f ≠ b := fun hfb => hnot (hfb ▸ hb)
        rw [lastUse_snoc_stat, lastUse_snoc_stat, if_neg hbf, if_pos rfl]
        have := lastUse_le calls b
        omega
      · refine (hrec.sublist hsl).imp_of_mem ?_
        intro a b ha hb hab
        have haf : f ≠ a := fun hfa => hnot (hfa ▸ ha)
        have hbf : f ≠ b := fun hfb => hnot (hfb ▸ hb)
        rw [lastUse_snoc_stat, lastUse_snoc_stat, if_neg haf, if_neg hbf]
        exact hab
    have hl1 : res.2.2.1.entries.length = (listedFiles res.2.2.1).length :=
      (listedFiles_length _).symm
    by_cases hm : f ∈ listedFiles c
    · rw [if_pos hm] at h3
      have hfl : ((listedFiles c).filter (fun g => decide (g ≠ f))).length + 1
          = c.entries.length := by
        have hfe : (listedFiles c).filter (fun g => decide (g ≠ f)) = (listedFiles c).erase f := by
          rw [hwf.2.1.erase_eq_filter]
          apply List.filter_congr
          intro g _
          by_cases hg : g = f <;> simp [hg]
        rw [hfe, List.length_erase_of_mem hm, listedFiles_length]
        have : 0 < (listedFiles c).length := List.length_pos_of_mem hm
        rw [listedFiles_length] at this
        omega
      refine ⟨h1, hsub _ (List.filter_sublist _) ?_ h3, ?_, ?_⟩
      · intro hx
        have := (List.mem_filter.mp hx).2
        simp at this
      · rw [hl1, h3]
        simp only [List.length_cons, List.length_append, List.length_singleton]
        omega
      · intro hcl hmax
        rw [h2] at hmax ⊢
        have := hbound (by simp at hcl; omega) hmax
        rw [hl1, h3]
        simp only [List.length_cons]
        omega
    · rw [if_neg hm] at h3
      by_cases hfull : c.maxSize ≠ 0 ∧ c.entries.length = c.maxSize
      · rw [if_pos hfull] at h3
        have hdl : (listedFiles c).dropLast.length = c.entries.length - 1 := by
          rw [List.length_dropLast, listedFiles_length]
        refine ⟨h1, hsub _ (List.dropLast_sublist _)
          (fun hx => hm (List.dropLast_subset _ hx)) h3, ?_, ?_⟩
        · rw [hl1, h3]
          simp only [List.length_cons, List.length_append, List.length_singleton, hdl]
          omega
        · intro _ _
          rw [h2, hl1, h3]
          simp only [List.length_cons, hdl]
          omega
      · rw [if_neg hfull] at h3
        refine ⟨h1, hsub _ (List.Sublist.refl _) hm h3, ?_, ?_⟩
        · rw [hl1, h3]
          simp only [List.length_cons, List.length_append, List.length_singleton,
            listedFiles_length]
          omega
        · intro hcl hmax
          rw [h2] at hmax ⊢
          have := hbound (by simp at hcl; omega) hmax
          rw [hl1, h3]
          simp only [List.length_cons, listedFiles_length]
          have hne : c.entries.length ≠ c.maxSize := fun he => hfull ⟨hmax, he⟩
          omega
  | setMaxSize n =>
    cases hs : setMaxSize n c with
    | none => simp [CacheCall.run, hs] at hr
    | some c2 =>
      have hc1 : c1 = c2 := by
        simp only [CacheCall.run, hs, Option.map_some', Option.some.injEq, Prod.mk.injEq] at hr
        exact hr.1.symm
      subst hc1
      have hkey : ∀ hsize : c.entries.length < 2147483648,
          WellFormed c1 ∧ c1.maxSize = n ∧ (n ≠ 0 → c1.entries.length ≤ n) ∧
          (∃ k, k ≤ c.entries.length ∧
            listedFiles c1 = (listedFiles c).take (c.entries.length - k)) ∧
          (n = 0 → listedFiles c1 = listedFiles c) :=
        fun hsize => setMaxSize_spec hwf n hsize hs
      have hshape : WellFormed c1 ∧ ∃ k, k ≤ c.entries.length ∧
          listedFiles c1 = (listedFiles c).take (c.entries.length - k) := by
        unfold setMaxSize at hs
        by_cases hn : n = 0
        · rw [if_neg (not_not.mpr hn)] at hs
          simp only [Option.some.injEq] at hs
          subst hs
          refine ⟨hwf, 0, Nat.zero_le _, ?_⟩
          rw [Nat.sub_zero, ← listedFiles_length, List.take_length]
          rfl
        · rw [if_pos hn] at hs
          simp only at hs
          cases hr2 : removeOldest (toInt ((c.cache.size : Int) - (n : Int))).toNat c with
          | none => rw [hr2] at hs; simp at hs
          | some c3 =>
            rw [hr2] at hs
            simp only [Option.some.injEq] at hs
            subst hs
            obtain ⟨h1, _, h3, h4⟩ := removeOldest_spec _ c c3 hwf hr2
            exact ⟨h1, _, h3, h4⟩
      obtain ⟨h1, k, hk, h4⟩ := hshape
      have hl : c1.entries.length ≤ c.entries.length := by
        rw [← listedFiles_length, h4, List.length_take]
        omega
      refine ⟨h1, ?_, ?_, ?_⟩
      · rw [h4]
        refine (hrec.sublist (List.take_sublist _ _)).imp ?_
        intro a b hab
        rw [lastUse_snoc_setMaxSize, lastUse_snoc_setMaxSize]
        exact hab
      · simp only [List.length_append, List.length_singleton]
        omega
      · intro hcl hmax
        simp only [List.length_append, List.length_singleton] at hcl
        obtain ⟨_, h6, h7, _, _⟩ := hkey (by omega)
        rw [h6] at hmax ⊢
        exact h7 hmax

theorem CacheInvariant.new (maxSize : Nat) : CacheInvariant [] (CachedFileStat.new maxSize) := by
  refine ⟨⟨?_, ?_, ?_⟩, ?_, ?_, ?_⟩ <;> simp [CachedFileStat.new, listedFiles]

/-- The invariant holds after every sequence of calls that is defined. -/
theorem runCache_invariant (rest : List CacheCall) :
    ∀ (done : List CacheCall) (c c1 : CachedFileStat) (w w1 : World),
      CacheInvariant done c → runCache rest c w = some (c1, w1) →
      CacheInvariant (done ++ rest) c1 := by
  induction rest with
  | nil =>
    intro done c c1 w w1 h hr
    simp only [runCache, Option.some.injEq, Prod.mk.injEq] at hr
    rw [List.append_nil, ← hr.1]
    exact h
  | cons call rest ih =>
    intro done c c1 w w1 h hr
    rw [runCache] at hr
    cases hc : call.run c w with
    | none => rw [hc] at hr; simp at hr
    | some x =>
      rw [hc] at hr
      simp only at hr
      have := ih (done ++ [call]) x.1 c1 x.2 w1 (h.step call hc) hr
      simpa using this

/-! ### The stat cache: what one call does -/

theorem cacheAfter_invariant {maxSize : Nat} {calls : List CacheCall} {w : World}
    {c : CachedFileStat} (h : cacheAfter maxSize calls w = some c) :
    CacheInvariant calls c := by
  unfold cacheAfter at h
  cases hr : runCache calls (CachedFileStat.new maxSize) w with
  | none => rw [hr] at h; simp at h
  | some x =>
    rw [hr] at h
    simp only [Option.map_some', Option.some.injEq] at h
    subst h
    have := runCache_invariant calls [] (CachedFileStat.new maxSize) x.1 w x.2
      (CacheInvariant.new maxSize) hr
    simpa using this

theorem refresh_expired (r : Nat) (e : Entry) (w : World)
    (h : r ≤ toUnsignedInt (w.now - e.last_time)) :
    e.refresh r w
      = ((syscalls.stat e.filename e.info (w.log .time)).1,
         { e with last_result := (syscalls.stat e.filename e.info (w.log .time)).1,
                  last_errno := (syscalls.stat e.filename e.info (w.log .time)).2.2.errno,
                  last_time := w.now,
                  info := (syscalls.stat e.filename e.info (w.log .time)).2.1 },
         (syscalls.stat e.filename e.info (w.log .time)).2.2) := by
  unfold Entry.refresh Entry.expired SystemTime.get
  have h2 : (syscalls.time w).1 = w.now := rfl
  simp only [h2, h, decide_True, if_true]
  rfl

theorem refresh_cached (r : Nat) (e : Entry) (w : World)
    (h : toUnsignedInt (w.now - e.last_time) < r) :
    e.refresh r w = (e.last_result, e, { w.log .time with errno := e.last_errno }) := by
  unfold Entry.refresh Entry.expired SystemTime.get
  have h2 : (syscalls.time w).1 = w.now := rfl
  have h3 : ¬ r ≤ toUnsignedInt (w.now - e.last_time) := by omega
  simp only [h2, h3, decide_False]
  rfl

theorem stat_trace (path : String) (buf : Stat) (w : World) :
    (syscalls.stat path buf w).2.2.trace = w.trace ++ [.stat path] := by
  unfold syscalls.stat
  simp only
  split <;> simp [World.log]

/-- The result of `stat` on a file of the list: the entry of its node is
refreshed. -/
theorem stat_listed {c : CachedFileStat} (h : WellFormed c) {n : Node} (hn : n ∈ c.entries)
    (r : Nat) (w : World) :
    ∃ res, stat n.entry.filename r c w = some res ∧ res.1 = (n.entry.refresh r w).1 ∧
      res.2.1 = (n.entry.refresh r w).2.1.info ∧ res.2.2.2 = (n.entry.refresh r w).2.2 :=
  ⟨_, stat_hit h hn r w, rfl, rfl, rfl⟩

/-- C22, the failing input: in a world at 100 s where the file does not exist,
a first `stat` with throttle rate 10 makes the system call and returns -1; a
second one right after it uses the cached information (the trace shows no
second `stat` system call), and it returns -1 with `errno = ENOENT`, where the
documentation of `stat` and of `refresh` promises 0 when no `stat()` is
performed. -/
theorem cached_failure_is_replayed :
    (stat "missing" 10 (CachedFileStat.new 0) noSuchFile).map
        (fun x => (x.1, x.2.2.2.trace)) = some (-1, [.time, .stat "missing"]) ∧
    ((stat "missing" 10 (CachedFileStat.new 0) noSuchFile).bind
        (fun x => stat "missing" 10 x.2.2.1 x.2.2.2)).map
        (fun y => (y.1, y.2.2.2.errno, y.2.2.2.trace))
      = some (-1, 2, [.time, .stat "missing", .time]) := by
  decide

/-- What `stat` returns for a file that is in the cache, with `e` the entry of
its node: when the entry has expired, `stat` makes the system call and returns
0 with the new information if the call succeeded and -1 with the `errno` of
the call if it failed; when the entry has not expired, `stat` makes no system
call and returns the fields of the entry: `last_result`, `last_errno` and the
information. -/
theorem stat_return_value (maxSize : Nat) (calls : List CacheCall) (w0 : World)
    (c : CachedFileStat) (hrun : cacheAfter maxSize calls w0 = some c) (f : String) (r : Nat)
    (w : World) :
    ∀ n ∈ c.entries, n.entry.filename = f →
      ∃ res, stat f r c w = some res ∧
        (r ≤ toUnsignedInt (w.now - n.entry.last_time) →
          res.2.2.2.trace = w.trace ++ [.time, .stat f] ∧
          (∀ info, w.statQ.headD (.fail ENOENT) = .ok info → res.1 = 0 ∧ res.2.1 = info) ∧
          (∀ e, w.statQ.headD (.fail ENOENT) = .fail e →
            res.1 = -1 ∧ res.2.2.2.errno = e.code)) ∧
        (toUnsignedInt (w.now - n.entry.last_time) < r →
          res.2.2.2.trace = w.trace ++ [.time] ∧ res.1 = n.entry.last_result ∧
          res.2.2.2.errno = n.entry.last_errno ∧ res.2.1 = n.entry.info) := by
  intro n hn hf
  subst hf
  obtain ⟨res, hs, h1, h2, h3⟩ := stat_listed (cacheAfter_invariant hrun).1 hn r w
  refine ⟨res, hs, ?_, ?_⟩
  · intro hexp
    rw [refresh_expired r n.entry w hexp] at h1 h2 h3
    simp only at h1 h2 h3
    refine ⟨by rw [h3, stat_trace]; simp [World.log], ?_, ?_⟩
    · intro info hq
      have hq2 : (w.log .time).statQ.headD (.fail ENOENT) = .ok info := hq
      rw [h1, h2]
      unfold syscalls.stat
      simp only [hq2]
      exact ⟨trivial, trivial⟩
    · intro e hq
      have hq2 : (w.log .time).statQ.headD (.fail ENOENT) = .fail e := hq
      rw [h1, h3]
      unfold syscalls.stat
      simp only [hq2]
      exact ⟨trivial, trivial⟩
  · intro hcached
    rw [refresh_cached r n.entry w hcached] at h1 h2 h3
    simp only at h1 h2 h3
    exact ⟨by rw [h3]; rfl, h1, by rw [h3], h2⟩

/-! ### C23: throttling -/

/-- C24: take the cache `c` after any sequence of calls.  A `stat` of `f` is
defined and leaves `f` known.  If `f` was not known and the cache was full
(`maxSize ≠ 0` and as many entries as `maxSize`), then the file at the end of
the list, whose latest `stat` call is older than that of every other known
file, is no longer known, and every other known file still is.  If `f` was
known or the cache was not full, every known file is still known. -/
theorem stat_evicts_oldest (maxSize : Nat) (calls : List CacheCall) (w0 : World)
    (c : CachedFileStat) (hrun : cacheAfter maxSize calls w0 = some c) (f : String) (r : Nat)
    (w : World) :
    ∃ res, stat f r c w = some res ∧ knows f res.2.2.1 = true ∧
      (knows f c = false → c.maxSize ≠ 0 → c.cache.size = c.maxSize →
        ∃ victim, (listedFiles c).getLast? = some victim ∧ knows victim c = true ∧
          knows victim res.2.2.1 = false ∧
          ∀ g, knows g c = true → g ≠ victim →
            knows g res.2.2.1 = true ∧ lastUse calls victim < lastUse calls g) ∧
      ((knows f c = true ∨ c.maxSize = 0 ∨ c.cache.size ≠ c.maxSize) →
        ∀ g, knows g c = true → knows g res.2.2.1 = true) := by
  obtain ⟨hwf, hrec, _, _⟩ := cacheAfter_invariant hrun
  obtain ⟨res, hs, h1, h2, h3⟩ := stat_spec hwf f r w
  have hk : ∀ g, knows g res.2.2.1 = true ↔ g ∈ listedFiles res.2.2.1 := knows_iff h1
  have hkc : ∀ g, knows g c = true ↔ g ∈ listedFiles c := knows_iff hwf
  refine ⟨res, hs, ?_, ?_, ?_⟩
  · rw [hk, h3]
    exact List.mem_cons_self _ _
  · intro hnot hmax hsize
    have hm : f ∉ listedFiles c := by
      rw [← hkc]
      simp [hnot]
    rw [hwf.size_eq] at hsize
    rw [if_neg hm, if_pos ⟨hmax, hsize⟩] at h3
    have hne : listedFiles c ≠ [] := by
      intro he
      have := listedFiles_length c
      rw [he] at this
      simp only [List.length_nil] at this
      omega
    have hsplit : listedFiles c = (listedFiles c).dropLast ++ [(listedFiles c).getLast hne] :=
      (List.dropLast_append_getLast hne).symm
    have hnd := hwf.2.1
    rw [hsplit] at hnd hrec
    have hv : (listedFiles c).getLast hne ∉ (listedFiles c).dropLast := by
      intro hx
      exact (List.nodup_append.mp hnd).2.2 hx (List.mem_singleton_self _)
    refine ⟨(listedFiles c).getLast hne, List.getLast?_eq_getLast _ hne, ?_, ?_, ?_⟩
    · rw [hkc]
      exact List.getLast_mem hne
    · cases hq : knows ((listedFiles c).getLast hne) res.2.2.1 with
      | false => rfl
      | true =>
        rw [hk, h3] at hq
        rcases List.mem_cons.mp hq with h | h
        · exact absurd (h ▸ List.getLast_mem hne) hm
        · exact absurd h hv
    · intro g hg hgv
      rw [hkc, hsplit] at hg
      have hgd : g ∈ (listedFiles c).dropLast := by
        rcases List.mem_append.mp hg with h | h
        · exact h
        · exact absurd (List.mem_singleton.mp h) hgv
      refine ⟨?_, ?_⟩
      · rw [hk, h3]
        exact List.mem_cons_of_mem _ hgd
      · exact (List.pairwise_append.mp hrec).2.2 g hgd _ (List.mem_singleton_self _)
  · intro hcase g hg
    rw [hk, h3]
    rw [hkc] at hg
    by_cases hgf : g = f
    · rw [hgf]
      exact List.mem_cons_self _ _
    · apply List.mem_cons_of_mem
      by_cases hm : f ∈ listedFiles c
      · rw [if_pos hm]
        exact List.mem_filter.mpr ⟨hg, by simpa using hgf⟩
      · rw [if_neg hm]
        have hroom : ¬ (c.maxSize ≠ 0 ∧ c.entries.length = c.maxSize) := by
          rintro ⟨ha, hb⟩
          rcases hcase with h | h | h
          · exact hm ((hkc f).mp h)
          · exact ha h
          · exact h (by rw [hwf.size_eq]; exact hb)
        rw [if_neg hroom]
        exact hg

theorem stat_evicts_oldest_witness :
    cacheAfter 2 threeFiles (World.init 0) = some cacheOfThree ∧
    knows "b" cacheOfThree = false ∧ cacheOfThree.maxSize ≠ 0 ∧
    cacheOfThree.cache.size = cacheOfThree.maxSize ∧
    (stat "b" 0 cacheOfThree (World.init 0)).map (fun x => knows "b" x.2.2.1) = some true ∧
    (stat "b" 0 cacheOfThree (World.init 0)).map (fun x => knows "a" x.2.2.1) = some false ∧
    (stat "b" 0 cacheOfThree (World.init 0)).map (fun x => knows "c" x.2.2.1) = some true := by
  obtain ⟨res, hs, h1, h2, _⟩ := stat_evicts_oldest 2 threeFiles (World.init 0) cacheOfThree
    (by decide) "b" 0 (World.init 0)
  obtain ⟨victim, hv, _, h3, h4⟩ := h2 (by decide) (by decide) (by decide)
  have hva : victim = "a" := by
    have : (listedFiles cacheOfThree).getLast? = some "a" := by decide
    rw [this] at hv
    exact (Option.some.inj hv).symm
  subst hva
  refine ⟨by decide, by decide, by decide, by decide, ?_, ?_, ?_⟩
  · rw [hs]; simp only [Option.map_some', h1]
  · rw [hs]; simp only [Option.map_some', h3]
  · rw [hs]; simp only [Option.map_some', (h4 "c" (by decide) (by decide)).1]

/-! ### C25: `setMaxSize` -/

/-- C25, the failing input: on a cache that holds the two files `b` and `a`,
`setMaxSize(4294967295)` computes `toRemove = 3` (the difference
`2 - 4294967295` does not fit `int`), so that the loop removes both files and
then asks an empty list for its last element: the call is not defined, where
both files should have stayed known.  With the maximum size 2147483648 the
same cache keeps both files. -/
theorem setMaxSize_overflow :
    (cacheAfter 0 twoFiles (World.init 0)).map listedFiles = some ["b", "a"] ∧
    toInt ((2 : Int) - 4294967295) = 3 ∧
    (cacheAfter 0 twoFiles (World.init 0)).bind (removeOldest 2)
      = some { maxSize := 0, entries := [], cache := ⟨[]⟩ } ∧
    (cacheAfter 0 twoFiles (World.init 0)).bind (setMaxSize 4294967295) = none ∧
    ((cacheAfter 0 twoFiles (World.init 0)).bind (setMaxSize 2147483648)).map listedFiles
      = some ["b", "a"] := by
  decide

/-! ### C30: the structure of the cache -/

/-- A sequence of fewer than `2^31` calls whose `setMaxSize` arguments are at
most `2^31` is defined: no call steps back from the end of an empty list or
follows an iterator that does not point into the list. -/
theorem runCache_defined (rest : List CacheCall) :
    ∀ (done : List CacheCall) (c : CachedFileStat) (w : World), CacheInvariant done c →
      (done ++ rest).length < 2147483648 →
      (∀ n, CacheCall.setMaxSize n ∈ rest → n ≤ 2147483648) →
      ∃ x, runCache rest c w = some x := by
  induction rest with
  | nil => intro done c w _ _ _; exact ⟨(c, w), rfl⟩
  | cons call rest ih =>
    intro done c w h hlen hn
    have hstep : ∃ x, call.run c w = some x := by
      cases call with
      | stat f r =>
        obtain ⟨res, hs, _⟩ := stat_spec h.1 f r w
        exact ⟨(res.2.2.1, res.2.2.2), by simp only [CacheCall.run, hs, Option.map_some']⟩
      | setMaxSize n =>
        have hsize : c.entries.length < 2147483648 := by
          have := h.2.2.1
          simp only [List.length_append] at hlen
          omega
        obtain ⟨c1, hs, _⟩ := setMaxSize_in_range h.1 n hsize
          (hn n (List.mem_cons_self _ _))
        exact ⟨(c1, w), by simp only [CacheCall.run, hs, Option.map_some']⟩
    obtain ⟨x, hx⟩ := hstep
    have hinv := h.step call hx
    obtain ⟨y, hy⟩ := ih (done ++ [call]) x.1 x.2 hinv (by simpa using hlen)
      (fun n hm => hn n (List.mem_cons_of_mem _ hm))
    exact ⟨y, by rw [runCache, hx]; exact hy⟩

end Passenger
